import Mathlib

/-!
AT four-phase target (`at_target_4_phase.cpp`) and the generic payload (`tlm_gp.h`)

A shallow embedding of the approximately-timed TLM target and of the
generic payload it works on.

Conventions of the embedding

* Objects live at addresses (`Ptr`); a transaction is identified by the address
  of its `tlm_generic_payload`, a byte buffer by the address an
  `unsigned char*` holds.  Queues hold addresses, exactly as the
  `std::queue<tlm_generic_payload*>` members do.
* `sc_dt::uint64` values are naturals with explicit reduction modulo `2^64`,
  `unsigned int` values naturals below `2^32`, `int` values are integers
  obtained by the two's-complement conversion, `size_t` is 64 bits wide.
* A byte is a natural number; the code only copies bytes and writes zero.
* A call has one of three outcomes: it returns, it stops in `REPORT_FATAL`,
  or it performs an access the language leaves undefined (`front()` of an
  empty `std::queue`, an access beyond the end of a buffer).
* Calls made to the simulation kernel (`notify`, `next_trigger`) and through
  the socket (`nb_transport` towards the initiator) are recorded, in order,
  in a log; the verdict the initiator returns is an argument of the activity.
  The initiator answers an outbound call with its verdict alone: it neither
  calls back into the target nor changes the transaction before it returns.
* The store `m_memory` is a list of bytes of any content (the constructor
  allocates it and does not fill it); theorems that need its length to be
  `m_memory_size` say so.
-/

namespace tlm

/-- An address of an object or of a byte buffer; `0` is the null pointer. -/
abbrev Ptr := Nat

/-- The enumeration `tlm_command` of `tlm_gp.h`. -/
inductive tlm_command where
  | TLM_READ_COMMAND
  | TLM_WRITE_COMMAND
  | TLM_IGNORE_COMMAND
  deriving DecidableEq, Repr

/-- The enumeration `tlm_response_status` of `tlm_gp.h`. -/
inductive tlm_response_status where
  | TLM_OK_RESPONSE
  | TLM_INCOMPLETE_RESPONSE
  | TLM_GENERIC_ERROR_RESPONSE
  | TLM_ADDRESS_ERROR_RESPONSE
  | TLM_COMMAND_ERROR_RESPONSE
  | TLM_BURST_ERROR_RESPONSE
  | TLM_BYTE_ENABLE_ERROR_RESPONSE
  deriving DecidableEq, Repr

/-- The enumerator values of `tlm_response_status`. -/
def tlm_response_status.toInt : tlm_response_status → Int
  | .TLM_OK_RESPONSE => 1
  | .TLM_INCOMPLETE_RESPONSE => 0
  | .TLM_GENERIC_ERROR_RESPONSE => -1
  | .TLM_ADDRESS_ERROR_RESPONSE => -2
  | .TLM_COMMAND_ERROR_RESPONSE => -3
  | .TLM_BURST_ERROR_RESPONSE => -4
  | .TLM_BYTE_ENABLE_ERROR_RESPONSE => -5

/-- The data members of `tlm_generic_payload`.  `m_data`, `m_byte_enable` and
the entries of `m_extensions` are pointers. -/
structure tlm_generic_payload where
  m_command : tlm_command
  m_address : Nat
  m_data : Ptr
  m_length : Nat
  m_response_status : tlm_response_status
  m_byte_enable : Ptr
  m_byte_enable_length : Nat
  m_streaming_width : Nat
  m_extensions : List Ptr
  m_dmi : Bool
  deriving DecidableEq, Repr

/-- Modelled from the spec: the phase type `tlm_phase` (its header is not among
the sources).  The four handshake phases of the glossary, and `other` for any
further value the `default:` label of a `switch` over a phase can meet. -/
inductive tlm_phase where
  | BEGIN_REQ
  | END_REQ
  | BEGIN_RESP
  | END_RESP
  | other (v : Nat)
  deriving DecidableEq, Repr

/-- Modelled from the spec: the verdict type `tlm_sync_enum` (its header is not
among the sources); section 6 lists `ACCEPTED`, `UPDATED`, `COMPLETED`. -/
inductive tlm_sync_enum where
  | TLM_ACCEPTED
  | TLM_UPDATED
  | TLM_COMPLETED
  deriving DecidableEq, Repr

end tlm

open tlm

/-- The three `sc_event` members of `at_target_4_phase`. -/
inductive sc_event where
  | m_end_request_event
  | m_begin_response_event
  | m_end_response_event
  deriving DecidableEq, Repr

/-- A call that leaves the module: to the kernel or through the socket. -/
inductive Effect where
  | notify (e : sc_event) (delay : Nat)
  | next_trigger (e : sc_event)
  | send (gp : Ptr) (phase : tlm_phase) (delay : Nat)
  deriving DecidableEq, Repr

/-- The data members of `at_target_4_phase`.  Times (`sc_time`) are counted in
time units; `m_memory` is the array allocated by the constructor. -/
structure at_target_4_phase where
  m_ID : Nat
  m_base_address : Nat
  m_memory_size : Nat
  m_memory_width : Nat
  m_accept_delay : Nat
  m_read_response_delay : Nat
  m_write_response_delay : Nat
  m_memory : List Nat
  m_end_request_queue : List Ptr
  m_response_queue : List Ptr
  m_end_response_queue : List Ptr
  begin_response_QActive : Bool
  end_request_QActive : Bool
  deriving DecidableEq, Repr

/-- The state a call works on: the target, the transactions and byte buffers of
the initiator side, and the log of outbound calls. -/
structure Sim where
  target : at_target_4_phase
  payload : Ptr → tlm_generic_payload
  bytes : Ptr → List Nat
  log : List Effect

/-- The outcome of a call. `fatal` carries the state at the `REPORT_FATAL`. -/
inductive Result (ρ : Type) where
  | ret (r : ρ) (s : Sim)
  | fatal (s : Sim)
  | undefined

/-- Modelled from the spec: the macro `REPORT_FATAL` of `reporting.h` (not among
the sources); section 7: a fatal report aborts the simulation run, so nothing
after it is executed. -/
def REPORT_FATAL {ρ : Type} (s : Sim) : Result ρ := Result.fatal s

/-- Record an outbound call. -/
def Sim.emit (s : Sim) (e : Effect) : Sim := { s with log := s.log ++ [e] }

/-- Replace the target inside the state. -/
def Sim.withTarget (s : Sim) (t : at_target_4_phase) : Sim := { s with target := t }

/-- The member function `set_response_status` applied to the payload at `gp`. -/
def Sim.set_response_status (s : Sim) (gp : Ptr) (r : tlm_response_status) : Sim :=
  { s with payload := Function.update s.payload gp { s.payload gp with m_response_status := r } }

/-- Two to the 64, the modulus of `sc_dt::uint64` and `size_t`. -/
def U64 : Nat := 2 ^ 64

/-- Conversion of an `unsigned int` to `int` (`int length = gp.get_data_length()`). -/
def toInt32 (n : Nat) : Int :=
  if n % 2 ^ 32 < 2 ^ 31 then ((n % 2 ^ 32 : Nat) : Int) else ((n % 2 ^ 32 : Nat) : Int) - 2 ^ 32

/-- Conversion of an `int` to `size_t` (the third argument of `memset`). -/
def toSizeT (i : Int) : Nat := (i % (2 ^ 64 : Int)).toNat

/-- The call `memset(data, 0, count)` on the buffer `buf` that `data` points to:
undefined when `count` bytes do not fit in the buffer. -/
def memset0 (buf : List Nat) (count : Nat) : Option (List Nat) :=
  if count ≤ buf.length then some (List.replicate count 0 ++ buf.drop count) else none

/-- The write loop of `memory_operation`, lines 476-484.
`for (int i = 0; i < length; i++) { if (address >= m_memory_size) break;
m_memory[address++] = data[i]; }` with `n` iterations left. -/
def write_loop (m_memory_size : Nat) (data : List Nat) :
    Nat → Nat → Nat → List Nat → Option (List Nat)
  | 0, _, _, mem => some mem
  | n + 1, i, address, mem =>
    if address ≥ m_memory_size then some mem
    else
      match data[i]? with
      | none => none
      | some b =>
        if address < mem.length then
          write_loop m_memory_size data n (i + 1) ((address + 1) % U64) (mem.set address b)
        else none

/-- The read loop of `memory_operation`, lines 511-521.
`for (int i = 0; i < length; i++) { if (address >= m_memory_size) break;
data[i] = m_memory[address++]; }` with `n` iterations left. -/
def read_loop (m_memory_size : Nat) (mem : List Nat) :
    Nat → Nat → Nat → List Nat → Option (List Nat)
  | 0, _, _, data => some data
  | n + 1, i, address, data =>
    if address ≥ m_memory_size then some data
    else
      match mem[address]? with
      | none => none
      | some b =>
        if i < data.length then
          read_loop m_memory_size mem n (i + 1) ((address + 1) % U64) (data.set i b)
        else none

/-- The member function `at_target_4_phase::memory_operation`, lines 429-532. -/
def memory_operation (gp : Ptr) (s : Sim) : Result Unit :=
  let address := (s.payload gp).m_address
  let command := (s.payload gp).m_command
  let data := (s.payload gp).m_data
  let length : Int := toInt32 (s.payload gp).m_length
  match command with
  | .TLM_WRITE_COMMAND =>
    -- the report loop reads data[0 .. length-1]
    if (s.bytes data).length < length.toNat then Result.undefined
    else
      let address := (address + U64 - s.target.m_base_address % U64) % U64
      if address < s.target.m_base_address ∨ address ≥ s.target.m_memory_size then
        Result.ret () (s.set_response_status gp .TLM_OK_RESPONSE)
      else
        match write_loop s.target.m_memory_size (s.bytes data) length.toNat 0 address
            s.target.m_memory with
        | none => Result.undefined
        | some mem =>
          Result.ret ()
            ((s.withTarget { s.target with m_memory := mem }).set_response_status gp
              .TLM_OK_RESPONSE)
  | .TLM_READ_COMMAND =>
    let address := (address + U64 - s.target.m_base_address % U64) % U64
    match memset0 (s.bytes data) (toSizeT length) with
    | none => Result.undefined
    | some zeroed =>
      if address < s.target.m_base_address ∨ address ≥ s.target.m_memory_size then
        Result.ret ()
          ({ s with bytes := Function.update s.bytes data zeroed }.set_response_status gp
            .TLM_OK_RESPONSE)
      else
        match read_loop s.target.m_memory_size s.target.m_memory length.toNat 0 address
            zeroed with
        | none => Result.undefined
        | some buf =>
          Result.ret ()
            ({ s with bytes := Function.update s.bytes data buf }.set_response_status gp
              .TLM_OK_RESPONSE)
  | .TLM_IGNORE_COMMAND => REPORT_FATAL s

/-- The member function `at_target_4_phase::nb_transport`, lines 137-211: the
inbound call of the initiator with the transaction at `gp`. -/
def nb_transport (gp : Ptr) (phase : tlm_phase) (delay_time : Nat) (s : Sim) :
    Result tlm_sync_enum :=
  let _ := delay_time
  match phase with
  | .BEGIN_REQ =>
    let s1 :=
      if s.target.m_end_request_queue = [] then s.emit (.notify .m_end_request_event 0) else s
    Result.ret .TLM_ACCEPTED
      (s1.withTarget
        { s1.target with m_end_request_queue := s1.target.m_end_request_queue ++ [gp] })
  | .END_RESP =>
    match s.target.m_end_response_queue with
    | [] => Result.undefined
    | transaction_ptr :: rest =>
      if transaction_ptr ≠ gp then REPORT_FATAL s
      else
        Result.ret .TLM_COMPLETED
          ((s.withTarget { s.target with m_end_response_queue := rest }).emit
            (.notify .m_end_response_event 0))
  | .BEGIN_RESP => REPORT_FATAL s
  | .END_REQ => REPORT_FATAL s
  | .other _ => REPORT_FATAL s

/-- The second half of `end_request_method`, lines 264-275: go idle or re-arm. -/
def end_request_rearm (s : Sim) : Result Unit :=
  let s1 :=
    if s.target.m_end_request_queue = [] then
      s.withTarget { s.target with end_request_QActive := false }
    else
      (s.withTarget { s.target with end_request_QActive := true }).emit
        (.notify .m_end_request_event s.target.m_accept_delay)
  Result.ret () (s1.emit (.next_trigger .m_end_request_event))

/-- The member function `at_target_4_phase::end_request_method`, lines 229-276.
`verdict` is what the initiator returns for the `END_REQ` call. -/
def end_request_method (verdict : tlm_sync_enum) (s : Sim) : Result Unit :=
  if s.target.end_request_QActive then
    match s.target.m_end_request_queue with
    | [] => Result.undefined
    | transaction_ptr :: rest =>
      let s1 := s.withTarget { s.target with m_end_request_queue := rest }
      let s2 :=
        if s1.target.m_response_queue = [] then s1.emit (.notify .m_begin_response_event 0)
        else s1
      let s3 :=
        s2.withTarget { s2.target with m_response_queue := s2.target.m_response_queue ++ [transaction_ptr] }
      let s4 := s3.emit (.send transaction_ptr .END_REQ 0)
      match verdict with
      | .TLM_ACCEPTED => end_request_rearm s4
      | _ => REPORT_FATAL s4
  else end_request_rearm s

/-- The second half of `begin_response_method`, lines 338-370: check the
response queue for another transaction. -/
def begin_response_rearm (s : Sim) : Result Unit :=
  match s.target.m_response_queue with
  | [] =>
    Result.ret ()
      ((s.withTarget { s.target with begin_response_QActive := false }).emit
        (.next_trigger .m_begin_response_event))
  | transaction_ptr :: _ =>
    let s1 := s.withTarget { s.target with begin_response_QActive := true }
    if (s1.payload transaction_ptr).m_command = .TLM_READ_COMMAND then
      Result.ret ()
        ((s1.emit (.notify .m_begin_response_event s1.target.m_read_response_delay)).emit
          (.next_trigger .m_begin_response_event))
    else if (s1.payload transaction_ptr).m_command = .TLM_WRITE_COMMAND then
      Result.ret ()
        ((s1.emit (.notify .m_begin_response_event s1.target.m_write_response_delay)).emit
          (.next_trigger .m_begin_response_event))
    else REPORT_FATAL s1

/-- The member function `at_target_4_phase::begin_response_method`, lines
294-371.  `verdict` is what the initiator returns for the `BEGIN_RESP` call. -/
def begin_response_method (verdict : tlm_sync_enum) (s : Sim) : Result Unit :=
  if s.target.begin_response_QActive then
    match s.target.m_response_queue with
    | [] => Result.undefined
    | transaction_ptr :: rest =>
      let s1 := s.withTarget { s.target with m_response_queue := rest }
      match memory_operation transaction_ptr s1 with
      | Result.undefined => Result.undefined
      | Result.fatal s2 => Result.fatal s2
      | Result.ret _ s2 =>
        let s3 := s2.set_response_status transaction_ptr .TLM_OK_RESPONSE
        let s4 := s3.emit (.send transaction_ptr .BEGIN_RESP 0)
        match verdict with
        | .TLM_ACCEPTED =>
          let s5 :=
            s4.withTarget
              { s4.target with
                m_end_response_queue := s4.target.m_end_response_queue ++ [transaction_ptr]
                begin_response_QActive := false }
          begin_response_rearm (s5.emit (.next_trigger .m_end_response_event))
        | _ => REPORT_FATAL s4
  else begin_response_rearm s

/-! ## Observing outcomes -/

/-- The state of the returned call, when the call returned. -/
def Result.state? {ρ : Type} : Result ρ → Option Sim
  | .ret _ s => some s
  | _ => none

/-- Run `f` in the state the call returned in. -/
def Result.andThen {ρ σ : Type} (r : Result ρ) (f : Sim → Result σ) : Result σ :=
  match r with
  | .ret _ s => f s
  | .fatal s => .fatal s
  | .undefined => .undefined

/-- The delays of the notifications of event `e` in a log, in order. -/
def armed (e : sc_event) (log : List Effect) : List Nat :=
  log.filterMap fun x =>
    match x with
    | .notify e' d => if e' = e then some d else none
    | _ => none

/-- The transactions sent with phase `ph` in a log, in order. -/
def sent (ph : tlm_phase) (log : List Effect) : List Ptr :=
  log.filterMap fun x =>
    match x with
    | .send gp ph' _ => if ph' = ph then some gp else none
    | _ => none

/-- The concatenation of the three queues: end-request, response, end-response. -/
def queued (t : at_target_4_phase) : List Ptr :=
  t.m_end_request_queue ++ t.m_response_queue ++ t.m_end_response_queue

/-! ## Concrete states -/

/-- A payload with the given command, address, data pointer and length, as the
default constructor leaves the other members. -/
def mk_payload (c : tlm_command) (address : Nat) (data : Ptr) (length : Nat) :
    tlm_generic_payload :=
  { m_command := c, m_address := address, m_data := data, m_length := length,
    m_response_status := .TLM_INCOMPLETE_RESPONSE, m_byte_enable := 0,
    m_byte_enable_length := 0, m_streaming_width := 0, m_extensions := [], m_dmi := false }

/-- A target as the constructor leaves it (queues empty, both activities idle)
with the given base address, size and store, and the delays 10, 20, 15 of the
scenario of section 8. -/
def mk_target (base size : Nat) (mem : List Nat) : at_target_4_phase :=
  { m_ID := 1, m_base_address := base, m_memory_size := size, m_memory_width := 4,
    m_accept_delay := 10, m_read_response_delay := 20, m_write_response_delay := 15,
    m_memory := mem, m_end_request_queue := [], m_response_queue := [],
    m_end_response_queue := [], begin_response_QActive := false, end_request_QActive := false }

/-- Base `0x100`, sixteen bytes of store, all zero.  Transaction 1 writes the
byte `0xAB` to address `0x100`; transaction 2 reads one byte from `0x100`. -/
def c1_sim : Sim :=
  { target := mk_target 0x100 0x10 (List.replicate 16 0)
    payload := fun p =>
      if p = 1 then mk_payload .TLM_WRITE_COMMAND 0x100 1000 1
      else mk_payload .TLM_READ_COMMAND 0x100 2000 1
    bytes := fun p => if p = 1000 then [0xAB] else if p = 2000 then [0xFF] else []
    log := [] }

/-- Base `0x100`, sixteen bytes of store.  Transaction 1 reads `2^31` bytes from
address `0x200`, beyond the store, into a buffer of `2^31` bytes. -/
def c2_sim : Sim :=
  { target := mk_target 0x100 0x10 (List.replicate 16 0)
    payload := fun _ => mk_payload .TLM_READ_COMMAND 0x200 2000 2147483648
    bytes := fun p => if p = 2000 then List.replicate 2147483648 0xFF else []
    log := [] }

/-- Base `0x100`, sixteen bytes of store, all zero.  Transaction 1 writes the two
bytes `0xAA 0xBB` to address `0x10F`, the last byte of the store. -/
def c3_sim : Sim :=
  { target := mk_target 0x100 0x10 (List.replicate 16 0)
    payload := fun _ => mk_payload .TLM_WRITE_COMMAND 0x10F 1000 2
    bytes := fun p => if p = 1000 then [0xAA, 0xBB] else []
    log := [] }

/-- Base `0x100`, sixteen bytes of store whose first byte is `0xAB`.
Transaction 1 reads one byte from address `0x100`. -/
def c4_sim : Sim :=
  { target := mk_target 0x100 0x10 (0xAB :: List.replicate 15 0)
    payload := fun _ => mk_payload .TLM_READ_COMMAND 0x100 2000 1
    bytes := fun p => if p = 2000 then [0xFF] else []
    log := [] }

/-- A target just constructed: the three queues are empty. -/
def c5_sim : Sim :=
  { target := mk_target 0 0x200 (List.replicate 0x200 0)
    payload := fun _ => mk_payload .TLM_WRITE_COMMAND 0x100 1000 4
    bytes := fun p => if p = 1000 then [0xDE, 0xAD, 0xBE, 0xEF] else []
    log := [] }

/-! ## Runs of the engine -/

/-- The target as the constructor leaves it: the three queues empty, both
activities idle. -/
def Initial (s : Sim) : Prop :=
  s.target.m_end_request_queue = [] ∧ s.target.m_response_queue = [] ∧
  s.target.m_end_response_queue = [] ∧
  s.target.begin_response_QActive = false ∧ s.target.end_request_QActive = false

/-- One step of the engine that did not abort: an inbound `nb_transport` call
that returned, or a firing of one of the two activities that returned.
`offers s gp` says which transactions the initiator may present with
`BEGIN_REQ` in state `s`. -/
inductive Step (offers : Sim → Ptr → Prop) : Sim → Sim → Prop where
  | inbound (s s' : Sim) (gp : Ptr) (phase : tlm_phase) (delay_time : Nat) (r : tlm_sync_enum) :
      (phase = .BEGIN_REQ → offers s gp) →
      nb_transport gp phase delay_time s = Result.ret r s' → Step offers s s'
  | end_request (s s' : Sim) (verdict : tlm_sync_enum) :
      end_request_method verdict s = Result.ret () s' → Step offers s s'
  | begin_response (s s' : Sim) (verdict : tlm_sync_enum) :
      begin_response_method verdict s = Result.ret () s' → Step offers s s'

/-- The states reached from an initial state by steps that did not abort. -/
def Reachable (offers : Sim → Ptr → Prop) (s : Sim) : Prop :=
  ∃ s0, Initial s0 ∧ Relation.ReflTransGen (Step offers) s0 s

/-- The initiator presents any transaction at any time. -/
def anyOffer : Sim → Ptr → Prop := fun _ _ => True

/-- The initiator presents with `BEGIN_REQ` only a transaction that is in none of
the three queues. -/
def freshOffer : Sim → Ptr → Prop := fun s gp => gp ∉ queued s.target

/-- The state in which an active firing of the end-request activity sends
`END_REQ` for the front `t` of its queue. -/
def end_request_sent (s : Sim) (t : Ptr) (rest : List Ptr) : Sim :=
  let s1 := s.withTarget { s.target with m_end_request_queue := rest }
  let s2 :=
    if s1.target.m_response_queue = [] then s1.emit (.notify .m_begin_response_event 0)
    else s1
  let s3 :=
    s2.withTarget { s2.target with m_response_queue := s2.target.m_response_queue ++ [t] }
  s3.emit (.send t .END_REQ 0)

/-! ## Simulated time for the end-request event -/

/-- Modelled from the spec: the kernel's delayed notification
(`sc_event::notify`; the kernel is not among the sources).  Sections 5 and 9: a
notification with delay `d` made at time `now` schedules the wake-up at
`now + d`; while a notification is pending, the earlier of the two stands. -/
def sc_notify (now : Nat) (wake : Option Nat) (d : Nat) : Option Nat :=
  match wake with
  | none => some (now + d)
  | some t => some (min t (now + d))

/-- The notifications of `e` a call added to the log, applied in order to the
pending wake-up of `e`. -/
def schedule (e : sc_event) (now : Nat) (wake : Option Nat) (before after : List Effect) :
    Option Nat :=
  ((armed e after).drop (armed e before).length).foldl (sc_notify now) wake

/-- The engine with the simulated time and the pending wake-up time of
`m_end_request_event`. -/
structure Timed where
  now : Nat
  wake : Option Nat
  sim : Sim

/-- A firing of the end-request activity that returned: the pending notification
of `m_end_request_event` has matured (`next_trigger(m_end_request_event)` is
the only trigger of the activity), the method runs at that time, and what it
notifies is scheduled from that time. -/
def Fire (verdict : tlm_sync_enum) (c c' : Timed) : Prop :=
  c.wake = some c.now ∧
  ∃ s', end_request_method verdict c.sim = Result.ret () s' ∧
    c' = { now := c.now
           wake := schedule .m_end_request_event c.now none c.sim.log s'.log
           sim := s' }

/-- What happens between two firings of the end-request activity: time advances,
not beyond the pending wake-up; the initiator calls `nb_transport`; the
begin-response activity fires. -/
inductive Quiet : Timed → Timed → Prop where
  | advance (c : Timed) (t : Nat) :
      c.now ≤ t → (∀ w, c.wake = some w → t ≤ w) → Quiet c { c with now := t }
  | inbound (c : Timed) (gp : Ptr) (phase : tlm_phase) (delay_time : Nat) (r : tlm_sync_enum)
      (s' : Sim) :
      nb_transport gp phase delay_time c.sim = Result.ret r s' →
      Quiet c { now := c.now
                wake := schedule .m_end_request_event c.now c.wake c.sim.log s'.log
                sim := s' }
  | begin_response (c : Timed) (verdict : tlm_sync_enum) (s' : Sim) :
      begin_response_method verdict c.sim = Result.ret () s' →
      Quiet c { now := c.now
                wake := schedule .m_end_request_event c.now c.wake c.sim.log s'.log
                sim := s' }

/-- The end-request activity is active with transactions 1 and 2 queued, and its
event matures at time 10. -/
def c10_start : Timed :=
  { now := 10
    wake := some 10
    sim :=
      { target :=
          { mk_target 0 0x200 (List.replicate 0x200 0) with
            m_end_request_queue := [1, 2], end_request_QActive := true }
        payload := fun _ => mk_payload .TLM_WRITE_COMMAND 0x100 1000 4
        bytes := fun p => if p = 1000 then [0xDE, 0xAD, 0xBE, 0xEF] else []
        log := [] } }

/-- The state a call returned in, or `d` when it did not return. -/
def Result.stateD {ρ : Type} (r : Result ρ) (d : Sim) : Sim :=
  match r with
  | .ret _ s => s
  | _ => d

/-- The run of `c10_start`: the first firing, at time 10. -/
def c10_fired : Timed :=
  { now := 10
    wake := some 20
    sim := (end_request_method .TLM_ACCEPTED c10_start.sim).stateD c10_start.sim }

/-- The run of `c10_start`: time has advanced to 20. -/
def c10_later : Timed := { c10_fired with now := 20 }

/-- The run of `c10_start`: the second firing, at time 20. -/
def c10_fired_again : Timed :=
  { now := 20
    wake := none
    sim := (end_request_method .TLM_ACCEPTED c10_later.sim).stateD c10_later.sim }

/-- The end-request activity is armed: it is active with `t` at the front of its
queue, its event is pending for time `T + ad`, which has not passed, `ad` is
the accept delay, and `L` are the transactions `END_REQ` was sent for so far. -/
def Waiting (T ad : Nat) (t : Ptr) (L : List Ptr) (c : Timed) : Prop :=
  c.wake = some (T + ad) ∧ c.now ≤ T + ad ∧
  (∃ more, c.sim.target.m_end_request_queue = t :: more) ∧
  c.sim.target.end_request_QActive = true ∧
  c.sim.target.m_accept_delay = ad ∧
  sent .END_REQ c.sim.log = L

/-! ## The generic payload and the extension registry (`tlm_gp.h`) -/

/-- Two to the 32, the modulus of `unsigned int`. -/
def U32 : Nat := 2 ^ 32

/-- The function `max_num_extensions(increment)`, lines 31-36, on the value of
its static counter `max_num`: the value returned and the new counter. -/
def max_num_extensions (increment : Bool) (max_num : Nat) : Nat × Nat :=
  let max_num := if increment then (max_num + 1) % U32 else max_num
  (max_num, max_num)

/-- The function `tlm_extension_base::register_extension`, lines 46-49:
`max_num_extensions(true) - 1` in `unsigned int`, and the new counter. -/
def register_extension (max_num : Nat) : Nat × Nat :=
  let r := max_num_extensions true max_num
  ((r.1 + U32 - 1) % U32, r.2)

/-- The counter after `k` calls of `register_extension`. -/
def registered : Nat → Nat → Nat
  | 0, max_num => max_num
  | k + 1, max_num => (register_extension (registered k max_num)).2

/-- The index the call number `k + 1` of `register_extension` returns, counted
from the counter value `max_num`. -/
def registered_index (k max_num : Nat) : Nat :=
  (register_extension (registered k max_num)).1

namespace tlm

/-- Modelled from the spec: `tlm_array<T>(size)` (`tlm_array.h` is not among the
sources); section 3: the slot table of a new transaction has the registry's
size, and a slot holds an extension or nothing (the null pointer). -/
def tlm_array_new (size : Nat) : List Ptr := List.replicate size 0

/-- Modelled from the spec: `tlm_array<T>::expand(n)` (`tlm_array.h` is not among
the sources); section 3: the slot table is resized to at least the registry's
size, never shrinks, and keeps what its slots hold; the new slots hold
nothing. -/
def tlm_array_expand (a : List Ptr) (n : Nat) : List Ptr :=
  if a.length < n then a ++ List.replicate (n - a.length) 0 else a

namespace tlm_generic_payload

/-- The default constructor, lines 101-113, at registry size `max_num`. -/
def default_ctor (max_num : Nat) : tlm_generic_payload :=
  { m_command := .TLM_IGNORE_COMMAND
    m_address := 0
    m_data := 0
    m_length := 0
    m_response_status := .TLM_INCOMPLETE_RESPONSE
    m_byte_enable := 0
    m_byte_enable_length := 0
    m_streaming_width := 0
    m_extensions := tlm_array_new (max_num_extensions false max_num).1
    m_dmi := false }

/-- `is_read()`, line 205. -/
def is_read (p : tlm_generic_payload) : Bool := decide (p.m_command = .TLM_READ_COMMAND)

/-- `set_read()`, line 206. -/
def set_read (p : tlm_generic_payload) : tlm_generic_payload :=
  { p with m_command := .TLM_READ_COMMAND }

/-- `is_write()`, line 207. -/
def is_write (p : tlm_generic_payload) : Bool := decide (p.m_command = .TLM_WRITE_COMMAND)

/-- `set_write()`, line 208. -/
def set_write (p : tlm_generic_payload) : tlm_generic_payload :=
  { p with m_command := .TLM_WRITE_COMMAND }

/-- `get_command()`, line 209. -/
def get_command (p : tlm_generic_payload) : tlm_command := p.m_command

/-- `set_command(command)`, line 210. -/
def set_command (p : tlm_generic_payload) (command : tlm_command) : tlm_generic_payload :=
  { p with m_command := command }

/-- `get_address()`, line 213. -/
def get_address (p : tlm_generic_payload) : Nat := p.m_address

/-- `set_address(address)`, line 214. -/
def set_address (p : tlm_generic_payload) (address : Nat) : tlm_generic_payload :=
  { p with m_address := address }

/-- `get_data_ptr()`, line 217. -/
def get_data_ptr (p : tlm_generic_payload) : Ptr := p.m_data

/-- `set_data_ptr(data)`, line 218. -/
def set_data_ptr (p : tlm_generic_payload) (data : Ptr) : tlm_generic_payload :=
  { p with m_data := data }

/-- `get_data_length()`, line 221. -/
def get_data_length (p : tlm_generic_payload) : Nat := p.m_length

/-- `set_data_length(length)`, line 222. -/
def set_data_length (p : tlm_generic_payload) (length : Nat) : tlm_generic_payload :=
  { p with m_length := length }

/-- `is_response_ok()`, line 225: `m_response_status > 0`. -/
def is_response_ok (p : tlm_generic_payload) : Bool := decide (p.m_response_status.toInt > 0)

/-- `is_response_error()`, line 226: `m_response_status <= 0`. -/
def is_response_error (p : tlm_generic_payload) : Bool :=
  decide (p.m_response_status.toInt ≤ 0)

/-- `get_response_status()`, line 227. -/
def get_response_status (p : tlm_generic_payload) : tlm_response_status := p.m_response_status

/-- `set_response_status(response_status)`, lines 228-229. -/
def set_response_status (p : tlm_generic_payload) (response_status : tlm_response_status) :
    tlm_generic_payload :=
  { p with m_response_status := response_status }

/-- `get_streaming_width()`, line 246. -/
def get_streaming_width (p : tlm_generic_payload) : Nat := p.m_streaming_width

/-- `set_streaming_width(streaming_width)`, line 247. -/
def set_streaming_width (p : tlm_generic_payload) (streaming_width : Nat) :
    tlm_generic_payload :=
  { p with m_streaming_width := streaming_width }

/-- `get_byte_enable_ptr()`, line 250. -/
def get_byte_enable_ptr (p : tlm_generic_payload) : Ptr := p.m_byte_enable

/-- `set_byte_enable_ptr(byte_enable)`, line 251. -/
def set_byte_enable_ptr (p : tlm_generic_payload) (byte_enable : Ptr) : tlm_generic_payload :=
  { p with m_byte_enable := byte_enable }

/-- `get_byte_enable_length()`, line 252. -/
def get_byte_enable_length (p : tlm_generic_payload) : Nat := p.m_byte_enable_length

/-- `set_byte_enable_length(byte_enable_length)`, line 253. -/
def set_byte_enable_length (p : tlm_generic_payload) (byte_enable_length : Nat) :
    tlm_generic_payload :=
  { p with m_byte_enable_length := byte_enable_length }

/-- `set_dmi_allowed(dmiAllowed)`, line 410. -/
def set_dmi_allowed (p : tlm_generic_payload) (dmiAllowed : Bool) : tlm_generic_payload :=
  { p with m_dmi := dmiAllowed }

/-- `get_dmi_allowed()`, line 411. -/
def get_dmi_allowed (p : tlm_generic_payload) : Bool := p.m_dmi

/-- `resize_extensions()`, lines 399-402, at registry size `max_num`. -/
def resize_extensions (max_num : Nat) (p : tlm_generic_payload) : tlm_generic_payload :=
  { p with m_extensions := tlm_array_expand p.m_extensions (max_num_extensions false max_num).1 }

/-- `set_extension(index, ext)`, lines 348-355: the previous value of the slot
and the new payload.  Indexing beyond the end of the slot table is undefined
(`none`). -/
def set_extension (max_num : Nat) (index : Nat) (ext : Ptr) (p : tlm_generic_payload) :
    Option (Ptr × tlm_generic_payload) :=
  let p := resize_extensions max_num p
  match p.m_extensions[index]? with
  | none => none
  | some tmp => some (tmp, { p with m_extensions := p.m_extensions.set index ext })

/-- The member template `set_extension(T* ext)`, lines 340-346, for an
extension type whose registered index is `ID`. -/
def set_extension_T (max_num : Nat) (ID : Nat) (ext : Ptr) (p : tlm_generic_payload) :
    Option (Ptr × tlm_generic_payload) :=
  let p := resize_extensions max_num p
  match p.m_extensions[ID]? with
  | none => none
  | some tmp => some (tmp, { p with m_extensions := p.m_extensions.set ID ext })

/-- `get_extension(index)`, lines 369-372: `m_extensions[index]`, undefined
(`none`) beyond the end of the slot table. -/
def get_extension (index : Nat) (p : tlm_generic_payload) : Option Ptr :=
  p.m_extensions[index]?

/-- The member templates `get_extension(T*& ext)` and `get_extension<T>()`, lines
358-367, for an extension type whose registered index is `ID`. -/
def get_extension_T (ID : Nat) (p : tlm_generic_payload) : Option Ptr :=
  p.m_extensions[ID]?

/-- `clear_extension(index)`, lines 386-392. -/
def clear_extension (index : Nat) (p : tlm_generic_payload) : tlm_generic_payload :=
  if index < p.m_extensions.length then { p with m_extensions := p.m_extensions.set index 0 }
  else p

/-- The member templates `clear_extension(const T*)` and `clear_extension<T>()`,
lines 375-384, for an extension type whose registered index is `ID`. -/
def clear_extension_T (max_num : Nat) (ID : Nat) (p : tlm_generic_payload) :
    Option tlm_generic_payload :=
  let p := resize_extensions max_num p
  if ID < p.m_extensions.length then some { p with m_extensions := p.m_extensions.set ID 0 }
  else none

/-- The loop `for (i = 0; i < m_extensions.size(); i++) m_extensions[i] =
x.get_extension(i);` of the copy constructor and of the assignment operator,
with `n` iterations left: `xs` is the slot table of `x`, `dst` the one written. -/
def copy_slots (xs : List Ptr) : Nat → Nat → List Ptr → Option (List Ptr)
  | 0, _, dst => some dst
  | n + 1, i, dst =>
    match xs[i]? with
    | none => none
    | some e => copy_slots xs n (i + 1) (dst.set i e)

/-- The copy constructor, lines 116-133, at registry size `max_num`. -/
def copy_ctor (max_num : Nat) (x : tlm_generic_payload) : Option tlm_generic_payload :=
  let m_extensions := tlm_array_new (max_num_extensions false max_num).1
  match copy_slots x.m_extensions m_extensions.length 0 m_extensions with
  | none => none
  | some slots =>
    some
      { m_command := x.get_command
        m_address := x.get_address
        m_data := x.get_data_ptr
        m_length := x.get_data_length
        m_response_status := x.get_response_status
        m_byte_enable := x.get_byte_enable_ptr
        m_byte_enable_length := x.get_byte_enable_length
        m_streaming_width := x.get_streaming_width
        m_extensions := slots
        m_dmi := x.get_dmi_allowed }

/-- The assignment operator, lines 136-157: `this = x`. -/
def assign (this x : tlm_generic_payload) : Option tlm_generic_payload :=
  match copy_slots x.m_extensions this.m_extensions.length 0 this.m_extensions with
  | none => none
  | some slots =>
    some
      { m_command := x.get_command
        m_address := x.get_address
        m_data := x.get_data_ptr
        m_length := x.get_data_length
        m_response_status := x.get_response_status
        m_byte_enable := x.get_byte_enable_ptr
        m_byte_enable_length := x.get_byte_enable_length
        m_streaming_width := x.get_streaming_width
        m_extensions := slots
        m_dmi := x.get_dmi_allowed }

end tlm_generic_payload

end tlm

/-! ## The free store and `deep_copy` -/

/-- The free store: the payload objects and byte buffers by address, and the
first address never allocated (`new` hands out `brk` and moves it on, so an
address handed out differs from every address handed out before). -/
structure Store where
  payload : Ptr → tlm_generic_payload
  bytes : Ptr → List Nat
  brk : Ptr

/-- The expression `new tlm_generic_payload(...)`, with the constructed value. -/
def Store.new_payload (h : Store) (v : tlm_generic_payload) : Ptr × Store :=
  (h.brk, { h with payload := Function.update h.payload h.brk v, brk := h.brk + 1 })

/-- The expression `new unsigned char[n]`.  The contents of the new array are
indeterminate; `deep_copy` overwrites every one of its bytes. -/
def Store.new_bytes (h : Store) (n : Nat) : Ptr × Store :=
  (h.brk, { h with bytes := Function.update h.bytes h.brk (List.replicate n 0), brk := h.brk + 1 })

/-- The loops `for (i = 0; i < n; i++) dst[i] = src[i];` of `deep_copy`, lines
168-171 and 179-182, with `n` iterations left.  Indexing beyond the end of a
buffer is undefined (`none`). -/
def copy_bytes (src : List Nat) : Nat → Nat → List Nat → Option (List Nat)
  | 0, _, dst => some dst
  | n + 1, i, dst =>
    match src[i]? with
    | none => none
    | some b => if i < dst.length then copy_bytes src n (i + 1) (dst.set i b) else none

/-- The loop of `deep_copy`, lines 185-191, with `n` iterations left: `xs` is the
slot table of the payload copied, `tmp` the copy, `clone e` the object the
virtual call `e->clone()` returns. -/
def clone_slots (max_num : Nat) (clone : Ptr → Ptr) (xs : List Ptr) :
    Nat → Nat → tlm_generic_payload → Option tlm_generic_payload
  | 0, _, tmp => some tmp
  | n + 1, i, tmp =>
    match xs[i]? with
    | none => none
    | some e =>
      if e ≠ 0 then
        match tlm_generic_payload.set_extension max_num i (clone e) tmp with
        | none => none
        | some r => clone_slots max_num clone xs n (i + 1) r.2
      else clone_slots max_num clone xs n (i + 1) tmp

/-- The step `deep copy data` of `deep_copy`, lines 163-172: `self` is the
payload copied, `tmp` the address of the copy. -/
def deep_copy_data (self : tlm_generic_payload) (tmp : Ptr) (h : Store) : Option Store :=
  if self.m_data ≠ 0 ∧ self.m_length ≠ 0 then
    let (tmp_data, h) := h.new_bytes self.m_length
    let v := (h.payload tmp).set_data_ptr tmp_data
    let h := { h with payload := Function.update h.payload tmp v }
    match copy_bytes (h.bytes self.m_data) self.m_length 0 (h.bytes tmp_data) with
    | none => none
    | some buf => some { h with bytes := Function.update h.bytes tmp_data buf }
  else some h

/-- The step `deep copy byte enables` of `deep_copy`, lines 173-183. -/
def deep_copy_byte_enable (self : tlm_generic_payload) (tmp : Ptr) (h : Store) :
    Option Store :=
  if self.m_byte_enable ≠ 0 ∧ self.m_byte_enable_length ≠ 0 then
    let (tmp_byte_enable, h) := h.new_bytes self.m_byte_enable_length
    let v :=
      ((h.payload tmp).set_byte_enable_ptr tmp_byte_enable).set_byte_enable_length
        self.m_byte_enable_length
    let h := { h with payload := Function.update h.payload tmp v }
    match copy_bytes (h.bytes self.m_byte_enable) self.m_byte_enable_length 0
        (h.bytes tmp_byte_enable) with
    | none => none
    | some buf => some { h with bytes := Function.update h.bytes tmp_byte_enable buf }
  else some h

/-- The step `deep copy extensions` of `deep_copy`, lines 184-191. -/
def deep_copy_extensions (max_num : Nat) (clone : Ptr → Ptr) (self : tlm_generic_payload)
    (tmp : Ptr) (h : Store) : Option Store :=
  match clone_slots max_num clone self.m_extensions self.m_extensions.length 0
      (h.payload tmp) with
  | none => none
  | some v => some { h with payload := Function.update h.payload tmp v }

/-- The member function `tlm_generic_payload::deep_copy`, lines 160-193, applied
to the payload at address `this`: the address of the copy and the new store. -/
def deep_copy (max_num : Nat) (clone : Ptr → Ptr) (this : Ptr) (h : Store) :
    Option (Ptr × Store) :=
  let self := h.payload this
  match tlm_generic_payload.copy_ctor max_num self with
  | none => none
  | some v =>
    let (tmp, h) := h.new_payload v
    match deep_copy_data self tmp h with
    | none => none
    | some h =>
      match deep_copy_byte_enable self tmp h with
      | none => none
      | some h =>
        match deep_copy_extensions max_num clone self tmp h with
        | none => none
        | some h => some (tmp, h)

/-- A payload with a data buffer at address 1000 and data length 0, and a
byte-enable buffer at address 1001 and byte-enable length 0. -/
def c15_payload : tlm_generic_payload :=
  { tlm_generic_payload.default_ctor 0 with m_data := 1000, m_byte_enable := 1001 }

/-- A store that holds at address 1 a payload with three data bytes at address
1000, two byte-enable bytes at address 1001 and, the registry having size 2,
extension 77 in slot 1. -/
def c15_store_full : Store :=
  { payload := fun _ =>
      { c15_payload with m_length := 3, m_byte_enable_length := 2, m_extensions := [0, 77] }
    bytes := fun p => if p = 1000 then [1, 2, 3, 4] else if p = 1001 then [255, 255, 0, 0] else []
    brk := 2000 }

/-- The state of `begin_response_method` right after its `BEGIN_RESP` call, line
313, when `memory_operation` returned in state `s2` for the transaction `t`. -/
def begin_response_sent (s2 : Sim) (t : Ptr) : Sim :=
  (s2.set_response_status t .TLM_OK_RESPONSE).emit (.send t .BEGIN_RESP 0)

/-- The state of `begin_response_method` at the end of its `TLM_ACCEPTED` branch,
lines 317-322, entered in state `m` for the transaction `t`. -/
def begin_response_accepted (m : Sim) (t : Ptr) : Sim :=
  (m.withTarget
    { m.target with
      m_end_response_queue := m.target.m_end_response_queue ++ [t]
      begin_response_QActive := false }).emit (.next_trigger .m_end_response_event)

/-- Base 0, `0x200` bytes of store, the begin-response activity active with
transaction 1 alone in the response queue: a read of `2^31` bytes from address
`0x100` into a buffer of `2^31` bytes. -/
def c12_sim : Sim :=
  { target :=
      { mk_target 0 0x200 (List.replicate 0x200 0) with
        m_response_queue := [1]
        begin_response_QActive := true }
    payload := fun _ => mk_payload .TLM_READ_COMMAND 0x100 2000 2147483648
    bytes := fun p => if p = 2000 then List.replicate 2147483648 0xFF else []
    log := [] }

/-! ## The kernel: events, triggers and simulated time -/

/-- The two method processes the constructor registers, lines 100 and 102. -/
inductive sc_process where
  | end_request_method
  | begin_response_method
  deriving DecidableEq, Repr

/-- Modelled from the spec: the state of a simulation run (the kernel is not
among the sources).  Sections 5 and 9: a virtual clock `now`; for each event the
time its pending notification matures, if one is pending; for each method
process the event it asked to be woken on, if any; the engine; and the outbound
calls so far, each with the time of the call. -/
structure Kernel where
  now : Nat
  due : sc_event → Option Nat
  trigger : sc_process → Option sc_event
  sim : Sim
  trace : List (Nat × Effect)

/-- Modelled from the spec: what one outbound call asks of the kernel when made
by process `p` (no process for an inbound call of the initiator) at time
`k.now`.  `notify` schedules the event as `sc_notify` says; `next_trigger`
replaces the trigger of the calling process, so that of several calls in one
firing the last one stands (IEEE 1666, `next_trigger`: a later call in the same
invocation of a method process overrides an earlier one); a call through the
socket asks nothing. -/
def kernel_effect (p : Option sc_process) (k : Kernel) (e : Effect) : Kernel :=
  match e with
  | .notify ev d => { k with due := Function.update k.due ev (sc_notify k.now (k.due ev) d) }
  | .next_trigger ev =>
    match p with
    | some p => { k with trigger := Function.update k.trigger p (some ev) }
    | none => k
  | .send _ _ _ => k

/-- Modelled from the spec: the state of the run after a call by `p` that left the
engine in state `s'`: the outbound calls the call added to the log are stamped
with the time and handed to the kernel in order. -/
def kernel_after (p : Option sc_process) (k : Kernel) (s' : Sim) : Kernel :=
  let new := s'.log.drop k.sim.log.length
  new.foldl (kernel_effect p)
    { k with sim := s', trace := k.trace ++ new.map (fun e => (k.now, e)) }

/-- The body of a method process. -/
def process_body (p : sc_process) (verdict : tlm_sync_enum) (s : Sim) : Result Unit :=
  match p with
  | .end_request_method => end_request_method verdict s
  | .begin_response_method => begin_response_method verdict s

/-- Modelled from the spec: one firing of the method process `p`, to which the
initiator answers `verdict`; the run ends when the firing does not return. -/
def kernel_exec (verdict : tlm_sync_enum) (p : sc_process) (k : Kernel) : Option Kernel :=
  match process_body p verdict k.sim with
  | .ret _ s' => some (kernel_after (some p) k s')
  | _ => none

/-- Modelled from the spec: an inbound call of the initiator at time `k.now`. -/
def kernel_call (gp : Ptr) (phase : tlm_phase) (delay_time : Nat) (k : Kernel) :
    Option (tlm_sync_enum × Kernel) :=
  match nb_transport gp phase delay_time k.sim with
  | .ret r s' => some (r, kernel_after none k s')
  | _ => none

/-- Modelled from the spec: the processes woken by event `e`: those whose trigger
it is. -/
def kernel_woken (e : sc_event) (k : Kernel) : List sc_process :=
  [sc_process.end_request_method, sc_process.begin_response_method].filter
    fun p => decide (k.trigger p = some e)

/-- Modelled from the spec: the pending notification of `e` matures at time `t`:
the clock moves to `t`, the notification is consumed and the processes woken by
`e` fire. -/
def kernel_fire (verdict : tlm_sync_enum) (t : Nat) (e : sc_event) (k : Kernel) :
    Option Kernel :=
  (kernel_woken e k).foldl (fun r p => r.bind (kernel_exec verdict p))
    (some { k with now := t, due := Function.update k.due e none })

/-- Modelled from the spec: the earlier of two pending notifications, the first
one on a tie. -/
def kernel_earlier (a b : Option (Nat × sc_event)) : Option (Nat × sc_event) :=
  match a, b with
  | none, b => b
  | some a, none => some a
  | some a, some b => if b.1 < a.1 then some b else some a

/-- Modelled from the spec: the pending notification that matures first, if any
is pending. -/
def kernel_next (k : Kernel) : Option (Nat × sc_event) :=
  let ev_at := fun e => (k.due e).map fun t => (t, e)
  kernel_earlier (kernel_earlier (ev_at .m_end_request_event) (ev_at .m_begin_response_event))
    (ev_at .m_end_response_event)

/-- Modelled from the spec: the run goes on by itself for at most `n` maturing
notifications, and stops before when none is pending. -/
def kernel_run (verdict : tlm_sync_enum) : Nat → Kernel → Option Kernel
  | 0, k => some k
  | n + 1, k =>
    match kernel_next k with
    | none => some k
    | some (t, e) => (kernel_fire verdict t e k).bind (kernel_run verdict n)

/-- Modelled from the spec: time passes until `deadline`: the notifications that
mature by then do, at most `n` of them, and the clock is moved to `deadline`. -/
def kernel_wait (verdict : tlm_sync_enum) (deadline : Nat) : Nat → Kernel → Option Kernel
  | 0, _ => none
  | n + 1, k =>
    match kernel_next k with
    | none => some { k with now := deadline }
    | some (t, e) =>
      if t ≤ deadline then (kernel_fire verdict t e k).bind (kernel_wait verdict deadline n)
      else some { k with now := deadline }

/-- Modelled from the spec: the start of the run.  The constructor registers the
two method processes without a sensitivity list (lines 100 and 102), so each
fires once at time 0. -/
def kernel_init (verdict : tlm_sync_enum) (s : Sim) : Option Kernel :=
  (kernel_exec verdict .end_request_method
    { now := 0, due := fun _ => none, trigger := fun _ => none, sim := s, trace := [] }).bind
    (kernel_exec verdict .begin_response_method)

/-- The calls through the socket in a trace: time, transaction and phase. -/
def sends (trace : List (Nat × Effect)) : List (Nat × Ptr × tlm_phase) :=
  trace.filterMap fun x =>
    match x.2 with
    | .send gp ph _ => some (x.1, gp, ph)
    | _ => none

/-- Base 0, `0x200` bytes of store, the target as the constructor leaves it.
Transactions 1 and 2 write four bytes each, to addresses `0x104` and `0x108`. -/
def c13_sim : Sim :=
  { target := mk_target 0 0x200 (List.replicate 0x200 0)
    payload := fun p => mk_payload .TLM_WRITE_COMMAND (0x100 + 4 * p) 1000 4
    bytes := fun p => if p = 1000 then [0xDE, 0xAD, 0xBE, 0xEF] else []
    log := [] }

/-- The run of `c13_sim` in which the initiator submits `BEGIN_REQ` for the
transactions 1 and 2 at time 0, answers every call with `TLM_ACCEPTED` and
sends no `END_RESP`, up to the `n`-th maturing notification. -/
def c13_run (n : Nat) : Option Kernel :=
  (((kernel_init .TLM_ACCEPTED c13_sim).bind
    (fun k => (kernel_call 1 .BEGIN_REQ 0 k).map Prod.snd)).bind
    (fun k => (kernel_call 2 .BEGIN_REQ 0 k).map Prod.snd)).bind (kernel_run .TLM_ACCEPTED n)

/-- The target of the scenario of section 8 as the constructor leaves it: base 0,
`size` bytes of store holding `mem`, accept delay 10, read delay 20, write
delay 15.  Transaction 1 writes `DE AD BE EF` to address `0x100`; transaction 2
reads four bytes from address `0x100` into the buffer `buf`. -/
def c14_sim (size : Nat) (mem buf : List Nat) : Sim :=
  { target := mk_target 0 size mem
    payload := fun p =>
      if p = 1 then mk_payload .TLM_WRITE_COMMAND 0x100 1000 4
      else mk_payload .TLM_READ_COMMAND 0x100 2000 4
    bytes := fun p =>
      if p = 1000 then [0xDE, 0xAD, 0xBE, 0xEF] else if p = 2000 then buf else []
    log := [] }

/-- The write of the scenario: the run starts, the initiator submits `BEGIN_REQ`
for transaction 1 at time `T` and answers every call with `TLM_ACCEPTED`, and
the run goes on for `n` maturing notifications. -/
def c14_write (n T size : Nat) (mem buf : List Nat) : Option Kernel :=
  (((kernel_init .TLM_ACCEPTED (c14_sim size mem buf)).bind
    (kernel_wait .TLM_ACCEPTED T 1)).bind
    (fun k => (kernel_call 1 .BEGIN_REQ 0 k).map Prod.snd)).bind (kernel_run .TLM_ACCEPTED n)

/-- The read of the scenario, after the write and its four firings: `G1` time
units after `BEGIN_RESP` the initiator sends `END_RESP` for transaction 1, `G2`
time units later it submits `BEGIN_REQ` for transaction 2, and the run goes on
for `n` maturing notifications. -/
def c14_read (n T G1 G2 size : Nat) (mem buf : List Nat) : Option Kernel :=
  (((((c14_write 4 T size mem buf).bind
    (fun k => kernel_wait .TLM_ACCEPTED (k.now + G1) 1 k)).bind
    (fun k => (kernel_call 1 .END_RESP 0 k).map Prod.snd)).bind
    (fun k => kernel_wait .TLM_ACCEPTED (k.now + G2) 2 k)).bind
    (fun k => (kernel_call 2 .BEGIN_REQ 0 k).map Prod.snd)).bind (kernel_run .TLM_ACCEPTED n)

/-! ## The debug and direct-memory interfaces -/

/-- The member function `at_target_4_phase::transport_dbg`, lines 386-392:
`return 0;`. -/
def transport_dbg (gp : Ptr) (s : Sim) : Result Nat :=
  let _ := gp
  Result.ret 0 s

/-- The member function `at_target_4_phase::get_direct_mem_ptr`, lines 408-415:
`return false;`.  `dmi_data` is the address of the `tlm_dmi` argument. -/
def get_direct_mem_ptr (payload : Ptr) (dmi_data : Ptr) (s : Sim) : Result Bool :=
  let _ := payload
  let _ := dmi_data
  Result.ret false s

/-- A store that holds at address 1 a transaction constructed while the registry
was empty: its slot table has no slot. -/
def c21_store : Store :=
  { payload := fun _ => tlm_generic_payload.default_ctor (registered 0 0)
    bytes := fun _ => []
    brk := 2000 }

/-! ## The constructor of the target -/

/-- The constructor `at_target_4_phase::at_target_4_phase`, lines 72-103.
`fresh` is what the array returned by `new unsigned char[size_t(m_memory_size)]`
(line 95) holds: the expression has no initialiser, so the bytes of the array
are indeterminate, and nothing in the constructor writes them. -/
def at_target_4_phase.ctor (ID base_address memory_size memory_width accept_delay
    read_response_delay write_response_delay : Nat) (fresh : List Nat) : at_target_4_phase :=
  { m_ID := ID
    m_base_address := base_address
    m_memory_size := memory_size
    m_memory_width := memory_width
    m_accept_delay := accept_delay
    m_read_response_delay := read_response_delay
    m_write_response_delay := write_response_delay
    m_memory := fresh
    m_end_request_queue := []
    m_response_queue := []
    m_end_response_queue := []
    begin_response_QActive := false
    end_request_QActive := false }

/-- A target constructed with base 0 and four bytes of store, in storage that
holds `AB 00 00 00`.  Transaction 1 reads one byte from address 0. -/
def c25_sim : Sim :=
  { target := at_target_4_phase.ctor 1 0 4 4 10 20 15 [0xAB, 0, 0, 0]
    payload := fun _ => mk_payload .TLM_READ_COMMAND 0 2000 1
    bytes := fun p => if p = 2000 then [0xFF] else []
    log := [] }

/-- Base 0, `0x200` bytes of store.  Transaction 1 reads `2^31` bytes from
address `0x10`, inside the store, into a buffer of `2^31` bytes. -/
def c28_sim : Sim :=
  { target := mk_target 0 0x200 (List.replicate 0x200 0)
    payload := fun _ => mk_payload .TLM_READ_COMMAND 0x10 2000 2147483648
    bytes := fun p => if p = 2000 then List.replicate 2147483648 0xFF else []
    log := [] }

/-! ## A run of six steps -/

/-- The run of `c13_sim`: the initiator has submitted `BEGIN_REQ` for
transaction 1. -/
def c26_s1 : Sim := (nb_transport 1 .BEGIN_REQ 0 c13_sim).stateD c13_sim

/-- The run of `c13_sim`: the end-request activity has fired, idle. -/
def c26_s2 : Sim := (end_request_method .TLM_ACCEPTED c26_s1).stateD c26_s1

/-- The run of `c13_sim`: the end-request activity has fired again, active. -/
def c26_s3 : Sim := (end_request_method .TLM_ACCEPTED c26_s2).stateD c26_s2

/-- The run of `c13_sim`: the begin-response activity has fired, idle. -/
def c26_s4 : Sim := (begin_response_method .TLM_ACCEPTED c26_s3).stateD c26_s3

/-- The run of `c13_sim`: the begin-response activity has fired again, active. -/
def c26_s5 : Sim := (begin_response_method .TLM_ACCEPTED c26_s4).stateD c26_s4

/-- The run of `c13_sim`: the initiator has sent `END_RESP` for transaction 1. -/
def c26_s6 : Sim := (nb_transport 1 .END_RESP 0 c26_s5).stateD c26_s5

/-! ## Runs with their history -/

/-- Between two steps the initiator may rewrite transactions and buffers; it
leaves the command of every transaction that is in the response queue. -/
def Edit (s s' : Sim) : Prop :=
  s'.target = s.target ∧ s'.log = s.log ∧
  ∀ p, p ∈ s.target.m_response_queue → (s'.payload p).m_command = (s.payload p).m_command

/-- `Run s R C`: the engine has reached state `s` from an initial state with
nothing logged, by inbound calls and firings that returned and by rewrites of
the initiator; `R` are the transactions `BEGIN_REQ` was received for and `C`
those `END_RESP` was received for, both in order. -/
inductive Run : Sim → List Ptr → List Ptr → Prop where
  | init (s : Sim) : Initial s → s.log = [] → Run s [] []
  | begin_req (s s' : Sim) (R C : List Ptr) (gp : Ptr) (delay_time : Nat) (r : tlm_sync_enum) :
      Run s R C → nb_transport gp .BEGIN_REQ delay_time s = Result.ret r s' →
      Run s' (R ++ [gp]) C
  | end_resp (s s' : Sim) (R C : List Ptr) (gp : Ptr) (delay_time : Nat) (r : tlm_sync_enum) :
      Run s R C → nb_transport gp .END_RESP delay_time s = Result.ret r s' →
      Run s' R (C ++ [gp])
  | end_request (s s' : Sim) (R C : List Ptr) (verdict : tlm_sync_enum) :
      Run s R C → end_request_method verdict s = Result.ret () s' → Run s' R C
  | begin_response (s s' : Sim) (R C : List Ptr) (verdict : tlm_sync_enum) :
      Run s R C → begin_response_method verdict s = Result.ret () s' → Run s' R C
  | edit (s s' : Sim) (R C : List Ptr) : Run s R C → Edit s s' → Run s' R C

/-- The transactions in the engine, oldest first: the end-response queue, the
response queue and the end-request queue, each front first. -/
def in_flight (t : at_target_4_phase) : List Ptr :=
  t.m_end_response_queue ++ t.m_response_queue ++ t.m_end_request_queue

/-! ## A response queue with a read and a write -/

/-- The target of `c1_sim` (read delay 20, write delay 15) with the begin-response
activity idle and the response queue holding transaction 2, a read, in front of
transaction 1, a write. -/
def c9_sim : Sim := c1_sim.withTarget { c1_sim.target with m_response_queue := [2, 1] }

/-- The run of `c9_sim`: the begin-response activity has fired, idle. -/
def c9_s1 : Sim := (begin_response_method .TLM_ACCEPTED c9_sim).stateD c9_sim

/-! ## Theorems -/

/-! ### Projections of the state updates -/

@[simp] theorem Sim.emit_log (s : Sim) (x : Effect) : (s.emit x).log = s.log ++ [x] := rfl

@[simp] theorem Sim.emit_target (s : Sim) (x : Effect) : (s.emit x).target = s.target := rfl

@[simp] theorem Sim.emit_payload (s : Sim) (x : Effect) : (s.emit x).payload = s.payload := rfl

@[simp] theorem Sim.emit_bytes (s : Sim) (x : Effect) : (s.emit x).bytes = s.bytes := rfl

@[simp] theorem Sim.withTarget_log (s : Sim) (t : at_target_4_phase) :
    (s.withTarget t).log = s.log := rfl

@[simp] theorem Sim.withTarget_target (s : Sim) (t : at_target_4_phase) :
    (s.withTarget t).target = t := rfl

@[simp] theorem Sim.withTarget_payload (s : Sim) (t : at_target_4_phase) :
    (s.withTarget t).payload = s.payload := rfl

@[simp] theorem Sim.withTarget_bytes (s : Sim) (t : at_target_4_phase) :
    (s.withTarget t).bytes = s.bytes := rfl

@[simp] theorem Sim.set_response_status_log (s : Sim) (gp : Ptr) (r : tlm_response_status) :
    (s.set_response_status gp r).log = s.log := rfl

@[simp] theorem Sim.set_response_status_target (s : Sim) (gp : Ptr) (r : tlm_response_status) :
    (s.set_response_status gp r).target = s.target := rfl

@[simp] theorem Sim.set_response_status_bytes (s : Sim) (gp : Ptr) (r : tlm_response_status) :
    (s.set_response_status gp r).bytes = s.bytes := rfl

/-! ### The outbound calls recorded in a log -/

/-- The delays armed for `e` in a concatenation of logs. -/
theorem armed_append (e : sc_event) (l l' : List Effect) :
    armed e (l ++ l') = armed e l ++ armed e l' := by
  simp [armed, List.filterMap_append]

@[simp] theorem armed_nil (e : sc_event) : armed e [] = [] := rfl

@[simp] theorem armed_cons_notify (e e' : sc_event) (d : Nat) (l : List Effect) :
    armed e (Effect.notify e' d :: l) = if e' = e then d :: armed e l else armed e l := by
  by_cases h : e' = e <;> simp [armed, List.filterMap_cons, h]

@[simp] theorem armed_cons_next_trigger (e e' : sc_event) (l : List Effect) :
    armed e (Effect.next_trigger e' :: l) = armed e l := by
  simp [armed, List.filterMap_cons]

@[simp] theorem armed_cons_send (e : sc_event) (gp : Ptr) (ph : tlm_phase) (d : Nat)
    (l : List Effect) : armed e (Effect.send gp ph d :: l) = armed e l := by
  simp [armed, List.filterMap_cons]

/-- The transactions sent with a phase in a concatenation of logs. -/
theorem sent_append (ph : tlm_phase) (l l' : List Effect) :
    sent ph (l ++ l') = sent ph l ++ sent ph l' := by
  simp [sent, List.filterMap_append]

@[simp] theorem sent_nil (ph : tlm_phase) : sent ph [] = [] := rfl

@[simp] theorem sent_cons_notify (ph : tlm_phase) (e : sc_event) (d : Nat) (l : List Effect) :
    sent ph (Effect.notify e d :: l) = sent ph l := by
  simp [sent, List.filterMap_cons]

@[simp] theorem sent_cons_next_trigger (ph : tlm_phase) (e : sc_event) (l : List Effect) :
    sent ph (Effect.next_trigger e :: l) = sent ph l := by
  simp [sent, List.filterMap_cons]

@[simp] theorem sent_cons_send (ph ph' : tlm_phase) (gp : Ptr) (d : Nat) (l : List Effect) :
    sent ph (Effect.send gp ph' d :: l) = if ph' = ph then gp :: sent ph l else sent ph l := by
  by_cases h : ph' = ph <;> simp [sent, List.filterMap_cons, h]

/-! ### The copy loops of `memory_operation` -/

/-- The write loop, when the store has `m_memory_size` bytes and the data buffer
holds the bytes to copy: it returns, the store keeps its length, and byte `j` of
the store is taken from the data for `address ≤ j < address + k`, where `k` is
the number of iterations bounded by the end of the store, and is unchanged
elsewhere. -/
theorem write_loop_spec (size : Nat) (data : List Nat) (hsize : size < U64) :
    ∀ (n i a : Nat) (mem : List Nat), size ≤ mem.length →
      i + min n (size - a) ≤ data.length →
      ∃ mem', write_loop size data n i a mem = some mem' ∧ mem'.length = mem.length ∧
        ∀ j, mem'[j]? =
          if a ≤ j ∧ j < a + min n (size - a) then data[i + (j - a)]? else mem[j]? := by
  intro n
  induction n with
  | zero =>
    intro i a mem _ _
    refine ⟨mem, rfl, rfl, fun j => ?_⟩
    rw [if_neg (by omega)]
  | succ n ih =>
    intro i a mem hmem hdata
    unfold write_loop
    by_cases ha : a ≥ size
    · rw [if_pos ha]
      refine ⟨mem, rfl, rfl, fun j => ?_⟩
      rw [if_neg (by omega)]
    · rw [if_neg ha]
      have hi : i < data.length := by omega
      rw [List.getElem?_eq_getElem hi]
      dsimp only
      rw [if_pos (by omega)]
      have hmod : (a + 1) % U64 = a + 1 := Nat.mod_eq_of_lt (by omega)
      rw [hmod]
      obtain ⟨mem', h1, h2, h3⟩ := ih (i + 1) (a + 1) (mem.set a data[i])
        (by rw [List.length_set]; exact hmem) (by omega)
      refine ⟨mem', h1, by rw [h2, List.length_set], fun j => ?_⟩
      rw [h3 j]
      by_cases hj : a + 1 ≤ j ∧ j < a + 1 + min n (size - (a + 1))
      · rw [if_pos hj, if_pos (by omega)]
        congr 1
        omega
      · rw [if_neg hj]
        by_cases hja : j = a
        · subst hja
          rw [if_pos (by omega)]
          simp [List.getElem?_set, show j < mem.length by omega, hi]
        · rw [if_neg (by omega)]
          rw [List.getElem?_set_ne (by omega)]

/-- The read loop, when the store has `m_memory_size` bytes and the data buffer
has room for the bytes to copy: it returns, the buffer keeps its length, and
byte `j` of the buffer is taken from the store for `i ≤ j < i + k`, where `k` is
the number of iterations bounded by the end of the store, and is unchanged
elsewhere. -/
theorem read_loop_spec (size : Nat) (mem : List Nat) (hsize : size < U64)
    (hmem : size ≤ mem.length) :
    ∀ (n i a : Nat) (data : List Nat),
      i + min n (size - a) ≤ data.length →
      ∃ data', read_loop size mem n i a data = some data' ∧ data'.length = data.length ∧
        ∀ j, data'[j]? =
          if i ≤ j ∧ j < i + min n (size - a) then mem[a + (j - i)]? else data[j]? := by
  intro n
  induction n with
  | zero =>
    intro i a data _
    refine ⟨data, rfl, rfl, fun j => ?_⟩
    rw [if_neg (by omega)]
  | succ n ih =>
    intro i a data hdata
    unfold read_loop
    by_cases ha : a ≥ size
    · rw [if_pos ha]
      refine ⟨data, rfl, rfl, fun j => ?_⟩
      rw [if_neg (by omega)]
    · rw [if_neg ha]
      have ham : a < mem.length := by omega
      rw [List.getElem?_eq_getElem ham]
      dsimp only
      have hi : i < data.length := by omega
      rw [if_pos hi]
      have hmod : (a + 1) % U64 = a + 1 := Nat.mod_eq_of_lt (by omega)
      rw [hmod]
      obtain ⟨data', h1, h2, h3⟩ := ih (i + 1) (a + 1) (data.set i mem[a])
        (by rw [List.length_set]; omega)
      refine ⟨data', h1, by rw [h2, List.length_set], fun j => ?_⟩
      rw [h3 j]
      by_cases hj : i + 1 ≤ j ∧ j < i + 1 + min n (size - (a + 1))
      · rw [if_pos hj, if_pos (by omega)]
        congr 1
        omega
      · rw [if_neg hj]
        by_cases hji : j = i
        · subst hji
          rw [if_pos (by omega)]
          simp [List.getElem?_set, hi, ham]
        · rw [if_neg (by omega)]
          rw [List.getElem?_set_ne (by omega)]

/-! ### `memory_operation` on lengths below `2^31` -/

/-- A length below `2^31` survives the conversion to `int`. -/
theorem toInt32_small (n : Nat) (h : n < 2 ^ 31) : toInt32 n = (n : Int) := by
  unfold toInt32
  have h1 : n % 2 ^ 32 = n := Nat.mod_eq_of_lt (by omega)
  rw [h1, if_pos h]

/-- A natural number below `2^31`, as an `int`, survives the conversion to `size_t`. -/
theorem toSizeT_cast_small (n : Nat) (h : n < 2 ^ 31) : toSizeT (n : Int) = n := by
  unfold toSizeT
  have h2 : ((n : Int)) % (2 ^ 64 : Int) = (n : Int) := by
    apply Int.emod_eq_of_lt
    · omega
    · have : (n : Int) < 2 ^ 31 := by exact_mod_cast h
      omega
  rw [h2]
  simp

/-- The translation `address -= m_base_address` on 64-bit values. -/
theorem translate_eq (address base : Nat) (ha : address < U64) (hb : base < U64) :
    (address + U64 - base % U64) % U64 =
      if base ≤ address then address - base else address + U64 - base := by
  rw [Nat.mod_eq_of_lt hb]
  by_cases h : base ≤ address
  · rw [if_pos h]
    have : address + U64 - base = (address - base) + U64 := by omega
    rw [this, Nat.add_mod_right]
    exact Nat.mod_eq_of_lt (by omega)
  · rw [if_neg h]
    exact Nat.mod_eq_of_lt (by omega)

/-- `memset` of the first `n` bytes of a buffer that holds them. -/
theorem memset0_spec (buf : List Nat) (n : Nat) (h : n ≤ buf.length) :
    ∃ z, memset0 buf n = some z ∧ z.length = buf.length ∧
      ∀ j, z[j]? = if j < n then some 0 else buf[j]? := by
  refine ⟨List.replicate n 0 ++ buf.drop n, by unfold memset0; rw [if_pos h], ?_, fun j => ?_⟩
  · simp
    omega
  · by_cases hj : j < n
    · rw [if_pos hj, List.getElem?_append_left (by simpa using hj)]
      simp [hj]
    · rw [if_neg hj, List.getElem?_append_right (by simpa using hj)]
      simp
      congr 1
      omega

/-- A read of fewer than `2^31` bytes into a buffer that holds them, on a store
of `m_memory_size` bytes: the call returns with status OK, target and log as
they were; byte `j` of the buffer, for `j` below the length, is the store byte
at the translated offset plus `j` when that offset is not below the base
address and the sum is below the size of the store, and zero otherwise; the
rest of the buffer is unchanged. -/
theorem memory_operation_read_spec (gp : Ptr) (s : Sim)
    (hc : (s.payload gp).m_command = .TLM_READ_COMMAND)
    (hsize : s.target.m_memory_size < U64)
    (hmem : s.target.m_memory.length = s.target.m_memory_size)
    (hlen : (s.payload gp).m_length < 2 ^ 31)
    (hbuf : (s.payload gp).m_length ≤ (s.bytes (s.payload gp).m_data).length) :
    ∃ s', memory_operation gp s = Result.ret () s' ∧
      s'.target = s.target ∧ s'.log = s.log ∧
      s'.payload gp = { s.payload gp with m_response_status := .TLM_OK_RESPONSE } ∧
      (∀ p, p ≠ gp → s'.payload p = s.payload p) ∧
      (∀ q, q ≠ (s.payload gp).m_data → s'.bytes q = s.bytes q) ∧
      (s'.bytes (s.payload gp).m_data).length = (s.bytes (s.payload gp).m_data).length ∧
      ∀ j, (s'.bytes (s.payload gp).m_data)[j]? =
        if j < (s.payload gp).m_length then
          (if s.target.m_base_address ≤
                ((s.payload gp).m_address + U64 - s.target.m_base_address % U64) % U64 ∧
              ((s.payload gp).m_address + U64 - s.target.m_base_address % U64) % U64 + j
                < s.target.m_memory_size
            then s.target.m_memory[((s.payload gp).m_address + U64
              - s.target.m_base_address % U64) % U64 + j]?
            else some 0)
        else (s.bytes (s.payload gp).m_data)[j]? := by
  obtain ⟨z, hz, hzl, hzj⟩ := memset0_spec _ _ hbuf
  simp only [memory_operation, hc, toInt32_small _ hlen, toSizeT_cast_small _ hlen, hz,
    Int.toNat_ofNat]
  generalize ((s.payload gp).m_address + U64 - s.target.m_base_address % U64) % U64 = off
  by_cases hout : off < s.target.m_base_address ∨ off ≥ s.target.m_memory_size
  · rw [if_pos hout]
    refine ⟨_, rfl, rfl, rfl, ?_, ?_, ?_, ?_, ?_⟩
    · simp [Sim.set_response_status, hc]
    · intro p hp
      simp [Sim.set_response_status, Function.update, hp]
    · intro q hq
      simp [Sim.set_response_status, Function.update, hq]
    · simp [Sim.set_response_status, hzl]
    · intro j
      simp only [Sim.set_response_status, Function.update_same]
      rw [hzj j]
      by_cases hj : j < (s.payload gp).m_length
      · rw [if_pos hj, if_pos hj, if_neg (by omega)]
      · rw [if_neg hj, if_neg hj]
  · rw [if_neg hout]
    obtain ⟨buf, hb, hbl, hbj⟩ := read_loop_spec s.target.m_memory_size s.target.m_memory hsize
      (by omega) (s.payload gp).m_length 0 off z (by omega)
    rw [hb]
    refine ⟨_, rfl, rfl, rfl, ?_, ?_, ?_, ?_, ?_⟩
    · simp [Sim.set_response_status, hc]
    · intro p hp
      simp [Sim.set_response_status, Function.update, hp]
    · intro q hq
      simp [Sim.set_response_status, Function.update, hq]
    · simp [Sim.set_response_status, hbl, hzl]
    · intro j
      simp only [Sim.set_response_status, Function.update_same]
      rw [hbj j, hzj j]
      have hb' : ¬ off < s.target.m_base_address := fun h => hout (Or.inl h)
      simp only [Nat.zero_le, true_and, Nat.zero_add, Nat.sub_zero]
      by_cases hj : j < (s.payload gp).m_length
      · by_cases hin : off + j < s.target.m_memory_size
        · rw [if_pos (by omega), if_pos hj, if_pos ⟨by omega, hin⟩]
        · rw [if_neg (by omega), if_pos hj, if_pos hj, if_neg (by omega)]
      · rw [if_neg (by omega), if_neg hj, if_neg hj]

/-- A write of fewer than `2^31` bytes from a buffer that holds them, on a store
of `m_memory_size` bytes: the call returns with status OK, buffers and log as
they were and the target changed in its store only; byte `j` of the store is
the data byte `j - offset` when the translated offset is not below the base
address and `offset ≤ j < offset + length`, `j` below the size of the store, and
is unchanged otherwise. -/
theorem memory_operation_write_spec (gp : Ptr) (s : Sim)
    (hc : (s.payload gp).m_command = .TLM_WRITE_COMMAND)
    (hsize : s.target.m_memory_size < U64)
    (hmem : s.target.m_memory.length = s.target.m_memory_size)
    (hlen : (s.payload gp).m_length < 2 ^ 31)
    (hbuf : (s.payload gp).m_length ≤ (s.bytes (s.payload gp).m_data).length) :
    ∃ s', memory_operation gp s = Result.ret () s' ∧
      s'.target = { s.target with m_memory := s'.target.m_memory } ∧
      s'.log = s.log ∧ s'.bytes = s.bytes ∧
      s'.payload gp = { s.payload gp with m_response_status := .TLM_OK_RESPONSE } ∧
      (∀ p, p ≠ gp → s'.payload p = s.payload p) ∧
      s'.target.m_memory.length = s.target.m_memory.length ∧
      ∀ j, s'.target.m_memory[j]? =
        if s.target.m_base_address ≤
              ((s.payload gp).m_address + U64 - s.target.m_base_address % U64) % U64 ∧
            ((s.payload gp).m_address + U64 - s.target.m_base_address % U64) % U64 ≤ j ∧
            j < ((s.payload gp).m_address + U64 - s.target.m_base_address % U64) % U64
              + (s.payload gp).m_length ∧
            j < s.target.m_memory_size
          then (s.bytes (s.payload gp).m_data)[j
            - ((s.payload gp).m_address + U64 - s.target.m_base_address % U64) % U64]?
          else s.target.m_memory[j]? := by
  simp only [memory_operation, hc, toInt32_small _ hlen, Int.toNat_ofNat]
  rw [if_neg (by omega)]
  generalize ((s.payload gp).m_address + U64 - s.target.m_base_address % U64) % U64 = off
  by_cases hout : off < s.target.m_base_address ∨ off ≥ s.target.m_memory_size
  · rw [if_pos hout]
    refine ⟨_, rfl, rfl, rfl, rfl, ?_, ?_, rfl, ?_⟩
    · simp [Sim.set_response_status, hc]
    · intro p hp
      simp [Sim.set_response_status, Function.update, hp]
    · intro j
      rw [if_neg (by omega)]
      rfl
  · rw [if_neg hout]
    obtain ⟨mem', hm, hml, hmj⟩ := write_loop_spec s.target.m_memory_size
      (s.bytes (s.payload gp).m_data) hsize (s.payload gp).m_length 0 off s.target.m_memory
      (by omega) (by omega)
    rw [hm]
    refine ⟨_, rfl, rfl, rfl, rfl, ?_, ?_, hml, ?_⟩
    · simp [Sim.set_response_status, hc]
    · intro p hp
      simp [Sim.set_response_status, Function.update, hp]
    · intro j
      show mem'[j]? = _
      rw [hmj j]
      have hb' : ¬ off < s.target.m_base_address := fun h => hout (Or.inl h)
      simp only [Nat.zero_add]
      by_cases hin : off ≤ j ∧ j < off + min (s.payload gp).m_length (s.target.m_memory_size - off)
      · rw [if_pos hin, if_pos (by omega)]
      · rw [if_neg hin, if_neg (by omega)]

/-- A read of fewer than `2^31` bytes whose address range lies entirely outside
`[base, base+size)` leaves the first `length` bytes of the buffer zero and sets
the status to OK; the wrap-around of the translation for addresses below the
base is included. -/
theorem memory_operation_read_outside (gp : Ptr) (s : Sim)
    (hc : (s.payload gp).m_command = .TLM_READ_COMMAND)
    (haddr : (s.payload gp).m_address < U64)
    (hbase : s.target.m_base_address < U64)
    (hsum : s.target.m_base_address + s.target.m_memory_size ≤ U64)
    (hsize : s.target.m_memory_size < U64)
    (hmem : s.target.m_memory.length = s.target.m_memory_size)
    (hout : (s.payload gp).m_address + (s.payload gp).m_length ≤ s.target.m_base_address ∨
      s.target.m_base_address + s.target.m_memory_size ≤ (s.payload gp).m_address)
    (hlen : (s.payload gp).m_length < 2 ^ 31)
    (hbuf : (s.payload gp).m_length ≤ (s.bytes (s.payload gp).m_data).length) :
    ∃ s', memory_operation gp s = Result.ret () s' ∧
      (s'.payload gp).m_response_status = .TLM_OK_RESPONSE ∧
      ∀ j, j < (s.payload gp).m_length → (s'.bytes (s.payload gp).m_data)[j]? = some 0 := by
  obtain ⟨s', h, -, -, hp, -, -, -, hj⟩ := memory_operation_read_spec gp s hc hsize hmem hlen hbuf
  refine ⟨s', h, by rw [hp], fun j hlt => ?_⟩
  rw [hj j, if_pos hlt]
  rw [translate_eq _ _ haddr hbase]
  by_cases hle : s.target.m_base_address ≤ (s.payload gp).m_address
  · rw [if_pos hle, if_neg (by omega)]
  · rw [if_neg hle, if_neg (by omega)]

/-- Round trip, where the code honours it: a write of `N < 2^31` bytes at an
address `A` with `[A, A+N)` inside `[base, base+size)` and the translated offset
`A - base` not below the base address, followed by a read of `N` bytes at `A`,
leaves in the read buffer the `N` bytes that were written. -/
theorem memory_operation_round_trip (s : Sim) (w r : Ptr)
    (hw : (s.payload w).m_command = .TLM_WRITE_COMMAND)
    (hr : (s.payload r).m_command = .TLM_READ_COMMAND)
    (ha : (s.payload r).m_address = (s.payload w).m_address)
    (hn : (s.payload r).m_length = (s.payload w).m_length)
    (haddr : (s.payload w).m_address < U64)
    (hsize : s.target.m_memory_size < U64)
    (hmem : s.target.m_memory.length = s.target.m_memory_size)
    (hlo : s.target.m_base_address ≤ (s.payload w).m_address)
    (hhi : (s.payload w).m_address + (s.payload w).m_length
      ≤ s.target.m_base_address + s.target.m_memory_size)
    (hguard : s.target.m_base_address ≤ (s.payload w).m_address - s.target.m_base_address)
    (hlen : (s.payload w).m_length < 2 ^ 31)
    (hbw : (s.payload w).m_length ≤ (s.bytes (s.payload w).m_data).length)
    (hbr : (s.payload w).m_length ≤ (s.bytes (s.payload r).m_data).length) :
    ∃ s1 s2, memory_operation w s = Result.ret () s1 ∧
      memory_operation r s1 = Result.ret () s2 ∧
      (s2.bytes (s.payload r).m_data).take (s.payload w).m_length
        = (s.bytes (s.payload w).m_data).take (s.payload w).m_length := by
  have hne : r ≠ w := by
    intro h
    rw [h, hw] at hr
    cases hr
  have hbase : s.target.m_base_address < U64 := by omega
  obtain ⟨s1, h1, ht1, -, hb1, -, hp1, hl1, hm1⟩ :=
    memory_operation_write_spec w s hw hsize hmem hlen hbw
  have hpr : s1.payload r = s.payload r := hp1 r hne
  have hsz : s1.target.m_memory_size = s.target.m_memory_size := by rw [ht1]
  have hba : s1.target.m_base_address = s.target.m_base_address := by rw [ht1]
  obtain ⟨s2, h2, -, -, -, -, -, -, hj2⟩ := memory_operation_read_spec r s1
    (by rw [hpr]; exact hr) (by rw [hsz]; exact hsize) (by rw [hl1, hsz]; exact hmem)
    (by rw [hpr, hn]; exact hlen) (by rw [hpr, hn, hb1]; exact hbr)
  refine ⟨s1, s2, h1, h2, ?_⟩
  rw [hpr, hsz, hba, ha, hn, translate_eq _ _ haddr hbase, if_pos hlo] at hj2
  rw [translate_eq _ _ haddr hbase, if_pos hlo] at hm1
  apply List.ext_getElem?
  intro j
  rw [List.getElem?_take, List.getElem?_take]
  by_cases hj : j < (s.payload w).m_length
  · rw [if_pos hj, if_pos hj, hj2 j, if_pos hj, if_pos ⟨hguard, by omega⟩, hm1,
      if_pos ⟨hguard, by omega, by omega, by omega⟩]
    congr 1
    omega
  · rw [if_neg hj, if_neg hj]

/-! ### `memory_operation` where it departs from its contract (C1 to C4) -/

/-- A read whose `memset` count exceeds the data buffer is an access beyond the
end of the buffer. -/
theorem memory_operation_read_overrun (gp : Ptr) (s : Sim)
    (hc : (s.payload gp).m_command = .TLM_READ_COMMAND)
    (h : (s.bytes (s.payload gp).m_data).length < toSizeT (toInt32 (s.payload gp).m_length)) :
    memory_operation gp s = Result.undefined := by
  unfold memory_operation
  simp only [hc]
  have hm : memset0 (s.bytes (s.payload gp).m_data) (toSizeT (toInt32 (s.payload gp).m_length))
      = none := by
    unfold memset0
    rw [if_neg (by omega)]
  rw [hm]

/-- C1, evaluated at base `0x100`: the byte `0xAB` written at address `0x100`,
inside `[base, base+size)`, is not stored, and the following read of the same
address returns `0x00`: the local offset `0` is compared with the base address
and taken for out of bounds. -/
theorem memory_operation_round_trip_lost :
    c1_sim.target.m_base_address ≤ (c1_sim.payload 1).m_address ∧
    (c1_sim.payload 1).m_address + (c1_sim.payload 1).m_length
      ≤ c1_sim.target.m_base_address + c1_sim.target.m_memory_size ∧
    (c1_sim.payload 2).m_address = (c1_sim.payload 1).m_address ∧
    (c1_sim.payload 2).m_length = (c1_sim.payload 1).m_length ∧
    c1_sim.bytes (c1_sim.payload 1).m_data = [0xAB] ∧
    ((memory_operation 1 c1_sim).andThen (memory_operation 2)).state?.map
      (fun s => (s.bytes (s.payload 1).m_data, s.bytes (s.payload 2).m_data))
      = some ([0xAB], [0x00]) := by
  decide

/-- C2, evaluated at a read of `2^31` bytes from an address beyond the store:
the length is narrowed to a negative `int`, the `memset` count becomes
`2^64 - 2^31`, and the call runs past the end of the `2^31`-byte data buffer
instead of returning with a zeroed buffer and status OK. -/
theorem memory_operation_read_outside_overruns :
    c2_sim.target.m_base_address + c2_sim.target.m_memory_size ≤ (c2_sim.payload 1).m_address ∧
    c2_sim.target.m_base_address + c2_sim.target.m_memory_size ≤ 2 ^ 64 ∧
    (c2_sim.payload 1).m_command = .TLM_READ_COMMAND ∧
    (c2_sim.payload 1).m_length < 2 ^ 32 ∧
    (c2_sim.bytes (c2_sim.payload 1).m_data).length = (c2_sim.payload 1).m_length ∧
    toSizeT (toInt32 (c2_sim.payload 1).m_length) = 2 ^ 64 - 2 ^ 31 ∧
    memory_operation 1 c2_sim = Result.undefined := by
  have h1 : c2_sim.bytes (c2_sim.payload 1).m_data = List.replicate 2147483648 0xFF := rfl
  have h2 : (c2_sim.payload 1).m_length = 2147483648 := rfl
  refine ⟨by decide, by decide, rfl, by decide, ?_, by decide, ?_⟩
  · rw [h1, h2, List.length_replicate]
  · apply memory_operation_read_overrun
    · rfl
    · rw [h1, h2, List.length_replicate]
      decide

/-- C3, evaluated at base `0x100`: a two-byte write at address `0x10F`, whose
first byte is the last byte of the store and whose second byte is beyond it,
stores nothing (store offset 15 stays `0x00`) and reports OK: the local offset
`0x0F` is compared with the base address and taken for out of bounds. -/
theorem memory_operation_write_prefix_lost :
    c3_sim.target.m_base_address ≤ (c3_sim.payload 1).m_address ∧
    (c3_sim.payload 1).m_address < c3_sim.target.m_base_address + c3_sim.target.m_memory_size ∧
    c3_sim.target.m_base_address + c3_sim.target.m_memory_size
      < (c3_sim.payload 1).m_address + (c3_sim.payload 1).m_length ∧
    c3_sim.bytes (c3_sim.payload 1).m_data = [0xAA, 0xBB] ∧
    (memory_operation 1 c3_sim).state?.map
      (fun s => (s.target.m_memory, (s.payload 1).m_response_status))
      = some (List.replicate 16 0, .TLM_OK_RESPONSE) := by
  decide

/-- C4, evaluated at base `0x100`: a one-byte read at address `0x100`, the first
byte of the store, returns `0x00` although store offset 0 holds `0xAB`: the
local offset `0` is compared with the base address and taken for out of
bounds. -/
theorem memory_operation_read_inside_zeroed :
    c4_sim.target.m_base_address ≤ (c4_sim.payload 1).m_address ∧
    (c4_sim.payload 1).m_address < c4_sim.target.m_base_address + c4_sim.target.m_memory_size ∧
    c4_sim.target.m_memory[(c4_sim.payload 1).m_address - c4_sim.target.m_base_address]?
      = some 0xAB ∧
    (memory_operation 1 c4_sim).state?.map
      (fun s => (s.bytes (s.payload 1).m_data, (s.payload 1).m_response_status))
      = some ([0x00], .TLM_OK_RESPONSE) := by
  decide

/-! ### The inbound call `nb_transport` (C5 to C7) -/

/-- With a transaction at the front of the end-response queue, `END_RESP`
returns `TLM_COMPLETED` exactly when the acknowledged transaction is that
front: the front is removed, the end-response event notified, and nothing else
changes; for any other transaction the call stops in `REPORT_FATAL` in the
state of the call. -/
theorem nb_transport_END_RESP_spec (s : Sim) (gp : Ptr) (delay_time : Nat) (t : Ptr)
    (rest : List Ptr) (hq : s.target.m_end_response_queue = t :: rest) :
    (t = gp →
      nb_transport gp .END_RESP delay_time s = Result.ret .TLM_COMPLETED
        ((s.withTarget { s.target with m_end_response_queue := rest }).emit
          (.notify .m_end_response_event 0))) ∧
    (t ≠ gp → nb_transport gp .END_RESP delay_time s = Result.fatal s) := by
  constructor
  · intro h
    simp only [nb_transport]
    split
    · rename_i h'
      rw [hq] at h'
      cases h'
    · rename_i t' rest' h'
      rw [hq] at h'
      cases h'
      rw [if_neg (by simp [h])]
  · intro h
    simp only [nb_transport]
    split
    · rename_i h'
      rw [hq] at h'
      cases h'
    · rename_i t' rest' h'
      rw [hq] at h'
      cases h'
      rw [if_pos h]
      rfl

/-- `END_RESP` received while the end-response queue is empty: line 167 takes
`front()` of the empty queue, an undefined access, whatever the transaction. -/
theorem nb_transport_END_RESP_empty (s : Sim) (gp : Ptr) (delay_time : Nat)
    (hq : s.target.m_end_response_queue = []) :
    nb_transport gp .END_RESP delay_time s = Result.undefined := by
  simp only [nb_transport, hq]

/-- The outcome of `nb_transport` with phase `BEGIN_REQ`, member by member. -/
theorem nb_transport_BEGIN_REQ_spec (s : Sim) (gp : Ptr) (delay_time : Nat) :
    ∃ s', nb_transport gp .BEGIN_REQ delay_time s = Result.ret .TLM_ACCEPTED s' ∧
      s'.target = { s.target with m_end_request_queue := s.target.m_end_request_queue ++ [gp] } ∧
      s'.target.m_end_request_queue = s.target.m_end_request_queue ++ [gp] ∧
      s'.target.m_response_queue = s.target.m_response_queue ∧
      s'.target.m_end_response_queue = s.target.m_end_response_queue ∧
      s'.target.m_memory = s.target.m_memory ∧
      s'.payload = s.payload ∧
      s'.bytes = s.bytes ∧
      s'.log = s.log ++
        (if s.target.m_end_request_queue = [] then [Effect.notify .m_end_request_event 0]
         else []) := by
  by_cases h : s.target.m_end_request_queue = []
  · refine ⟨(s.emit (.notify .m_end_request_event 0)).withTarget
      { s.target with m_end_request_queue := s.target.m_end_request_queue ++ [gp] }, ?_, ?_⟩
    · simp only [nb_transport, if_pos h]
      rfl
    · simp [Sim.withTarget, Sim.emit, h]
  · refine ⟨s.withTarget
      { s.target with m_end_request_queue := s.target.m_end_request_queue ++ [gp] }, ?_, ?_⟩
    · simp only [nb_transport, if_neg h]
    · simp [Sim.withTarget, h]

/-- C6: `nb_transport` with phase `BEGIN_REQ` returns `TLM_ACCEPTED` in every
state; the transaction is appended at the back of the end-request queue; the
end-request event is notified with zero delay exactly when that queue was
empty; nothing else of the target (response queue, end-response queue, store,
flags), no payload and no buffer changes. -/
theorem nb_transport_BEGIN_REQ_accepted (s : Sim) (gp : Ptr) (delay_time : Nat) :
    ∃ s', nb_transport gp .BEGIN_REQ delay_time s = Result.ret .TLM_ACCEPTED s' ∧
      s'.target = { s.target with m_end_request_queue := s.target.m_end_request_queue ++ [gp] } ∧
      s'.target.m_end_request_queue = s.target.m_end_request_queue ++ [gp] ∧
      s'.target.m_response_queue = s.target.m_response_queue ∧
      s'.target.m_end_response_queue = s.target.m_end_response_queue ∧
      s'.target.m_memory = s.target.m_memory ∧
      s'.payload = s.payload ∧
      s'.bytes = s.bytes ∧
      s'.log = s.log ++
        (if s.target.m_end_request_queue = [] then [Effect.notify .m_end_request_event 0]
         else []) :=
  nb_transport_BEGIN_REQ_spec s gp delay_time

/-- C7: `nb_transport` with phase `BEGIN_RESP`, with phase `END_REQ`, or with a
phase value that is none of the four handshake phases stops in `REPORT_FATAL`
in the very state it was called in: no verdict is returned, and the three
queues are those of the call. -/
theorem nb_transport_invalid_phase_fatal (s : Sim) (gp : Ptr) (delay_time : Nat) :
    nb_transport gp .BEGIN_RESP delay_time s = Result.fatal s ∧
    nb_transport gp .END_REQ delay_time s = Result.fatal s ∧
    (∀ v, nb_transport gp (.other v) delay_time s = Result.fatal s) ∧
    (∀ phase, phase ≠ .BEGIN_REQ → phase ≠ .END_RESP →
      ∀ s', nb_transport gp phase delay_time s ≠ Result.ret .TLM_ACCEPTED s') := by
  refine ⟨rfl, rfl, fun _ => rfl, ?_⟩
  intro phase h1 h2 s' h
  cases phase <;> simp_all [nb_transport, REPORT_FATAL]

/-! ### Frame of `memory_operation` on the engine state -/

/-- Setting the response status leaves every command as it is. -/
theorem set_response_status_command (s : Sim) (gp p : Ptr) (r : tlm_response_status) :
    ((s.set_response_status gp r).payload p).m_command = (s.payload p).m_command := by
  by_cases hp : p = gp
  · subst hp
    simp [Sim.set_response_status]
  · simp [Sim.set_response_status, Function.update, hp]

/-- What `memory_operation` leaves alone when it returns: the log, every member
of the target but the store, and the command of every transaction. -/
theorem memory_operation_ret_frame (gp : Ptr) (s s' : Sim) (r : Unit)
    (h : memory_operation gp s = Result.ret r s') :
    s'.log = s.log ∧ s'.target = { s.target with m_memory := s'.target.m_memory } ∧
    (∀ p, (s'.payload p).m_command = (s.payload p).m_command) := by
  cases hc : (s.payload gp).m_command <;> simp only [memory_operation, hc] at h
  · split at h
    · cases h
    · split at h
      · cases h
        exact ⟨rfl, rfl, fun p => set_response_status_command _ gp p _⟩
      · split at h
        · cases h
        · cases h
          exact ⟨rfl, rfl, fun p => set_response_status_command _ gp p _⟩
  · split at h
    · cases h
    · split at h
      · cases h
        exact ⟨rfl, rfl, fun p => set_response_status_command _ gp p _⟩
      · split at h
        · cases h
        · cases h
          exact ⟨rfl, rfl, fun p => set_response_status_command _ gp p _⟩
  · cases h

/-- When `memory_operation` stops in `REPORT_FATAL` the state is the one of the call. -/
theorem memory_operation_fatal_frame (gp : Ptr) (s s' : Sim)
    (h : memory_operation gp s = Result.fatal s') : s' = s := by
  cases hc : (s.payload gp).m_command <;> simp only [memory_operation, hc] at h
  · split at h
    · cases h
    · split at h
      · cases h
      · split at h <;> cases h
  · split at h
    · cases h
    · split at h
      · cases h
      · split at h <;> cases h
  · cases h
    rfl

/-! ### Queue exclusivity (C8) -/

/-- The second half of `end_request_method` always returns, with the queues of
the call. -/
theorem end_request_rearm_queues (s s' : Sim) (r : Unit)
    (h : end_request_rearm s = Result.ret r s') :
    s'.target.m_end_request_queue = s.target.m_end_request_queue ∧
    s'.target.m_response_queue = s.target.m_response_queue ∧
    s'.target.m_end_response_queue = s.target.m_end_response_queue := by
  unfold end_request_rearm at h
  by_cases hq : s.target.m_end_request_queue = []
  · simp only [if_pos hq] at h
    cases h
    exact ⟨rfl, rfl, rfl⟩
  · simp only [if_neg hq] at h
    cases h
    exact ⟨rfl, rfl, rfl⟩

/-- The second half of `begin_response_method` returns with the queues of the call. -/
theorem begin_response_rearm_queues (s s' : Sim) (r : Unit)
    (h : begin_response_rearm s = Result.ret r s') :
    s'.target.m_end_request_queue = s.target.m_end_request_queue ∧
    s'.target.m_response_queue = s.target.m_response_queue ∧
    s'.target.m_end_response_queue = s.target.m_end_response_queue := by
  unfold begin_response_rearm at h
  split at h
  · cases h
    exact ⟨rfl, rfl, rfl⟩
  · dsimp only at h
    split at h
    · cases h
      exact ⟨rfl, rfl, rfl⟩
    · split at h
      · cases h
        exact ⟨rfl, rfl, rfl⟩
      · cases h

/-- A firing of the end-request activity that returns permutes the
concatenation of the three queues. -/
theorem end_request_method_queued (verdict : tlm_sync_enum) (s s' : Sim) (r : Unit)
    (h : end_request_method verdict s = Result.ret r s') :
    (queued s'.target).Perm (queued s.target) := by
  unfold end_request_method at h
  split at h
  · split at h
    · cases h
    · rename_i t rest hq
      cases verdict
      · obtain ⟨h1, h2, h3⟩ := end_request_rearm_queues _ _ _ h
        simp only [queued, h1, h2, h3, hq]
        by_cases hr : s.target.m_response_queue = []
        · simp [Sim.emit, Sim.withTarget, hr]
        · simp only [Sim.emit, Sim.withTarget, hr, if_false, List.append_assoc,
            List.singleton_append, List.cons_append]
          rw [← List.append_assoc]
          simpa using (List.perm_middle :
            (rest ++ s.target.m_response_queue ++ t :: s.target.m_end_response_queue).Perm _)
      · cases h
      · cases h
  · obtain ⟨h1, h2, h3⟩ := end_request_rearm_queues _ _ _ h
    simp only [queued, h1, h2, h3]
    exact List.Perm.refl _

/-- A firing of the begin-response activity that returns permutes the
concatenation of the three queues. -/
theorem begin_response_method_queued (verdict : tlm_sync_enum) (s s' : Sim) (r : Unit)
    (h : begin_response_method verdict s = Result.ret r s') :
    (queued s'.target).Perm (queued s.target) := by
  unfold begin_response_method at h
  split at h
  · split at h
    · cases h
    · rename_i t rest hq
      dsimp only at h
      split at h
      · cases h
      · cases h
      · rename_i u s2 hm
        obtain ⟨-, hf, -⟩ := memory_operation_ret_frame _ _ _ _ hm
        cases verdict
        · obtain ⟨h1, h2, h3⟩ := begin_response_rearm_queues _ _ _ h
          simp only [queued, h1, h2, h3, hq]
          simp only [Sim.emit, Sim.withTarget, Sim.set_response_status]
          rw [hf]
          simp only [Sim.withTarget, List.append_assoc, List.cons_append]
          refine List.Perm.append_left _ ?_
          rw [← List.append_assoc]
          exact List.perm_append_singleton _ _
        · cases h
        · cases h
  · obtain ⟨h1, h2, h3⟩ := begin_response_rearm_queues _ _ _ h
    simp only [queued, h1, h2, h3]
    exact List.Perm.refl _

/-- An inbound call that returns, for a transaction not yet queued when the
phase is `BEGIN_REQ`, keeps the three queues free of repetitions. -/
theorem nb_transport_nodup (gp : Ptr) (phase : tlm_phase) (delay_time : Nat) (s s' : Sim)
    (r : tlm_sync_enum) (hfresh : phase = .BEGIN_REQ → gp ∉ queued s.target)
    (h : nb_transport gp phase delay_time s = Result.ret r s')
    (hn : (queued s.target).Nodup) : (queued s'.target).Nodup := by
  cases phase
  · have hg := hfresh rfl
    obtain ⟨s'', h', ht, -⟩ := nb_transport_BEGIN_REQ_spec s gp delay_time
    rw [h'] at h
    cases h
    rw [ht]
    simp only [queued, List.append_assoc] at hn hg ⊢
    have hp : (s.target.m_end_request_queue ++ ([gp] ++
        (s.target.m_response_queue ++ s.target.m_end_response_queue))).Perm
        (gp :: (s.target.m_end_request_queue ++
        (s.target.m_response_queue ++ s.target.m_end_response_queue))) := by
      simp
    exact hp.nodup_iff.mpr (List.nodup_cons.mpr ⟨hg, hn⟩)
  · cases h
  · cases h
  · simp only [nb_transport] at h
    split at h
    · cases h
    · rename_i t rest hq
      split at h
      · cases h
      · cases h
        simp only [queued, hq, Sim.emit, Sim.withTarget] at hn ⊢
        exact (List.nodup_cons.mp (List.perm_middle.nodup_iff.mp hn)).2
  · cases h

/-- Every step that did not abort, with `BEGIN_REQ` presented only for
transactions not yet queued, keeps the three queues free of repetitions. -/
theorem Step_nodup (s s' : Sim) (h : Step freshOffer s s') (hn : (queued s.target).Nodup) :
    (queued s'.target).Nodup := by
  cases h with
  | inbound gp phase delay_time r hfresh h =>
    exact nb_transport_nodup gp phase delay_time s s' r hfresh h hn
  | end_request verdict h => exact (end_request_method_queued verdict s s' () h).nodup_iff.mpr hn
  | begin_response verdict h =>
    exact (begin_response_method_queued verdict s s' () h).nodup_iff.mpr hn

set_option maxRecDepth 100000 in
/-- The run of `c13_sim`, in which `BEGIN_REQ` presents transaction 1 while the
three queues are empty, leads in six steps to a state whose three queues are
empty again. -/
theorem c26_fresh : Reachable freshOffer c26_s6 ∧ queued c26_s6.target = [] := by
  have h1 : Step freshOffer c13_sim c26_s1 :=
    Step.inbound _ _ 1 .BEGIN_REQ 0 .TLM_ACCEPTED (fun _ => by
      show (1 : Ptr) ∉ queued c13_sim.target
      decide) rfl
  have h2 : Step freshOffer c26_s1 c26_s2 := Step.end_request _ _ .TLM_ACCEPTED rfl
  have h3 : Step freshOffer c26_s2 c26_s3 := Step.end_request _ _ .TLM_ACCEPTED rfl
  have h4 : Step freshOffer c26_s3 c26_s4 := Step.begin_response _ _ .TLM_ACCEPTED rfl
  have h5 : Step freshOffer c26_s4 c26_s5 := Step.begin_response _ _ .TLM_ACCEPTED rfl
  have h6 : Step freshOffer c26_s5 c26_s6 :=
    Step.inbound _ _ 1 .END_RESP 0 .TLM_COMPLETED (fun h => by cases h) rfl
  refine ⟨⟨c13_sim, ⟨rfl, rfl, rfl, rfl, rfl⟩,
    (((((Relation.ReflTransGen.refl.tail h1).tail h2).tail h3).tail h4).tail h5).tail h6⟩, ?_⟩
  decide

/-- C8, as the claim states it, fails twice.  From a target just constructed, two
inbound `BEGIN_REQ` calls for the same transaction both return `TLM_ACCEPTED`
and leave that transaction twice in the end-request queue.  And in a state
reached with every `BEGIN_REQ` presenting a transaction that is in no queue,
after transaction 1 has gone through its four phases and the three queues are
empty, a further `END_RESP` takes `front()` and `pop()` of the empty
end-response queue: an undefined access, after which nothing can be said of the
queues. -/
theorem queue_exclusivity_fails_on_repeated_BEGIN_REQ :
    (∃ s, Reachable anyOffer s ∧ s.target.m_end_request_queue = [1, 1] ∧
      ¬ (queued s.target).Nodup) ∧
    (Reachable freshOffer c26_s6 ∧ queued c26_s6.target = [] ∧
      nb_transport 1 .END_RESP 0 c26_s6 = Result.undefined) := by
  obtain ⟨s1, h1, ht1, -⟩ := nb_transport_BEGIN_REQ_spec c5_sim 1 0
  obtain ⟨s2, h2, ht2, -⟩ := nb_transport_BEGIN_REQ_spec s1 1 0
  have hq : s2.target.m_end_request_queue = [1, 1] := by
    rw [ht2]
    show s1.target.m_end_request_queue ++ [1] = [1, 1]
    rw [ht1]
    rfl
  have hr : s2.target.m_response_queue = [] := by rw [ht2, ht1]; rfl
  have he : s2.target.m_end_response_queue = [] := by rw [ht2, ht1]; rfl
  have he6 : c26_s6.target.m_end_response_queue = [] := by
    have := c26_fresh.2
    simp only [queued, List.append_eq_nil] at this
    exact this.2
  refine ⟨⟨s2, ⟨c5_sim, ⟨rfl, rfl, rfl, rfl, rfl⟩, ?_⟩, hq, ?_⟩,
    c26_fresh.1, c26_fresh.2, nb_transport_END_RESP_empty c26_s6 1 0 he6⟩
  · exact (Relation.ReflTransGen.single
      (Step.inbound c5_sim s1 1 .BEGIN_REQ 0 _ (fun _ => trivial) h1)).tail
      (Step.inbound s1 s2 1 .BEGIN_REQ 0 _ (fun _ => trivial) h2)
  · simp [queued, hq, hr, he]

/-- C8, amended: in every state reached from a target just constructed by
inbound `nb_transport` calls and activity firings that did not abort, where no
`END_RESP` is received while the end-response queue is empty and each
`BEGIN_REQ` presents a transaction that is in none of the three queues at that
moment, every transaction occurs at most once in the concatenation of the
end-request queue, the response queue and the end-response queue. -/
theorem queue_exclusivity (s : Sim) (h : Reachable freshOffer s) :
    (queued s.target).Nodup := by
  obtain ⟨s0, ⟨h1, h2, h3, -, -⟩, hrun⟩ := h
  induction hrun with
  | refl => simp [queued, h1, h2, h3]
  | tail _ hstep ih => exact Step_nodup _ _ hstep ih

/-- C8, amended, at a concrete run: `BEGIN_REQ` for transaction 1, then for
transaction 2. -/
theorem queue_exclusivity_witness :
    ∃ s, Reachable freshOffer s ∧ queued s.target = [1, 2] ∧ (queued s.target).Nodup := by
  obtain ⟨s1, h1, ht1, -⟩ := nb_transport_BEGIN_REQ_spec c5_sim 1 0
  obtain ⟨s2, h2, ht2, -⟩ := nb_transport_BEGIN_REQ_spec s1 2 0
  have hq1 : queued s1.target = [1] := by rw [ht1]; rfl
  have hq : queued s2.target = [1, 2] := by
    have e : queued s2.target = (s1.target.m_end_request_queue ++ [2]) ++
        s1.target.m_response_queue ++ s1.target.m_end_response_queue := by rw [ht2]; rfl
    rw [e, ht1]
    rfl
  have hreach : Reachable freshOffer s2 := by
    refine ⟨c5_sim, ⟨rfl, rfl, rfl, rfl, rfl⟩, ?_⟩
    refine (Relation.ReflTransGen.single
      (Step.inbound c5_sim s1 1 .BEGIN_REQ 0 _ (fun _ => ?_) h1)).tail
      (Step.inbound s1 s2 2 .BEGIN_REQ 0 _ (fun _ => ?_) h2)
    · show (1 : Ptr) ∉ queued c5_sim.target
      decide
    · show (2 : Ptr) ∉ queued s1.target
      rw [hq1]
      decide
  exact ⟨s2, hreach, hq, queue_exclusivity s2 hreach⟩

/-! ### Response delay selection (C9) -/

/-- The second half of `begin_response_method` on an empty response queue. -/
theorem begin_response_rearm_nil (m : Sim) (hq : m.target.m_response_queue = []) :
    begin_response_rearm m = Result.ret ()
      ((m.withTarget { m.target with begin_response_QActive := false }).emit
        (.next_trigger .m_begin_response_event)) := by
  unfold begin_response_rearm
  split
  · rfl
  · rename_i h
    rw [hq] at h
    cases h

/-- The second half of `begin_response_method` with a read at the front. -/
theorem begin_response_rearm_read (m : Sim) (t : Ptr) (rest : List Ptr)
    (hq : m.target.m_response_queue = t :: rest)
    (hc : (m.payload t).m_command = .TLM_READ_COMMAND) :
    begin_response_rearm m = Result.ret ()
      (((m.withTarget { m.target with begin_response_QActive := true }).emit
        (.notify .m_begin_response_event m.target.m_read_response_delay)).emit
        (.next_trigger .m_begin_response_event)) := by
  unfold begin_response_rearm
  split
  · rename_i h
    rw [hq] at h
    cases h
  · rename_i t' rest' h
    rw [hq] at h
    cases h
    dsimp only
    rw [if_pos (by exact hc)]
    rfl

/-- The second half of `begin_response_method` with a write at the front. -/
theorem begin_response_rearm_write (m : Sim) (t : Ptr) (rest : List Ptr)
    (hq : m.target.m_response_queue = t :: rest)
    (hc : (m.payload t).m_command = .TLM_WRITE_COMMAND) :
    begin_response_rearm m = Result.ret ()
      (((m.withTarget { m.target with begin_response_QActive := true }).emit
        (.notify .m_begin_response_event m.target.m_write_response_delay)).emit
        (.next_trigger .m_begin_response_event)) := by
  unfold begin_response_rearm
  split
  · rename_i h
    rw [hq] at h
    cases h
  · rename_i t' rest' h
    rw [hq] at h
    cases h
    dsimp only
    have h1 : ¬ ((m.withTarget { m.target with begin_response_QActive := true }).payload t).m_command
        = .TLM_READ_COMMAND := by
      show ¬ (m.payload t).m_command = _
      rw [hc]
      decide
    rw [if_neg h1, if_pos (by exact hc)]
    rfl

/-- The second half of `begin_response_method` with neither a read nor a write
at the front. -/
theorem begin_response_rearm_other (m : Sim) (t : Ptr) (rest : List Ptr)
    (hq : m.target.m_response_queue = t :: rest)
    (hc : (m.payload t).m_command = .TLM_IGNORE_COMMAND) :
    begin_response_rearm m
      = Result.fatal (m.withTarget { m.target with begin_response_QActive := true }) := by
  unfold begin_response_rearm
  split
  · rename_i h
    rw [hq] at h
    cases h
  · rename_i t' rest' h
    rw [hq] at h
    cases h
    dsimp only
    have h1 : ¬ ((m.withTarget { m.target with begin_response_QActive := true }).payload t).m_command
        = .TLM_READ_COMMAND := by
      show ¬ (m.payload t).m_command = _
      rw [hc]
      decide
    have h2 : ¬ ((m.withTarget { m.target with begin_response_QActive := true }).payload t).m_command
        = .TLM_WRITE_COMMAND := by
      show ¬ (m.payload t).m_command = _
      rw [hc]
      decide
    rw [if_neg h1, if_neg h2]
    rfl

/-- A firing of the begin-response activity either performs an undefined
access, or stops in `REPORT_FATAL` in its first half (having notified nothing),
or reaches the check of the response queue in a state `m` in which it has
notified nothing and sent no `END_REQ`, whose response queue is the one of the
call, less its front when the activity was active, and whose target differs
from the one of the call at most in the store, the response queue, the
end-response queue and the flag of the activity. -/
theorem begin_response_method_reaches_check (verdict : tlm_sync_enum) (s : Sim) :
    begin_response_method verdict s = Result.undefined ∨
    (∃ s', begin_response_method verdict s = Result.fatal s' ∧
      ∀ e, armed e s'.log = armed e s.log) ∨
    (∃ m, begin_response_method verdict s = begin_response_rearm m ∧
      (∀ e, armed e m.log = armed e s.log) ∧
      sent .END_REQ m.log = sent .END_REQ s.log ∧
      m.target = { s.target with
        m_memory := m.target.m_memory
        m_response_queue := m.target.m_response_queue
        m_end_response_queue := m.target.m_end_response_queue
        begin_response_QActive := m.target.begin_response_QActive } ∧
      (∀ p, (m.payload p).m_command = (s.payload p).m_command) ∧
      (if s.target.begin_response_QActive then
        s.target.m_response_queue.tail = m.target.m_response_queue
       else s.target.m_response_queue = m.target.m_response_queue)) := by
  unfold begin_response_method
  by_cases ha : s.target.begin_response_QActive = true
  · rw [if_pos ha]
    cases hq : s.target.m_response_queue with
    | nil => exact Or.inl rfl
    | cons t rest =>
      dsimp only
      cases hm : memory_operation t
          (s.withTarget { s.target with m_response_queue := rest }) with
      | undefined => exact Or.inl rfl
      | fatal s2 =>
        right; left
        have := memory_operation_fatal_frame _ _ _ hm
        subst this
        exact ⟨_, rfl, fun _ => rfl⟩
      | ret u s2 =>
        obtain ⟨hl, hf, hcmd⟩ := memory_operation_ret_frame _ _ _ _ hm
        have hl' : s2.log = s.log := hl
        cases verdict
        · right; right
          refine ⟨_, rfl, ?_, ?_, ?_, ?_, ?_⟩
          · intro e
            simp [armed_append, hl']
          · simp [sent_append, hl']
          · simp only [Sim.emit_target, Sim.withTarget_target, Sim.set_response_status_target]
            rw [hf]
            rfl
          · intro p
            have hcmd' : (s2.payload p).m_command = (s.payload p).m_command := hcmd p
            rw [← hcmd']
            exact set_response_status_command s2 t p _
          · rw [if_pos ha]
            show rest = s2.target.m_response_queue
            rw [hf]
            rfl
        · right; left
          refine ⟨_, rfl, fun e => ?_⟩
          simp [armed_append, hl']
        · right; left
          refine ⟨_, rfl, fun e => ?_⟩
          simp [armed_append, hl']
  · rw [if_neg ha]
    right; right
    exact ⟨s, rfl, fun _ => rfl, rfl, rfl, fun _ => rfl, by rw [if_neg ha]⟩

/-! ### Admission throttling (C10) -/

/-- The second half of `end_request_method` on an empty end-request queue. -/
theorem end_request_rearm_nil (m : Sim) (hq : m.target.m_end_request_queue = []) :
    end_request_rearm m = Result.ret ()
      ((m.withTarget { m.target with end_request_QActive := false }).emit
        (.next_trigger .m_end_request_event)) := by
  unfold end_request_rearm
  rw [if_pos hq]

/-- The second half of `end_request_method` on a non-empty end-request queue. -/
theorem end_request_rearm_cons (m : Sim) (hq : m.target.m_end_request_queue ≠ []) :
    end_request_rearm m = Result.ret ()
      (((m.withTarget { m.target with end_request_QActive := true }).emit
        (.notify .m_end_request_event m.target.m_accept_delay)).emit
        (.next_trigger .m_end_request_event)) := by
  unfold end_request_rearm
  rw [if_neg hq]

/-- An active firing of the end-request activity with `t` at the front of its
queue: it reaches the send, and goes on to the second half exactly when the
verdict is `TLM_ACCEPTED`. -/
theorem end_request_method_active (verdict : tlm_sync_enum) (s : Sim) (t : Ptr)
    (rest : List Ptr) (ha : s.target.end_request_QActive = true)
    (hq : s.target.m_end_request_queue = t :: rest) :
    end_request_method verdict s =
      match verdict with
      | .TLM_ACCEPTED => end_request_rearm (end_request_sent s t rest)
      | _ => Result.fatal (end_request_sent s t rest) := by
  unfold end_request_method
  rw [if_pos ha]
  split
  · rename_i h
    rw [hq] at h
    cases h
  · rename_i t' rest' h
    rw [hq] at h
    cases h
    cases verdict <;> rfl

/-- An idle firing of the end-request activity is its second half. -/
theorem end_request_method_idle (verdict : tlm_sync_enum) (s : Sim)
    (ha : s.target.end_request_QActive = false) :
    end_request_method verdict s = end_request_rearm s := by
  unfold end_request_method
  rw [if_neg (by simp [ha])]

@[simp] theorem end_request_sent_target (s : Sim) (t : Ptr) (rest : List Ptr) :
    (end_request_sent s t rest).target =
      { s.target with
        m_end_request_queue := rest
        m_response_queue := s.target.m_response_queue ++ [t] } := by
  unfold end_request_sent
  by_cases h : s.target.m_response_queue = []
  · simp [h]
  · simp [h]

theorem end_request_sent_log (s : Sim) (t : Ptr) (rest : List Ptr) :
    (end_request_sent s t rest).log =
      s.log ++ (if s.target.m_response_queue = [] then [Effect.notify .m_begin_response_event 0]
        else []) ++ [Effect.send t .END_REQ 0] := by
  unfold end_request_sent
  by_cases h : s.target.m_response_queue = []
  · simp [h]
  · simp [h]

@[simp] theorem end_request_sent_armed (s : Sim) (t : Ptr) (rest : List Ptr) :
    armed .m_end_request_event (end_request_sent s t rest).log
      = armed .m_end_request_event s.log := by
  rw [end_request_sent_log]
  by_cases h : s.target.m_response_queue = [] <;> simp [armed_append, h]

@[simp] theorem end_request_sent_sent (s : Sim) (t : Ptr) (rest : List Ptr) :
    sent .END_REQ (end_request_sent s t rest).log = sent .END_REQ s.log ++ [t] := by
  rw [end_request_sent_log]
  by_cases h : s.target.m_response_queue = [] <;> simp [sent_append, h]

/-- What an active firing of the end-request activity that returns has done. -/
theorem end_request_method_fire (verdict : tlm_sync_enum) (s s' : Sim) (t : Ptr)
    (rest : List Ptr) (ha : s.target.end_request_QActive = true)
    (hq : s.target.m_end_request_queue = t :: rest)
    (h : end_request_method verdict s = Result.ret () s') :
    verdict = .TLM_ACCEPTED ∧
    s'.target.m_end_request_queue = rest ∧
    s'.target.m_accept_delay = s.target.m_accept_delay ∧
    sent .END_REQ s'.log = sent .END_REQ s.log ++ [t] ∧
    (rest = [] → s'.target.end_request_QActive = false ∧
      armed .m_end_request_event s'.log = armed .m_end_request_event s.log) ∧
    (rest ≠ [] → s'.target.end_request_QActive = true ∧
      armed .m_end_request_event s'.log
        = armed .m_end_request_event s.log ++ [s.target.m_accept_delay]) := by
  rw [end_request_method_active verdict s t rest ha hq] at h
  cases verdict
  · dsimp only at h
    by_cases hr : rest = []
    · rw [end_request_rearm_nil _ (by simp [hr])] at h
      cases h
      refine ⟨rfl, by simp [hr], by simp, by simp [sent_append], fun _ => ?_, fun hne => absurd hr hne⟩
      simp [armed_append]
    · rw [end_request_rearm_cons _ (by simp [hr])] at h
      cases h
      refine ⟨rfl, by simp, by simp, by simp [sent_append], fun he => absurd he hr, fun _ => ?_⟩
      simp [armed_append]
  · cases h
  · cases h

/-- What an idle firing of the end-request activity has done. -/
theorem end_request_method_idle_spec (verdict : tlm_sync_enum) (s : Sim)
    (ha : s.target.end_request_QActive = false) :
    ∃ s', end_request_method verdict s = Result.ret () s' ∧
      s'.target.m_end_request_queue = s.target.m_end_request_queue ∧
      sent .END_REQ s'.log = sent .END_REQ s.log ∧
      (s.target.m_end_request_queue = [] → s'.target.end_request_QActive = false ∧
        armed .m_end_request_event s'.log = armed .m_end_request_event s.log) ∧
      (s.target.m_end_request_queue ≠ [] → s'.target.end_request_QActive = true ∧
        armed .m_end_request_event s'.log
          = armed .m_end_request_event s.log ++ [s.target.m_accept_delay]) := by
  rw [end_request_method_idle verdict s ha]
  by_cases hq : s.target.m_end_request_queue = []
  · rw [end_request_rearm_nil _ hq]
    refine ⟨_, rfl, rfl, by simp [sent_append], fun _ => ?_, fun hne => absurd hq hne⟩
    simp [armed_append]
  · rw [end_request_rearm_cons _ hq]
    refine ⟨_, rfl, rfl, by simp [sent_append], fun he => absurd he hq, fun _ => ?_⟩
    simp [armed_append]

/-- Scheduling after a call that notified nothing leaves the wake-up as it was. -/
theorem schedule_same (e : sc_event) (now : Nat) (wake : Option Nat) (l l' : List Effect)
    (h : armed e l' = armed e l) : schedule e now wake l l' = wake := by
  simp [schedule, h]

/-- Scheduling one notification with nothing pending. -/
theorem schedule_one (e : sc_event) (now d : Nat) (l l' : List Effect)
    (h : armed e l' = armed e l ++ [d]) : schedule e now none l l' = some (now + d) := by
  simp [schedule, h, sc_notify]

/-- The second half of `begin_response_method`, when it returns, leaves the
end-request side of the engine alone: queue, flag, accept delay, what is armed
for the end-request event, and the `END_REQ` sends. -/
theorem begin_response_rearm_quiet (m s' : Sim) (h : begin_response_rearm m = Result.ret () s') :
    s'.target.m_end_request_queue = m.target.m_end_request_queue ∧
    s'.target.end_request_QActive = m.target.end_request_QActive ∧
    s'.target.m_accept_delay = m.target.m_accept_delay ∧
    armed .m_end_request_event s'.log = armed .m_end_request_event m.log ∧
    sent .END_REQ s'.log = sent .END_REQ m.log := by
  cases hq : m.target.m_response_queue with
  | nil =>
    rw [begin_response_rearm_nil m hq] at h
    cases h
    simp [armed_append, sent_append]
  | cons t rest =>
    cases hc : (m.payload t).m_command with
    | TLM_READ_COMMAND =>
      rw [begin_response_rearm_read m t rest hq hc] at h
      cases h
      simp [armed_append, sent_append]
    | TLM_WRITE_COMMAND =>
      rw [begin_response_rearm_write m t rest hq hc] at h
      cases h
      simp [armed_append, sent_append]
    | TLM_IGNORE_COMMAND =>
      rw [begin_response_rearm_other m t rest hq hc] at h
      cases h

/-- A firing of the begin-response activity that returns leaves the end-request
side of the engine alone. -/
theorem begin_response_method_quiet (verdict : tlm_sync_enum) (s s' : Sim)
    (h : begin_response_method verdict s = Result.ret () s') :
    s'.target.m_end_request_queue = s.target.m_end_request_queue ∧
    s'.target.end_request_QActive = s.target.end_request_QActive ∧
    s'.target.m_accept_delay = s.target.m_accept_delay ∧
    armed .m_end_request_event s'.log = armed .m_end_request_event s.log ∧
    sent .END_REQ s'.log = sent .END_REQ s.log := by
  rcases begin_response_method_reaches_check verdict s with hu | ⟨s2, hf, -⟩ | ⟨m, hm, ha, hs, hf, -, -⟩
  · rw [hu] at h
    cases h
  · rw [hf] at h
    cases h
  · rw [hm] at h
    obtain ⟨h1, h2, h3, h4, h5⟩ := begin_response_rearm_quiet m s' h
    refine ⟨?_, ?_, ?_, ?_, ?_⟩
    · rw [h1, hf]
    · rw [h2, hf]
    · rw [h3, hf]
    · rw [h4, ha]
    · rw [h5, hs]

/-- An inbound call that returns while the end-request queue is not empty keeps
the front of that queue, the flag of the end-request activity and the accept
delay, notifies the end-request event of nothing and sends no `END_REQ`. -/
theorem nb_transport_quiet (gp : Ptr) (phase : tlm_phase) (delay_time : Nat) (s s' : Sim)
    (r : tlm_sync_enum) (t : Ptr) (more : List Ptr)
    (hq : s.target.m_end_request_queue = t :: more)
    (h : nb_transport gp phase delay_time s = Result.ret r s') :
    (∃ more', s'.target.m_end_request_queue = t :: more') ∧
    s'.target.end_request_QActive = s.target.end_request_QActive ∧
    s'.target.m_accept_delay = s.target.m_accept_delay ∧
    armed .m_end_request_event s'.log = armed .m_end_request_event s.log ∧
    sent .END_REQ s'.log = sent .END_REQ s.log := by
  cases phase
  · obtain ⟨s'', h', ht, -, -, -, -, -, -, hl⟩ := nb_transport_BEGIN_REQ_spec s gp delay_time
    rw [h'] at h
    cases h
    have hne : s.target.m_end_request_queue ≠ [] := by simp [hq]
    rw [if_neg hne, List.append_nil] at hl
    refine ⟨⟨more ++ [gp], by rw [ht]; simp [hq]⟩, by rw [ht], by rw [ht], by rw [hl], by rw [hl]⟩
  · cases h
  · cases h
  · simp only [nb_transport] at h
    split at h
    · cases h
    · split at h
      · cases h
      · cases h
        exact ⟨⟨more, by simp [hq]⟩, by simp, by simp, by simp [armed_append],
          by simp [sent_append]⟩
  · cases h

/-- Nothing that happens between two firings disarms the end-request activity
or brings its wake-up forward. -/
theorem Quiet_waiting (T ad : Nat) (t : Ptr) (L : List Ptr) (c c' : Timed) (h : Quiet c c')
    (hw : Waiting T ad t L c) : Waiting T ad t L c' := by
  obtain ⟨h1, h2, ⟨more, h3⟩, h4, h5, h6⟩ := hw
  cases h with
  | advance u hle hbound => exact ⟨h1, hbound _ h1, ⟨more, h3⟩, h4, h5, h6⟩
  | inbound gp phase delay_time r s' hcall =>
    obtain ⟨hq, ha, hd, harm, hsent⟩ := nb_transport_quiet gp phase delay_time c.sim s' r t more h3 hcall
    refine ⟨?_, h2, hq, ha.trans h4, hd.trans h5, hsent.trans h6⟩
    show schedule _ _ _ _ _ = _
    rw [schedule_same _ _ _ _ _ harm, h1]
  | begin_response verdict s' hcall =>
    obtain ⟨hq, ha, hd, harm, hsent⟩ := begin_response_method_quiet verdict c.sim s' hcall
    refine ⟨?_, h2, ⟨more, hq.trans h3⟩, ha.trans h4, hd.trans h5, hsent.trans h6⟩
    show schedule _ _ _ _ _ = _
    rw [schedule_same _ _ _ _ _ harm, h1]

/-- The same over any number of steps between two firings. -/
theorem Quiet_star_waiting (T ad : Nat) (t : Ptr) (L : List Ptr) (c c' : Timed)
    (h : Relation.ReflTransGen Quiet c c') (hw : Waiting T ad t L c) : Waiting T ad t L c' := by
  induction h with
  | refl => exact hw
  | tail _ hstep ih => exact Quiet_waiting T ad t L _ _ hstep ih

/-- An active firing of the end-request activity on an empty queue reads
`front()` of the empty queue. -/
theorem end_request_method_active_nil (verdict : tlm_sync_enum) (s : Sim)
    (ha : s.target.end_request_QActive = true) (hq : s.target.m_end_request_queue = []) :
    end_request_method verdict s = Result.undefined := by
  unfold end_request_method
  rw [if_pos ha]
  split
  · rfl
  · rename_i h
    rw [hq] at h
    cases h

/-- Every firing of the end-request activity: an undefined access, a stop in
`REPORT_FATAL` with nothing armed, or a return, idle with nothing armed on an
empty queue and active with the accept delay armed otherwise. -/
theorem end_request_method_outcome (verdict : tlm_sync_enum) (s : Sim) :
    end_request_method verdict s = Result.undefined ∨
    (∃ s', end_request_method verdict s = Result.fatal s' ∧
      armed .m_end_request_event s'.log = armed .m_end_request_event s.log) ∨
    (∃ s', end_request_method verdict s = Result.ret () s' ∧
      ((s'.target.m_end_request_queue = [] ∧ s'.target.end_request_QActive = false ∧
          armed .m_end_request_event s'.log = armed .m_end_request_event s.log) ∨
       (s'.target.m_end_request_queue ≠ [] ∧ s'.target.end_request_QActive = true ∧
          armed .m_end_request_event s'.log
            = armed .m_end_request_event s.log ++ [s.target.m_accept_delay]))) := by
  by_cases ha : s.target.end_request_QActive = true
  · cases hq : s.target.m_end_request_queue with
    | nil => exact Or.inl (end_request_method_active_nil verdict s ha hq)
    | cons t rest =>
      right
      cases hr : end_request_method verdict s with
      | undefined =>
        rw [end_request_method_active verdict s t rest ha hq] at hr
        cases verdict
        · by_cases hn : rest = []
          · rw [end_request_rearm_nil _ (by simp [hn])] at hr
            cases hr
          · rw [end_request_rearm_cons _ (by simp [hn])] at hr
            cases hr
        · cases hr
        · cases hr
      | fatal s' =>
        left
        refine ⟨s', rfl, ?_⟩
        rw [end_request_method_active verdict s t rest ha hq] at hr
        cases verdict
        · by_cases hn : rest = []
          · rw [end_request_rearm_nil _ (by simp [hn])] at hr
            cases hr
          · rw [end_request_rearm_cons _ (by simp [hn])] at hr
            cases hr
        · cases hr
          simp
        · cases hr
          simp
      | ret u s' =>
        right
        obtain ⟨-, h1, -, -, h2, h3⟩ := end_request_method_fire verdict s s' t rest ha hq hr
        refine ⟨s', rfl, ?_⟩
        by_cases hn : rest = []
        · exact Or.inl ⟨h1.trans hn, (h2 hn).1, (h2 hn).2⟩
        · exact Or.inr ⟨by rw [h1]; exact hn, (h3 hn).1, (h3 hn).2⟩
  · have ha' : s.target.end_request_QActive = false := by simpa using ha
    obtain ⟨s', h, hq, -, h2, h3⟩ := end_request_method_idle_spec verdict s ha'
    right; right
    refine ⟨s', h, ?_⟩
    by_cases hn : s.target.m_end_request_queue = []
    · exact Or.inl ⟨hq.trans hn, (h2 hn).1, (h2 hn).2⟩
    · exact Or.inr ⟨by rw [hq]; exact hn, (h3 hn).1, (h3 hn).2⟩

/-- Two successive firings of the end-request activity, the first of which
leaves a transaction queued, are one accept delay apart, and the second sends
`END_REQ` for that transaction. -/
theorem successive_END_REQ (c c1 c2 c3 : Timed) (v v' : tlm_sync_enum) (t1 t2 : Ptr)
    (rest : List Ptr) (ha : c.sim.target.end_request_QActive = true)
    (hq : c.sim.target.m_end_request_queue = t1 :: t2 :: rest)
    (hf : Fire v c c1) (hrun : Relation.ReflTransGen Quiet c1 c2) (hf' : Fire v' c2 c3) :
    sent .END_REQ c1.sim.log = sent .END_REQ c.sim.log ++ [t1] ∧
    sent .END_REQ c2.sim.log = sent .END_REQ c1.sim.log ∧
    sent .END_REQ c3.sim.log = sent .END_REQ c2.sim.log ++ [t2] ∧
    c1.now = c.now ∧ c3.now = c1.now + c.sim.target.m_accept_delay := by
  obtain ⟨-, s1, hs1, rfl⟩ := hf
  obtain ⟨-, hq1, hd1, hsent1, -, hne1⟩ :=
    end_request_method_fire v c.sim s1 t1 (t2 :: rest) ha hq hs1
  obtain ⟨ha1, harm1⟩ := hne1 (by simp)
  have hw1 : Waiting c.now c.sim.target.m_accept_delay t2 (sent .END_REQ c.sim.log ++ [t1])
      { now := c.now
        wake := schedule .m_end_request_event c.now none c.sim.log s1.log
        sim := s1 } :=
    ⟨schedule_one _ _ _ _ _ harm1, Nat.le_add_right _ _, ⟨rest, hq1⟩, ha1, hd1, hsent1⟩
  obtain ⟨hw2, -, ⟨more, hq2⟩, ha2, -, hsent2⟩ := Quiet_star_waiting _ _ _ _ _ _ hrun hw1
  obtain ⟨hnow, s3, hs3, rfl⟩ := hf'
  obtain ⟨-, -, -, hsent3, -, -⟩ := end_request_method_fire v' c2.sim s3 t2 more ha2 hq2 hs3
  rw [hw2] at hnow
  refine ⟨hsent1, hsent2.trans hsent1.symm, hsent3, rfl, ?_⟩
  exact (Option.some.inj hnow).symm

/-- C10: after every firing of the end-request activity that returns, the
activity is idle and has armed nothing exactly when the end-request queue is
empty, and otherwise it is active and has armed its event with delay exactly
`m_accept_delay` (a firing that does not return has armed nothing).
Consequently, with a notification of delay `d` at time `T` waking the activity
at `T + d`: when a firing sends `END_REQ` for `t1` while `t2` is queued behind
it, then whatever inbound calls, begin-response firings and lapses of time
follow, no `END_REQ` is sent before the next firing of the activity, that
firing sends `END_REQ` for `t2`, and it takes place exactly one accept delay
after the first. -/
theorem admission_throttling :
    (∀ (verdict : tlm_sync_enum) (s : Sim),
      end_request_method verdict s = Result.undefined ∨
      (∃ s', end_request_method verdict s = Result.fatal s' ∧
        armed .m_end_request_event s'.log = armed .m_end_request_event s.log) ∨
      (∃ s', end_request_method verdict s = Result.ret () s' ∧
        ((s'.target.m_end_request_queue = [] ∧ s'.target.end_request_QActive = false ∧
            armed .m_end_request_event s'.log = armed .m_end_request_event s.log) ∨
         (s'.target.m_end_request_queue ≠ [] ∧ s'.target.end_request_QActive = true ∧
            armed .m_end_request_event s'.log
              = armed .m_end_request_event s.log ++ [s.target.m_accept_delay])))) ∧
    (∀ (c c1 c2 c3 : Timed) (v v' : tlm_sync_enum) (t1 t2 : Ptr) (rest : List Ptr),
      c.sim.target.end_request_QActive = true →
      c.sim.target.m_end_request_queue = t1 :: t2 :: rest →
      Fire v c c1 → Relation.ReflTransGen Quiet c1 c2 → Fire v' c2 c3 →
      sent .END_REQ c1.sim.log = sent .END_REQ c.sim.log ++ [t1] ∧
      sent .END_REQ c2.sim.log = sent .END_REQ c1.sim.log ∧
      sent .END_REQ c3.sim.log = sent .END_REQ c2.sim.log ++ [t2] ∧
      c1.now = c.now ∧ c3.now = c1.now + c.sim.target.m_accept_delay) :=
  ⟨end_request_method_outcome, successive_END_REQ⟩

/-- C10 at a concrete run: the activity fires at time 10 with transactions 1 and
2 queued, time advances to 20, the activity fires again: `END_REQ` is sent for
1 at time 10 and for 2 at time 20, the accept delay being 10. -/
theorem admission_throttling_witness :
    c10_start.sim.target.m_accept_delay = 10 ∧
    Fire .TLM_ACCEPTED c10_start c10_fired ∧
    Relation.ReflTransGen Quiet c10_fired c10_later ∧
    Fire .TLM_ACCEPTED c10_later c10_fired_again ∧
    sent .END_REQ c10_fired.sim.log = [1] ∧
    sent .END_REQ c10_fired_again.sim.log = [1, 2] ∧
    c10_fired.now = 10 ∧ c10_fired_again.now = 20 := by
  have hf1 : Fire .TLM_ACCEPTED c10_start c10_fired := ⟨rfl, c10_fired.sim, rfl, rfl⟩
  have hq : Relation.ReflTransGen Quiet c10_fired c10_later :=
    Relation.ReflTransGen.single
      (Quiet.advance c10_fired 20 (by decide) (fun w hw => by
        have : w = 20 := (Option.some.inj hw).symm
        omega))
  have hf2 : Fire .TLM_ACCEPTED c10_later c10_fired_again := ⟨rfl, c10_fired_again.sim, rfl, rfl⟩
  obtain ⟨h1, h2, h3, h4, h5⟩ :=
    admission_throttling.2 c10_start c10_fired c10_later c10_fired_again .TLM_ACCEPTED
      .TLM_ACCEPTED 1 2 [] rfl rfl hf1 hq hf2
  have e0 : sent .END_REQ c10_start.sim.log = [] := rfl
  rw [e0] at h1
  rw [h2, h1] at h3
  exact ⟨rfl, hf1, hq, hf2, h1, h3, h4, h5⟩

/-! ### Response status predicates and the default constructor (C16, C17) -/

/-- C16: for every response status, `is_response_ok()` is true exactly when the
status, as an integer, is greater than 0, which is exactly when it is
`TLM_OK_RESPONSE`; `is_response_error()` is its negation; `TLM_INCOMPLETE_RESPONSE`
is 0 and the five error statuses are negative, so all six report not-ok. -/
theorem is_response_ok_iff (p : tlm_generic_payload) :
    (p.is_response_ok = true ↔ p.m_response_status.toInt > 0) ∧
    (p.is_response_ok = true ↔ p.m_response_status = .TLM_OK_RESPONSE) ∧
    p.is_response_error = !p.is_response_ok ∧
    tlm_response_status.toInt .TLM_INCOMPLETE_RESPONSE = 0 ∧
    (∀ st : tlm_response_status, st ≠ .TLM_OK_RESPONSE → st ≠ .TLM_INCOMPLETE_RESPONSE →
      st.toInt < 0) ∧
    (∀ st : tlm_response_status, st ≠ .TLM_OK_RESPONSE →
      ({ p with m_response_status := st } : tlm_generic_payload).is_response_ok = false ∧
      ({ p with m_response_status := st } : tlm_generic_payload).is_response_error = true) := by
  refine ⟨?_, ?_, ?_, rfl, ?_, ?_⟩
  · simp [tlm_generic_payload.is_response_ok]
  · cases h : p.m_response_status <;>
      simp [tlm_generic_payload.is_response_ok, h, tlm_response_status.toInt]
  · cases h : p.m_response_status <;>
      simp [tlm_generic_payload.is_response_ok, tlm_generic_payload.is_response_error, h,
        tlm_response_status.toInt]
  · intro st h1 h2
    cases st <;> simp_all [tlm_response_status.toInt]
  · intro st h1
    cases st <;>
      simp_all [tlm_generic_payload.is_response_ok, tlm_generic_payload.is_response_error,
        tlm_response_status.toInt]

/-- C17: a default-constructed transaction has response status
`TLM_INCOMPLETE_RESPONSE`, so `is_response_ok()` is false, command
`TLM_IGNORE_COMMAND`, address 0, a null data pointer with length 0, a null
byte-enable pointer with length 0, streaming width 0, DMI hint false, and a
slot table of the size of the registry at construction, every slot null. -/
theorem default_ctor_fields (max_num : Nat) :
    (tlm_generic_payload.default_ctor max_num).get_response_status = .TLM_INCOMPLETE_RESPONSE ∧
    (tlm_generic_payload.default_ctor max_num).is_response_ok = false ∧
    (tlm_generic_payload.default_ctor max_num).get_command = .TLM_IGNORE_COMMAND ∧
    (tlm_generic_payload.default_ctor max_num).get_address = 0 ∧
    (tlm_generic_payload.default_ctor max_num).get_data_ptr = 0 ∧
    (tlm_generic_payload.default_ctor max_num).get_data_length = 0 ∧
    (tlm_generic_payload.default_ctor max_num).get_byte_enable_ptr = 0 ∧
    (tlm_generic_payload.default_ctor max_num).get_byte_enable_length = 0 ∧
    (tlm_generic_payload.default_ctor max_num).get_streaming_width = 0 ∧
    (tlm_generic_payload.default_ctor max_num).get_dmi_allowed = false ∧
    (tlm_generic_payload.default_ctor max_num).m_extensions.length = max_num ∧
    (∀ i, i < max_num →
      (tlm_generic_payload.default_ctor max_num).get_extension i = some 0) := by
  refine ⟨rfl, rfl, rfl, rfl, rfl, rfl, rfl, rfl, rfl, rfl, ?_, ?_⟩
  · simp [tlm_generic_payload.default_ctor, tlm_array_new, max_num_extensions]
  · intro i hi
    simp [tlm_generic_payload.default_ctor, tlm_generic_payload.get_extension, tlm_array_new,
      max_num_extensions, hi]

/-! ### The extension registry (C19) -/

/-- The counter after `k` registrations, in closed form. -/
theorem registered_eq (k max_num : Nat) (h : max_num < U32) :
    registered k max_num = (max_num + k) % U32 := by
  induction k with
  | zero => simp [registered, Nat.mod_eq_of_lt h]
  | succ k ih =>
    simp only [registered, register_extension, max_num_extensions, if_true, ih]
    rw [Nat.mod_add_mod]
    rfl

/-- The index a registration returns, in closed form. -/
theorem registered_index_eq (k max_num : Nat) (h : max_num < U32) :
    registered_index k max_num = ((max_num + k + 1) % U32 + U32 - 1) % U32 := by
  simp only [registered_index, register_extension, max_num_extensions, if_true,
    registered_eq k max_num h]
  rw [Nat.mod_add_mod]

/-- Below `2^32` registrations the call number `k + 1` returns `k` and leaves the
registry size `k + 1`. -/
theorem registered_small (k : Nat) (h : k + 1 < U32) :
    registered_index k 0 = k ∧ registered (k + 1) 0 = k + 1 := by
  have h0 : (0 : Nat) < U32 := by unfold U32; omega
  rw [registered_index_eq k 0 h0, registered_eq (k + 1) 0 h0]
  simp only [Nat.zero_add]
  rw [Nat.mod_eq_of_lt h]
  constructor
  · have : k + 1 + U32 - 1 = k + U32 := by omega
    rw [this, Nat.add_mod_right]
    exact Nat.mod_eq_of_lt (by omega)
  · trivial

/-- C19, as the claim states it for every `k`, fails: the counter is an
`unsigned int`, so call number `2^32` of `register_extension` leaves the
registry size 0, not `2^32`, and call number `2^32 + 1` returns index 0, the
index call number 1 returned. -/
theorem register_extension_wraps :
    registered (2 ^ 32) 0 = 0 ∧
    registered_index (2 ^ 32 - 1) 0 = 2 ^ 32 - 1 ∧
    registered_index (2 ^ 32) 0 = 0 ∧
    registered_index 0 0 = 0 := by
  have h0 : (0 : Nat) < U32 := by unfold U32; omega
  refine ⟨?_, ?_, ?_, ?_⟩
  · rw [registered_eq _ 0 h0]
    decide
  · rw [registered_index_eq _ 0 h0]
    decide
  · rw [registered_index_eq _ 0 h0]
    decide
  · rw [registered_index_eq _ 0 h0]
    decide

/-- C19, amended: starting from the empty registry, for every `k` from 1 to
`2^32 - 1` the `k`-th call of `register_extension` returns index `k - 1` and
leaves the registry size `k` (stated for call number `k + 1`); hence two such
registrations never receive the same index, the index assigned is below the
registry size, and `max_num_extensions(false)` returns the size and leaves it
as it is. -/
theorem register_extension_unique (k : Nat) (h : k + 1 < U32) :
    registered_index k 0 = k ∧
    registered (k + 1) 0 = k + 1 ∧
    (∀ j, j < k → registered_index j 0 ≠ registered_index k 0) ∧
    registered_index k 0 < registered (k + 1) 0 ∧
    (∀ max_num, max_num_extensions false max_num = (max_num, max_num)) := by
  obtain ⟨h1, h2⟩ := registered_small k h
  refine ⟨h1, h2, ?_, ?_, fun _ => rfl⟩
  · intro j hj
    rw [h1, (registered_small j (by omega)).1]
    omega
  · rw [h1, h2]
    omega

/-- C19, amended, at the fourth registration: it returns index 3 and leaves the
registry size 4. -/
theorem register_extension_unique_witness :
    registered_index 3 0 = 3 ∧ registered 4 0 = 4 := by
  have h := register_extension_unique 3 (by unfold U32; omega)
  exact ⟨h.1, h.2.1⟩

/-! ### The slot table (C18, C20) -/

/-- The length of an expanded slot table. -/
theorem tlm_array_expand_length (a : List Ptr) (n : Nat) :
    (tlm_array_expand a n).length = max a.length n := by
  unfold tlm_array_expand
  by_cases h : a.length < n
  · rw [if_pos h]
    simp
    omega
  · rw [if_neg h]
    omega

/-- The slots of an expanded slot table: what the table held, and null in the
new slots. -/
theorem tlm_array_expand_getElem? (a : List Ptr) (n j : Nat) :
    (tlm_array_expand a n)[j]? =
      if j < a.length then a[j]? else if j < n then some 0 else none := by
  unfold tlm_array_expand
  by_cases h : a.length < n
  · rw [if_pos h]
    by_cases hj : j < a.length
    · rw [if_pos hj, List.getElem?_append_left hj]
    · rw [if_neg hj, List.getElem?_append_right (by omega)]
      rw [List.getElem?_replicate]
      by_cases hn : j < n
      · rw [if_pos hn, if_pos (by omega)]
      · rw [if_neg hn, if_neg (by omega)]
  · rw [if_neg h]
    by_cases hj : j < a.length
    · rw [if_pos hj]
    · rw [if_neg hj, if_neg (by omega)]
      exact List.getElem?_eq_none (by omega)

/-- `max_num_extensions(false)` returns the counter. -/
theorem max_num_extensions_false (max_num : Nat) :
    (max_num_extensions false max_num).1 = max_num := rfl

/-- The slot table after `resize_extensions()`. -/
theorem resize_extensions_slots (max_num : Nat) (p : tlm_generic_payload) :
    (tlm_generic_payload.resize_extensions max_num p).m_extensions
      = tlm_array_expand p.m_extensions max_num := rfl

/-- `set_extension(index, ext)` on a registered index, member by member. -/
theorem set_extension_spec (max_num index ext : Nat) (p : tlm_generic_payload)
    (hi : index < max_num) :
    tlm_generic_payload.set_extension max_num index ext p =
      some ((p.m_extensions[index]?).getD 0,
        { tlm_generic_payload.resize_extensions max_num p with
          m_extensions :=
            (tlm_generic_payload.resize_extensions max_num p).m_extensions.set index ext }) := by
  unfold tlm_generic_payload.set_extension
  have h : (tlm_generic_payload.resize_extensions max_num p).m_extensions[index]?
      = some ((p.m_extensions[index]?).getD 0) := by
    rw [resize_extensions_slots, tlm_array_expand_getElem?]
    by_cases hj : index < p.m_extensions.length
    · rw [if_pos hj, List.getElem?_eq_getElem hj]
      rfl
    · rw [if_neg hj, if_pos hi, List.getElem?_eq_none (by omega)]
      rfl
  simp only [h]

/-- The typed `clear_extension` on a registered index, member by member. -/
theorem clear_extension_T_spec (max_num ID : Nat) (p : tlm_generic_payload)
    (hi : ID < max_num) :
    tlm_generic_payload.clear_extension_T max_num ID p =
      some { tlm_generic_payload.resize_extensions max_num p with
        m_extensions :=
          (tlm_generic_payload.resize_extensions max_num p).m_extensions.set ID 0 } := by
  unfold tlm_generic_payload.clear_extension_T
  have h : ID < (tlm_generic_payload.resize_extensions max_num p).m_extensions.length := by
    rw [resize_extensions_slots, tlm_array_expand_length]
    omega
  simp only [h, if_true]

/-- C18, as the claim states it for every transaction, fails: a transaction
constructed while the registry was empty has no slot; once a first extension
type is registered, with index 0, `clear_extension(0)` leaves the slot table
empty and `get_extension(0)` indexes beyond its end. -/
theorem clear_then_get_beyond_table :
    registered 0 0 = 0 ∧ registered_index 0 0 = 0 ∧ registered 1 0 = 1 ∧
    (tlm_generic_payload.clear_extension 0
      (tlm_generic_payload.default_ctor (registered 0 0))).m_extensions = [] ∧
    tlm_generic_payload.get_extension 0
      (tlm_generic_payload.clear_extension 0
        (tlm_generic_payload.default_ctor (registered 0 0))) = none := by
  decide

/-- C18, amended: for every transaction, every registered index `i` (below the
registry size) and every extension `e`, `set_extension(i, e)` (by index or by
type) returns the value slot `i` held, null when the table had no such slot,
and afterwards `get_extension(i)` returns `e`, while every other slot the table
had is unchanged and every other new slot is null; after the typed
`clear_extension` for index `i`, or after `clear_extension(i)` on a transaction
whose slot table holds slot `i`, `get_extension(i)` returns null and every other
slot is unchanged. -/
theorem extension_slot_round_trip (max_num i e : Nat) (p : tlm_generic_payload)
    (hi : i < max_num) :
    (∃ p', tlm_generic_payload.set_extension max_num i e p
        = some ((p.m_extensions[i]?).getD 0, p') ∧
      tlm_generic_payload.set_extension_T max_num i e p
        = some ((p.m_extensions[i]?).getD 0, p') ∧
      (i < p.m_extensions.length →
        tlm_generic_payload.get_extension i p = some ((p.m_extensions[i]?).getD 0)) ∧
      tlm_generic_payload.get_extension i p' = some e ∧
      tlm_generic_payload.get_extension_T i p' = some e ∧
      (∀ j, j ≠ i → j < p.m_extensions.length →
        tlm_generic_payload.get_extension j p' = tlm_generic_payload.get_extension j p) ∧
      (∀ j, j ≠ i → p.m_extensions.length ≤ j → j < max_num →
        tlm_generic_payload.get_extension j p' = some 0)) ∧
    (∃ p', tlm_generic_payload.clear_extension_T max_num i p = some p' ∧
      tlm_generic_payload.get_extension i p' = some 0 ∧
      (∀ j, j ≠ i → j < p.m_extensions.length →
        tlm_generic_payload.get_extension j p' = tlm_generic_payload.get_extension j p) ∧
      (∀ j, j ≠ i → p.m_extensions.length ≤ j → j < max_num →
        tlm_generic_payload.get_extension j p' = some 0)) ∧
    (i < p.m_extensions.length →
      tlm_generic_payload.get_extension i (tlm_generic_payload.clear_extension i p) = some 0 ∧
      (∀ j, j ≠ i →
        tlm_generic_payload.get_extension j (tlm_generic_payload.clear_extension i p)
          = tlm_generic_payload.get_extension j p)) := by
  have hlen : i < (tlm_array_expand p.m_extensions max_num).length := by
    rw [tlm_array_expand_length]
    omega
  refine ⟨⟨_, set_extension_spec max_num i e p hi, set_extension_spec max_num i e p hi,
    ?_, ?_, ?_, ?_, ?_⟩, ⟨_, clear_extension_T_spec max_num i p hi, ?_, ?_, ?_⟩, ?_⟩
  · intro h
    simp [tlm_generic_payload.get_extension, List.getElem?_eq_getElem h]
  · simp only [tlm_generic_payload.get_extension, resize_extensions_slots]
    rw [List.getElem?_set_self hlen]
  · simp only [tlm_generic_payload.get_extension_T, resize_extensions_slots]
    rw [List.getElem?_set_self hlen]
  · intro j hj hjl
    simp only [tlm_generic_payload.get_extension, resize_extensions_slots]
    rw [List.getElem?_set_ne (Ne.symm hj), tlm_array_expand_getElem?, if_pos hjl]
  · intro j hj hjl hjm
    simp only [tlm_generic_payload.get_extension, resize_extensions_slots]
    rw [List.getElem?_set_ne (Ne.symm hj), tlm_array_expand_getElem?, if_neg (by omega),
      if_pos hjm]
  · simp only [tlm_generic_payload.get_extension, resize_extensions_slots]
    rw [List.getElem?_set_self hlen]
  · intro j hj hjl
    simp only [tlm_generic_payload.get_extension, resize_extensions_slots]
    rw [List.getElem?_set_ne (Ne.symm hj), tlm_array_expand_getElem?, if_pos hjl]
  · intro j hj hjl hjm
    simp only [tlm_generic_payload.get_extension, resize_extensions_slots]
    rw [List.getElem?_set_ne (Ne.symm hj), tlm_array_expand_getElem?, if_neg (by omega),
      if_pos hjm]
  · intro h
    simp only [tlm_generic_payload.clear_extension, if_pos h, tlm_generic_payload.get_extension]
    refine ⟨List.getElem?_set_self h, fun j hj => ?_⟩
    rw [List.getElem?_set_ne (Ne.symm hj)]

/-- C18, amended, at a transaction built at registry size 2: `set_extension(1,
77)` returns the null the slot held, and `get_extension(1)` then returns 77. -/
theorem extension_slot_round_trip_witness :
    1 < 2 ∧
    ∃ p', tlm_generic_payload.set_extension 2 1 77 (tlm_generic_payload.default_ctor 2)
        = some (0, p') ∧
      tlm_generic_payload.get_extension 1 p' = some 77 := by
  obtain ⟨⟨p', h1, -, -, h4, -, -, -⟩, -, -⟩ :=
    extension_slot_round_trip 2 1 77 (tlm_generic_payload.default_ctor 2) (by decide)
  exact ⟨by decide, p', h1, h4⟩

/-- The slot-copying loop leaves the length of the table it writes. -/
theorem copy_slots_length (xs : List Ptr) :
    ∀ (n i : Nat) (dst r : List Ptr),
      tlm_generic_payload.copy_slots xs n i dst = some r → r.length = dst.length := by
  intro n
  induction n with
  | zero =>
    intro i dst r h
    simp only [tlm_generic_payload.copy_slots] at h
    cases h
    rfl
  | succ n ih =>
    intro i dst r h
    unfold tlm_generic_payload.copy_slots at h
    split at h
    · cases h
    · rw [ih _ _ _ h, List.length_set]

/-- C20: no operation on a transaction makes its slot table smaller.
`resize_extensions` leaves it at least as long as it was and as the registry,
and keeps every slot it had; `set_extension` (by index or by type) and the
typed `clear_extension`, when defined, leave it at least as long as it was and
as the registry; `clear_extension(index)` and the assignment operator, when
defined, leave its length; the field setters leave the table as it is
(`get_extension` is a `const` member: it returns a value and changes
nothing). -/
theorem slot_table_never_shrinks (max_num : Nat) (p : tlm_generic_payload) :
    (p.m_extensions.length ≤ (tlm_generic_payload.resize_extensions max_num p).m_extensions.length ∧
      max_num ≤ (tlm_generic_payload.resize_extensions max_num p).m_extensions.length ∧
      ∀ j, j < p.m_extensions.length →
        (tlm_generic_payload.resize_extensions max_num p).get_extension j
          = p.get_extension j) ∧
    (∀ index ext r, tlm_generic_payload.set_extension max_num index ext p = some r →
      p.m_extensions.length ≤ r.2.m_extensions.length ∧ max_num ≤ r.2.m_extensions.length) ∧
    (∀ ID ext r, tlm_generic_payload.set_extension_T max_num ID ext p = some r →
      p.m_extensions.length ≤ r.2.m_extensions.length ∧ max_num ≤ r.2.m_extensions.length) ∧
    (∀ ID r, tlm_generic_payload.clear_extension_T max_num ID p = some r →
      p.m_extensions.length ≤ r.m_extensions.length ∧ max_num ≤ r.m_extensions.length) ∧
    (∀ index, (tlm_generic_payload.clear_extension index p).m_extensions.length
      = p.m_extensions.length) ∧
    (∀ x r, tlm_generic_payload.assign p x = some r →
      r.m_extensions.length = p.m_extensions.length) ∧
    (p.set_read.m_extensions = p.m_extensions ∧ p.set_write.m_extensions = p.m_extensions ∧
      (∀ v, (p.set_command v).m_extensions = p.m_extensions) ∧
      (∀ v, (p.set_address v).m_extensions = p.m_extensions) ∧
      (∀ v, (p.set_data_ptr v).m_extensions = p.m_extensions) ∧
      (∀ v, (p.set_data_length v).m_extensions = p.m_extensions) ∧
      (∀ v, (p.set_response_status v).m_extensions = p.m_extensions) ∧
      (∀ v, (p.set_streaming_width v).m_extensions = p.m_extensions) ∧
      (∀ v, (p.set_byte_enable_ptr v).m_extensions = p.m_extensions) ∧
      (∀ v, (p.set_byte_enable_length v).m_extensions = p.m_extensions) ∧
      (∀ v, (p.set_dmi_allowed v).m_extensions = p.m_extensions)) := by
  have hr : (tlm_generic_payload.resize_extensions max_num p).m_extensions.length
      = max p.m_extensions.length max_num := by
    rw [resize_extensions_slots, tlm_array_expand_length]
  refine ⟨⟨by omega, by omega, fun j hj => ?_⟩, ?_, ?_, ?_, ?_, ?_,
    ⟨rfl, rfl, fun _ => rfl, fun _ => rfl, fun _ => rfl, fun _ => rfl, fun _ => rfl,
      fun _ => rfl, fun _ => rfl, fun _ => rfl, fun _ => rfl⟩⟩
  · simp only [tlm_generic_payload.get_extension, resize_extensions_slots]
    rw [tlm_array_expand_getElem?, if_pos hj]
  · intro index ext r h
    unfold tlm_generic_payload.set_extension at h
    dsimp only at h
    split at h
    · cases h
    · cases h
      simp only [List.length_set]
      omega
  · intro ID ext r h
    unfold tlm_generic_payload.set_extension_T at h
    dsimp only at h
    split at h
    · cases h
    · cases h
      simp only [List.length_set]
      omega
  · intro ID r h
    unfold tlm_generic_payload.clear_extension_T at h
    dsimp only at h
    split at h
    · cases h
      simp only [List.length_set]
      omega
    · cases h
  · intro index
    unfold tlm_generic_payload.clear_extension
    split
    · simp only [List.length_set]
    · rfl
  · intro x r h
    unfold tlm_generic_payload.assign at h
    split at h
    · cases h
    · rename_i slots hs
      cases h
      exact copy_slots_length _ _ _ _ _ hs

/-! ### `deep_copy` (C15) -/

/-- The slot-copying loop, when the table read has the slots indexed: it
returns, and slot `j` of the table written is taken from the table read for
`i ≤ j < i + n` and is unchanged elsewhere. -/
theorem copy_slots_spec (xs : List Ptr) :
    ∀ (n i : Nat) (dst : List Ptr), i + n ≤ xs.length →
      ∃ r, tlm_generic_payload.copy_slots xs n i dst = some r ∧ r.length = dst.length ∧
        ∀ j, r[j]? = if i ≤ j ∧ j < i + n ∧ j < dst.length then xs[j]? else dst[j]? := by
  intro n
  induction n with
  | zero =>
    intro i dst _
    refine ⟨dst, rfl, rfl, fun j => ?_⟩
    rw [if_neg (by omega)]
  | succ n ih =>
    intro i dst hx
    unfold tlm_generic_payload.copy_slots
    have hi : i < xs.length := by omega
    rw [List.getElem?_eq_getElem hi]
    dsimp only
    obtain ⟨r, h1, h2, h3⟩ := ih (i + 1) (dst.set i xs[i]) (by omega)
    refine ⟨r, h1, by rw [h2, List.length_set], fun j => ?_⟩
    rw [h3 j, List.length_set]
    by_cases hj : i + 1 ≤ j ∧ j < i + 1 + n ∧ j < dst.length
    · rw [if_pos hj, if_pos (by omega)]
    · rw [if_neg hj]
      by_cases hji : j = i
      · subst hji
        by_cases hd : j < dst.length
        · rw [if_pos (by omega), List.getElem?_set_self hd, List.getElem?_eq_getElem hi]
        · rw [if_neg (by omega), List.getElem?_eq_none (by rw [List.length_set]; omega),
            List.getElem?_eq_none (by omega)]
      · rw [if_neg (by omega), List.getElem?_set_ne (by omega)]

/-- The copy constructor on a payload whose slot table has the registry's size
copies every member, the slot table included. -/
theorem copy_ctor_spec (max_num : Nat) (x : tlm_generic_payload)
    (hx : x.m_extensions.length = max_num) :
    tlm_generic_payload.copy_ctor max_num x = some x := by
  unfold tlm_generic_payload.copy_ctor
  obtain ⟨r, h1, h2, h3⟩ := copy_slots_spec x.m_extensions max_num 0 (tlm_array_new max_num)
    (by omega)
  have hl : (tlm_array_new max_num).length = max_num := by simp [tlm_array_new]
  have hr : r = x.m_extensions := by
    apply List.ext_getElem?
    intro j
    rw [h3 j, hl]
    by_cases hj : j < max_num
    · rw [if_pos (by omega)]
    · rw [if_neg (by omega), List.getElem?_eq_none (by omega),
        List.getElem?_eq_none (by omega)]
  simp only [max_num_extensions_false, hl, h1, hr]
  rfl

/-- The byte-copying loop, when both buffers hold `n` bytes: it returns, and byte
`j` of the buffer written is taken from the buffer read for `i ≤ j < i + n`
and is unchanged elsewhere. -/
theorem copy_bytes_spec (src : List Nat) :
    ∀ (n i : Nat) (dst : List Nat), i + n ≤ src.length → i + n ≤ dst.length →
      ∃ r, copy_bytes src n i dst = some r ∧ r.length = dst.length ∧
        ∀ j, r[j]? = if i ≤ j ∧ j < i + n then src[j]? else dst[j]? := by
  intro n
  induction n with
  | zero =>
    intro i dst _ _
    refine ⟨dst, rfl, rfl, fun j => ?_⟩
    rw [if_neg (by omega)]
  | succ n ih =>
    intro i dst hs hd
    unfold copy_bytes
    have hi : i < src.length := by omega
    rw [List.getElem?_eq_getElem hi]
    dsimp only
    rw [if_pos (by omega)]
    obtain ⟨r, h1, h2, h3⟩ := ih (i + 1) (dst.set i src[i]) (by omega)
      (by rw [List.length_set]; omega)
    refine ⟨r, h1, by rw [h2, List.length_set], fun j => ?_⟩
    rw [h3 j]
    by_cases hj : i + 1 ≤ j ∧ j < i + 1 + n
    · rw [if_pos hj, if_pos (by omega)]
    · rw [if_neg hj]
      by_cases hji : j = i
      · subst hji
        rw [if_pos (by omega), List.getElem?_set_self (by omega), List.getElem?_eq_getElem hi]
      · rw [if_neg (by omega), List.getElem?_set_ne (by omega)]

/-- Copying `n` bytes into a new array of `n` bytes gives the first `n` bytes of
the buffer read. -/
theorem copy_bytes_new (src : List Nat) (n : Nat) (h : n ≤ src.length) :
    copy_bytes src n 0 (List.replicate n 0) = some (src.take n) := by
  obtain ⟨r, h1, h2, h3⟩ := copy_bytes_spec src n 0 (List.replicate n 0) (by omega)
    (by simp)
  rw [h1]
  congr 1
  apply List.ext_getElem?
  intro j
  rw [h3 j, List.getElem?_take]
  by_cases hj : j < n
  · rw [if_pos (by omega), if_pos hj]
  · rw [if_neg (by omega), if_neg hj]
    exact List.getElem?_eq_none (by simp; omega)

/-- `resize_extensions()` leaves a payload whose slot table already has the
registry's size as it is. -/
theorem resize_extensions_full (max_num : Nat) (p : tlm_generic_payload)
    (h : max_num ≤ p.m_extensions.length) :
    tlm_generic_payload.resize_extensions max_num p = p := by
  unfold tlm_generic_payload.resize_extensions tlm_array_expand
  rw [max_num_extensions_false, if_neg (by omega)]

/-- The cloning loop of `deep_copy`, on a copy whose slot table has the registry's
size: it returns a payload that differs from the copy in its slot table only,
where slot `j`, for `i ≤ j < i + n`, holds the clone of what the table read holds
when that is not null, and every other slot is as it was. -/
theorem clone_slots_spec (max_num : Nat) (clone : Ptr → Ptr) (xs : List Ptr)
    (hxs : xs.length ≤ max_num) :
    ∀ (n i : Nat) (tmp : tlm_generic_payload), i + n ≤ xs.length →
      tmp.m_extensions.length = max_num →
      ∃ v, clone_slots max_num clone xs n i tmp = some v ∧
        v.m_extensions.length = max_num ∧
        v = { tmp with m_extensions := v.m_extensions } ∧
        ∀ j, v.m_extensions[j]? =
          if i ≤ j ∧ j < i + n ∧ xs[j]? ≠ some 0 then (xs[j]?).map clone
          else tmp.m_extensions[j]? := by
  intro n
  induction n with
  | zero =>
    intro i tmp _ ht
    refine ⟨tmp, rfl, ht, rfl, fun j => ?_⟩
    rw [if_neg (by omega)]
  | succ n ih =>
    intro i tmp hx ht
    unfold clone_slots
    have hi : i < xs.length := by omega
    rw [List.getElem?_eq_getElem hi]
    dsimp only
    by_cases he : xs[i] ≠ 0
    · rw [if_pos he, set_extension_spec max_num i (clone xs[i]) tmp (by omega),
        resize_extensions_full max_num tmp (by omega)]
      dsimp only
      obtain ⟨v, h1, h2, h3, h4⟩ := ih (i + 1)
        { tmp with m_extensions := tmp.m_extensions.set i (clone xs[i]) } (by omega)
        (by simp only [List.length_set]; exact ht)
      refine ⟨v, h1, h2, h3, fun j => ?_⟩
      · rw [h4 j]
        by_cases hj : i + 1 ≤ j ∧ j < i + 1 + n ∧ xs[j]? ≠ some 0
        · rw [if_pos hj, if_pos ⟨by omega, by omega, hj.2.2⟩]
        · rw [if_neg hj]
          by_cases hji : j = i
          · subst hji
            have hne : xs[j]? ≠ some 0 := by
              rw [List.getElem?_eq_getElem hi]
              intro h
              exact he (Option.some.inj h)
            rw [if_pos ⟨by omega, by omega, hne⟩]
            simp only [List.getElem?_set_self (show j < tmp.m_extensions.length by omega),
              List.getElem?_eq_getElem hi, Option.map_some']
          · have hn : ¬ (i ≤ j ∧ j < i + (n + 1) ∧ xs[j]? ≠ some 0) := by
              intro h
              exact hj ⟨by omega, by omega, h.2.2⟩
            rw [if_neg hn]
            simp only [List.getElem?_set_ne (show i ≠ j by omega)]
    · rw [if_neg he]
      obtain ⟨v, h1, h2, h3, h4⟩ := ih (i + 1) tmp (by omega) ht
      refine ⟨v, h1, h2, h3, fun j => ?_⟩
      rw [h4 j]
      have he' : xs[i] = 0 := by simpa using he
      by_cases hj : i + 1 ≤ j ∧ j < i + 1 + n ∧ xs[j]? ≠ some 0
      · rw [if_pos hj, if_pos ⟨by omega, by omega, hj.2.2⟩]
      · rw [if_neg hj]
        have hn : ¬ (i ≤ j ∧ j < i + (n + 1) ∧ xs[j]? ≠ some 0) := by
          intro h
          by_cases hji : j = i
          · subst hji
            apply h.2.2
            rw [List.getElem?_eq_getElem hi, he']
          · exact hj ⟨by omega, by omega, h.2.2⟩
        rw [if_neg hn]

/-- The step `deep copy data`: it returns; it changes no buffer allocated
before and no payload but the copy, of which it changes the data pointer only;
when the payload copied has a data pointer and a data length that are not
zero, the copy's data pointer is a new buffer that holds the first `m_length`
bytes of the buffer copied; otherwise the store is left as it is. -/
theorem deep_copy_data_spec (self : tlm_generic_payload) (tmp : Ptr) (h : Store)
    (hd : self.m_data < h.brk)
    (hlen : self.m_data ≠ 0 ∧ self.m_length ≠ 0 →
      self.m_length ≤ (h.bytes self.m_data).length) :
    ∃ h', deep_copy_data self tmp h = some h' ∧
      h.brk ≤ h'.brk ∧
      (∀ q, q < h.brk → h'.bytes q = h.bytes q) ∧
      (∀ q, q ≠ tmp → h'.payload q = h.payload q) ∧
      h'.payload tmp = { h.payload tmp with m_data := (h'.payload tmp).m_data } ∧
      (self.m_data ≠ 0 ∧ self.m_length ≠ 0 →
        (h'.payload tmp).m_data = h.brk ∧ h'.brk = h.brk + 1 ∧
        h'.bytes h.brk = (h.bytes self.m_data).take self.m_length) ∧
      (¬ (self.m_data ≠ 0 ∧ self.m_length ≠ 0) → h' = h) := by
  unfold deep_copy_data
  by_cases hc : self.m_data ≠ 0 ∧ self.m_length ≠ 0
  · rw [if_pos hc]
    have hne : self.m_data ≠ h.brk := Nat.ne_of_lt hd
    simp only [Store.new_bytes, Function.update_same, Function.update_noteq hne,
      copy_bytes_new _ _ (hlen hc), Function.update_idem]
    refine ⟨_, rfl, by simp, ?_, ?_, ?_, fun _ => ⟨?_, rfl, ?_⟩, fun hn => absurd hc hn⟩
    · intro q hq
      simp only [Function.update_noteq (Nat.ne_of_lt hq)]
    · intro q hq
      simp only [Function.update_noteq hq]
    · simp [tlm_generic_payload.set_data_ptr]
    · simp [tlm_generic_payload.set_data_ptr]
    · simp
  · rw [if_neg hc]
    exact ⟨h, rfl, Nat.le_refl _, fun _ _ => rfl, fun _ _ => rfl, rfl, fun hp => absurd hp hc,
      fun _ => rfl⟩

/-- The step `deep copy byte enables`: as the step before, for the byte-enable
pointer and length. -/
theorem deep_copy_byte_enable_spec (self : tlm_generic_payload) (tmp : Ptr) (h : Store)
    (hd : self.m_byte_enable < h.brk)
    (hlen : self.m_byte_enable ≠ 0 ∧ self.m_byte_enable_length ≠ 0 →
      self.m_byte_enable_length ≤ (h.bytes self.m_byte_enable).length) :
    ∃ h', deep_copy_byte_enable self tmp h = some h' ∧
      h.brk ≤ h'.brk ∧
      (∀ q, q < h.brk → h'.bytes q = h.bytes q) ∧
      (∀ q, q ≠ tmp → h'.payload q = h.payload q) ∧
      (self.m_byte_enable ≠ 0 ∧ self.m_byte_enable_length ≠ 0 →
        h'.payload tmp = { h.payload tmp with
          m_byte_enable := h.brk, m_byte_enable_length := self.m_byte_enable_length } ∧
        h'.brk = h.brk + 1 ∧
        h'.bytes h.brk = (h.bytes self.m_byte_enable).take self.m_byte_enable_length) ∧
      (¬ (self.m_byte_enable ≠ 0 ∧ self.m_byte_enable_length ≠ 0) → h' = h) := by
  unfold deep_copy_byte_enable
  by_cases hc : self.m_byte_enable ≠ 0 ∧ self.m_byte_enable_length ≠ 0
  · rw [if_pos hc]
    have hne : self.m_byte_enable ≠ h.brk := Nat.ne_of_lt hd
    simp only [Store.new_bytes, Function.update_same, Function.update_noteq hne,
      copy_bytes_new _ _ (hlen hc), Function.update_idem]
    refine ⟨_, rfl, by simp, ?_, ?_, fun _ => ⟨?_, rfl, ?_⟩, fun hn => absurd hc hn⟩
    · intro q hq
      simp only [Function.update_noteq (Nat.ne_of_lt hq)]
    · intro q hq
      simp only [Function.update_noteq hq]
    · simp [tlm_generic_payload.set_byte_enable_ptr,
        tlm_generic_payload.set_byte_enable_length]
    · simp
  · rw [if_neg hc]
    exact ⟨h, rfl, Nat.le_refl _, fun _ _ => rfl, fun _ _ => rfl, fun hp => absurd hp hc,
      fun _ => rfl⟩

/-- The members of a payload that differs from `c` in its slot table only. -/
theorem payload_eq_but_slots (v c : tlm_generic_payload) (xs : List Ptr)
    (h : v = { c with m_extensions := xs }) :
    v.m_command = c.m_command ∧ v.m_address = c.m_address ∧ v.m_data = c.m_data ∧
    v.m_length = c.m_length ∧ v.m_response_status = c.m_response_status ∧
    v.m_byte_enable = c.m_byte_enable ∧ v.m_byte_enable_length = c.m_byte_enable_length ∧
    v.m_streaming_width = c.m_streaming_width ∧ v.m_dmi = c.m_dmi := by
  subst h
  exact ⟨rfl, rfl, rfl, rfl, rfl, rfl, rfl, rfl, rfl⟩

/-- The members of a payload that differs from `c` in its data pointer only. -/
theorem payload_eq_but_data (v c : tlm_generic_payload) (d : Ptr)
    (h : v = { c with m_data := d }) :
    v.m_command = c.m_command ∧ v.m_address = c.m_address ∧
    v.m_length = c.m_length ∧ v.m_response_status = c.m_response_status ∧
    v.m_byte_enable = c.m_byte_enable ∧ v.m_byte_enable_length = c.m_byte_enable_length ∧
    v.m_streaming_width = c.m_streaming_width ∧ v.m_dmi = c.m_dmi ∧
    v.m_extensions = c.m_extensions := by
  subst h
  exact ⟨rfl, rfl, rfl, rfl, rfl, rfl, rfl, rfl, rfl⟩

/-- The members of a payload that differs from `c` in its byte-enable pointer and
length only. -/
theorem payload_eq_but_byte_enable (v c : tlm_generic_payload) (b : Ptr) (n : Nat)
    (h : v = { c with m_byte_enable := b, m_byte_enable_length := n }) :
    v.m_command = c.m_command ∧ v.m_address = c.m_address ∧ v.m_data = c.m_data ∧
    v.m_length = c.m_length ∧ v.m_response_status = c.m_response_status ∧
    v.m_byte_enable = b ∧ v.m_byte_enable_length = n ∧
    v.m_streaming_width = c.m_streaming_width ∧ v.m_dmi = c.m_dmi ∧
    v.m_extensions = c.m_extensions := by
  subst h
  exact ⟨rfl, rfl, rfl, rfl, rfl, rfl, rfl, rfl, rfl, rfl⟩

/-- `deep_copy` on a payload whose slot table has the registry's size, whose
buffers hold the bytes their lengths announce, in a store where the payload and
its buffers were allocated before: what the copy is, member by member. -/
theorem deep_copy_spec (max_num : Nat) (clone : Ptr → Ptr) (this : Ptr) (h : Store)
    (hx : (h.payload this).m_extensions.length = max_num)
    (hthis : this < h.brk)
    (hdp : (h.payload this).m_data < h.brk)
    (hbp : (h.payload this).m_byte_enable < h.brk)
    (hdl : (h.payload this).m_data ≠ 0 ∧ (h.payload this).m_length ≠ 0 →
      (h.payload this).m_length ≤ (h.bytes (h.payload this).m_data).length)
    (hbl : (h.payload this).m_byte_enable ≠ 0 ∧ (h.payload this).m_byte_enable_length ≠ 0 →
      (h.payload this).m_byte_enable_length
        ≤ (h.bytes (h.payload this).m_byte_enable).length) :
    ∃ h' : Store, deep_copy max_num clone this h = some (h.brk, h') ∧
      h'.payload this = h.payload this ∧
      (∀ q, q < h.brk → h'.bytes q = h.bytes q) ∧
      (h'.payload h.brk).m_command = (h.payload this).m_command ∧
      (h'.payload h.brk).m_address = (h.payload this).m_address ∧
      (h'.payload h.brk).m_length = (h.payload this).m_length ∧
      (h'.payload h.brk).m_response_status = (h.payload this).m_response_status ∧
      (h'.payload h.brk).m_byte_enable_length = (h.payload this).m_byte_enable_length ∧
      (h'.payload h.brk).m_streaming_width = (h.payload this).m_streaming_width ∧
      (h'.payload h.brk).m_dmi = (h.payload this).m_dmi ∧
      ((h.payload this).m_data ≠ 0 ∧ (h.payload this).m_length ≠ 0 →
        h.brk < (h'.payload h.brk).m_data ∧
        h'.bytes (h'.payload h.brk).m_data
          = (h.bytes (h.payload this).m_data).take (h.payload this).m_length) ∧
      (¬ ((h.payload this).m_data ≠ 0 ∧ (h.payload this).m_length ≠ 0) →
        (h'.payload h.brk).m_data = (h.payload this).m_data) ∧
      ((h.payload this).m_byte_enable ≠ 0 ∧ (h.payload this).m_byte_enable_length ≠ 0 →
        h.brk < (h'.payload h.brk).m_byte_enable ∧
        (h'.payload h.brk).m_byte_enable ≠ (h'.payload h.brk).m_data ∧
        h'.bytes (h'.payload h.brk).m_byte_enable
          = (h.bytes (h.payload this).m_byte_enable).take
              (h.payload this).m_byte_enable_length) ∧
      (¬ ((h.payload this).m_byte_enable ≠ 0 ∧ (h.payload this).m_byte_enable_length ≠ 0) →
        (h'.payload h.brk).m_byte_enable = (h.payload this).m_byte_enable) ∧
      (h'.payload h.brk).m_extensions.length = max_num ∧
      (∀ j : Nat, (h'.payload h.brk).m_extensions[j]? =
        if (h.payload this).m_extensions[j]? ≠ some 0
        then ((h.payload this).m_extensions[j]?).map clone
        else (h.payload this).m_extensions[j]?) := by
  unfold deep_copy
  simp only [copy_ctor_spec max_num _ hx, Store.new_payload]
  -- the store after `new tlm_generic_payload(*this)`
  generalize hh1 :
    Store.mk (Function.update h.payload h.brk (h.payload this)) h.bytes (h.brk + 1) = h1
  have h1p : h1.payload h.brk = h.payload this := by subst hh1; simp
  have h1q : ∀ q, q ≠ h.brk → h1.payload q = h.payload q := by
    subst hh1
    intro q hq
    simp [Function.update_noteq hq]
  have h1b : h1.bytes = h.bytes := by subst hh1; rfl
  have h1k : h1.brk = h.brk + 1 := by subst hh1; rfl
  -- deep copy data
  obtain ⟨h2, e2, k2, b2, q2, p2, c2, n2⟩ := deep_copy_data_spec (h.payload this) h.brk h1
    (by rw [h1k]; exact Nat.lt_succ_of_lt hdp) (by rw [h1b]; exact hdl)
  -- deep copy byte enables
  have hb2 : h2.bytes (h.payload this).m_byte_enable = h.bytes (h.payload this).m_byte_enable := by
    rw [b2 _ (by rw [h1k]; exact Nat.lt_succ_of_lt hbp), h1b]
  obtain ⟨h3, e3, k3, b3, q3, c3, n3⟩ := deep_copy_byte_enable_spec (h.payload this) h.brk h2
    (Nat.lt_of_lt_of_le (by rw [h1k]; exact Nat.lt_succ_of_lt hbp) k2)
    (by rw [hb2]; exact hbl)
  -- deep copy extensions
  have hext3 : (h3.payload h.brk).m_extensions = (h.payload this).m_extensions := by
    have e23 : (h3.payload h.brk).m_extensions = (h2.payload h.brk).m_extensions := by
      by_cases hc : (h.payload this).m_byte_enable ≠ 0 ∧
          (h.payload this).m_byte_enable_length ≠ 0
      · rw [(c3 hc).1]
      · rw [n3 hc]
    rw [e23, p2, h1p]
  obtain ⟨v, ev, lv, fv, sv⟩ := clone_slots_spec max_num clone (h.payload this).m_extensions
    (by omega) (h.payload this).m_extensions.length 0 (h3.payload h.brk) (by omega)
    (by rw [hext3]; exact hx)
  rw [e2]
  dsimp only
  rw [e3]
  dsimp only
  unfold deep_copy_extensions
  rw [ev]
  dsimp only
  refine ⟨_, rfl, ?_, ?_, ?_⟩
  · simp only [Function.update_noteq (Nat.ne_of_lt hthis)]
    rw [q3 _ (Nat.ne_of_lt hthis), q2 _ (Nat.ne_of_lt hthis), h1q _ (Nat.ne_of_lt hthis)]
  · intro q hq
    rw [b3 _ (Nat.lt_of_lt_of_le (by rw [h1k]; exact Nat.lt_succ_of_lt hq) k2),
      b2 _ (by rw [h1k]; exact Nat.lt_succ_of_lt hq), h1b]
  · simp only [Function.update_same]
    have hp2 := p2
    rw [h1p] at hp2
    -- the members of the copy, through the three steps
    obtain ⟨v_cmd, v_adr, v_dat, v_len, v_rsp, v_ben, v_bel, v_stw, v_dmi⟩ :=
      payload_eq_but_slots v _ _ fv
    obtain ⟨d_cmd, d_adr, d_len, d_rsp, d_ben, d_bel, d_stw, d_dmi, -⟩ :=
      payload_eq_but_data _ _ _ hp2
    have hslots : ∀ j : Nat, v.m_extensions[j]? =
        if (h.payload this).m_extensions[j]? ≠ some 0
        then ((h.payload this).m_extensions[j]?).map clone
        else (h.payload this).m_extensions[j]? := by
      intro j
      rw [sv j, hext3]
      by_cases hj : j < (h.payload this).m_extensions.length
      · by_cases hz : (h.payload this).m_extensions[j]? ≠ some 0
        · rw [if_pos ⟨Nat.zero_le _, by omega, hz⟩, if_pos hz]
        · rw [if_neg (fun hh => hz hh.2.2), if_neg hz]
      · rw [if_neg (fun hh => hj (by omega)), List.getElem?_eq_none (by omega)]
        simp
    have k12 : h.brk < h2.brk := Nat.lt_of_lt_of_le (by rw [h1k]; exact Nat.lt_succ_self _) k2
    by_cases hbe : (h.payload this).m_byte_enable ≠ 0 ∧
        (h.payload this).m_byte_enable_length ≠ 0
    · obtain ⟨c3a, c3b, c3c⟩ := c3 hbe
      obtain ⟨e_cmd, e_adr, e_dat, e_len, e_rsp, e_ben, e_bel, e_stw, e_dmi, -⟩ :=
        payload_eq_but_byte_enable _ _ _ _ c3a
      refine ⟨by rw [v_cmd, e_cmd, d_cmd], by rw [v_adr, e_adr, d_adr],
        by rw [v_len, e_len, d_len], by rw [v_rsp, e_rsp, d_rsp],
        by rw [v_bel, e_bel], by rw [v_stw, e_stw, d_stw], by rw [v_dmi, e_dmi, d_dmi],
        ?_, ?_, fun _ => ⟨?_, ?_, ?_⟩, fun hn => absurd hbe hn, lv, ?_⟩
      · intro hd
        obtain ⟨c2a, c2b, c2c⟩ := c2 hd
        rw [v_dat, e_dat, c2a, h1k]
        refine ⟨Nat.lt_succ_self _, ?_⟩
        rw [b3 _ (by rw [c2b, h1k]; exact Nat.lt_succ_self _), ← h1k, c2c, h1b]
      · intro hd
        rw [v_dat, e_dat, n2 hd, h1p]
      · rw [v_ben, e_ben]
        exact k12
      · rw [v_ben, e_ben, v_dat, e_dat]
        by_cases hd : (h.payload this).m_data ≠ 0 ∧ (h.payload this).m_length ≠ 0
        · obtain ⟨c2a, c2b, -⟩ := c2 hd
          rw [c2a, c2b]
          exact Nat.succ_ne_self _
        · rw [n2 hd, h1p, h1k]
          exact Ne.symm (Nat.ne_of_lt (Nat.lt_succ_of_lt hdp))
      · rw [v_ben, e_ben, c3c, hb2]
      · exact hslots
    · have e3' : h3 = h2 := n3 hbe
      subst e3'
      refine ⟨by rw [v_cmd, d_cmd], by rw [v_adr, d_adr],
        by rw [v_len, d_len], by rw [v_rsp, d_rsp],
        by rw [v_bel, d_bel], by rw [v_stw, d_stw], by rw [v_dmi, d_dmi],
        ?_, ?_, fun hp => absurd hp hbe, fun _ => by rw [v_ben, d_ben], lv, ?_⟩
      · intro hd
        obtain ⟨c2a, c2b, c2c⟩ := c2 hd
        rw [v_dat, c2a, h1k]
        refine ⟨Nat.lt_succ_self _, ?_⟩
        rw [← h1k, c2c, h1b]
      · intro hd
        rw [v_dat, n2 hd, h1p]
      · exact hslots

/-- The log after the second half of `end_request_method`. -/
theorem end_request_rearm_spec (m : Sim) :
    ∃ s', end_request_rearm m = Result.ret () s' ∧
      s'.target = { m.target with
        end_request_QActive := decide (m.target.m_end_request_queue ≠ []) } ∧
      s'.payload = m.payload ∧ s'.bytes = m.bytes ∧
      s'.log = m.log ++
        (if m.target.m_end_request_queue = [] then []
         else [Effect.notify .m_end_request_event m.target.m_accept_delay]) ++
        [Effect.next_trigger .m_end_request_event] := by
  by_cases hq : m.target.m_end_request_queue = []
  · rw [end_request_rearm_nil m hq]
    refine ⟨_, rfl, ?_, rfl, rfl, ?_⟩
    · simp [hq]
    · simp [hq]
  · rw [end_request_rearm_cons m hq]
    refine ⟨_, rfl, ?_, rfl, rfl, ?_⟩
    · simp [hq]
    · simp [hq]

/-- C11: in every state with `end_request_QActive` true and a transaction `t` at
the front of the end-request queue, a firing of the end-request activity
removes `t` from that queue, appends it at the back of the response queue,
notifies the begin-response event with zero delay exactly when the response
queue was empty, and sends `END_REQ` for `t`.  With verdict `TLM_ACCEPTED` the
firing then returns, after its re-arming and with nothing else changed; with
any other verdict it stops in `REPORT_FATAL` right after the send.  With
`end_request_QActive` false the firing returns, sends nothing and leaves the
three queues as they are. -/
theorem end_request_method_moves_front (verdict : tlm_sync_enum) (s : Sim) :
    (s.target.end_request_QActive = true →
      ∀ t rest, s.target.m_end_request_queue = t :: rest →
        ∃ m : Sim,
          m.target = { s.target with
            m_end_request_queue := rest
            m_response_queue := s.target.m_response_queue ++ [t] } ∧
          m.payload = s.payload ∧ m.bytes = s.bytes ∧
          m.log = s.log ++
            (if s.target.m_response_queue = [] then [Effect.notify .m_begin_response_event 0]
             else []) ++ [Effect.send t .END_REQ 0] ∧
          (verdict = .TLM_ACCEPTED →
            ∃ s', end_request_method verdict s = Result.ret () s' ∧
              s'.target = { m.target with end_request_QActive := decide (rest ≠ []) } ∧
              s'.payload = s.payload ∧ s'.bytes = s.bytes ∧
              s'.log = m.log ++
                (if rest = [] then []
                 else [Effect.notify .m_end_request_event s.target.m_accept_delay]) ++
                [Effect.next_trigger .m_end_request_event]) ∧
          (verdict ≠ .TLM_ACCEPTED → end_request_method verdict s = Result.fatal m)) ∧
    (s.target.end_request_QActive = false →
      ∃ s', end_request_method verdict s = Result.ret () s' ∧
        s'.target.m_end_request_queue = s.target.m_end_request_queue ∧
        s'.target.m_response_queue = s.target.m_response_queue ∧
        s'.target.m_end_response_queue = s.target.m_end_response_queue ∧
        s'.payload = s.payload ∧ s'.bytes = s.bytes ∧
        ∀ ph, sent ph s'.log = sent ph s.log) := by
  constructor
  · intro ha t rest hq
    refine ⟨end_request_sent s t rest, end_request_sent_target s t rest, ?_, ?_,
      end_request_sent_log s t rest, ?_, ?_⟩
    · unfold end_request_sent
      by_cases h : s.target.m_response_queue = [] <;> simp [h]
    · unfold end_request_sent
      by_cases h : s.target.m_response_queue = [] <;> simp [h]
    · intro hv
      subst hv
      rw [end_request_method_active _ s t rest ha hq]
      obtain ⟨s', h1, h2, h3, h4, h5⟩ := end_request_rearm_spec (end_request_sent s t rest)
      refine ⟨s', h1, ?_, ?_, ?_, ?_⟩
      · rw [h2, end_request_sent_target]
      · rw [h3]
        unfold end_request_sent
        by_cases h : s.target.m_response_queue = [] <;> simp [h]
      · rw [h4]
        unfold end_request_sent
        by_cases h : s.target.m_response_queue = [] <;> simp [h]
      · rw [h5, end_request_sent_target]
    · intro hv
      rw [end_request_method_active _ s t rest ha hq]
      cases verdict
      · exact absurd rfl hv
      · rfl
      · rfl
  · intro ha
    rw [end_request_method_idle verdict s ha]
    obtain ⟨s', h1, h2, h3, h4, h5⟩ := end_request_rearm_spec s
    refine ⟨s', h1, by rw [h2], by rw [h2], by rw [h2], h3, h4, fun ph => ?_⟩
    rw [h5]
    by_cases h : s.target.m_end_request_queue = [] <;> simp [sent_append, h]

/-! ### One firing of the begin-response activity (C12) -/

/-- An active firing of the begin-response activity with `t` at the front of the
response queue, when `memory_operation` returns: it reaches the send, and goes
on to the `TLM_ACCEPTED` branch and the second half exactly when the verdict is
`TLM_ACCEPTED`. -/
theorem begin_response_method_active (verdict : tlm_sync_enum) (s s2 : Sim) (t : Ptr)
    (rest : List Ptr) (ha : s.target.begin_response_QActive = true)
    (hq : s.target.m_response_queue = t :: rest)
    (hm : memory_operation t (s.withTarget { s.target with m_response_queue := rest })
      = Result.ret () s2) :
    begin_response_method verdict s =
      match verdict with
      | .TLM_ACCEPTED =>
        begin_response_rearm (begin_response_accepted (begin_response_sent s2 t) t)
      | _ => Result.fatal (begin_response_sent s2 t) := by
  unfold begin_response_method
  rw [if_pos ha]
  split
  · rename_i h
    rw [hq] at h
    cases h
  · rename_i t' rest' h
    rw [hq] at h
    cases h
    dsimp only
    rw [hm]
    cases verdict <;> rfl

/-- An active firing of the begin-response activity in which `memory_operation`
performs an undefined access performs it, and sends nothing. -/
theorem begin_response_method_active_undefined (verdict : tlm_sync_enum) (s : Sim) (t : Ptr)
    (rest : List Ptr) (ha : s.target.begin_response_QActive = true)
    (hq : s.target.m_response_queue = t :: rest)
    (hm : memory_operation t (s.withTarget { s.target with m_response_queue := rest })
      = Result.undefined) :
    begin_response_method verdict s = Result.undefined := by
  unfold begin_response_method
  rw [if_pos ha]
  split
  · rfl
  · rename_i t' rest' h
    rw [hq] at h
    cases h
    dsimp only
    rw [hm]

/-- A read or write of fewer than `2^31` bytes with a buffer that holds them, on
a store of `m_memory_size` bytes, returns with status OK, whatever the address;
the log is as it was and the target changed in its store at most. -/
theorem memory_operation_returns (gp : Ptr) (s : Sim)
    (hc : (s.payload gp).m_command = .TLM_READ_COMMAND ∨
      (s.payload gp).m_command = .TLM_WRITE_COMMAND)
    (hsize : s.target.m_memory_size < U64)
    (hmem : s.target.m_memory.length = s.target.m_memory_size)
    (hlen : (s.payload gp).m_length < 2 ^ 31)
    (hbuf : (s.payload gp).m_length ≤ (s.bytes (s.payload gp).m_data).length) :
    ∃ s', memory_operation gp s = Result.ret () s' ∧
      s'.log = s.log ∧
      s'.target = { s.target with m_memory := s'.target.m_memory } ∧
      s'.target.m_memory.length = s.target.m_memory.length ∧
      s'.payload gp = { s.payload gp with m_response_status := .TLM_OK_RESPONSE } ∧
      (∀ p, p ≠ gp → s'.payload p = s.payload p) := by
  rcases hc with hc | hc
  · obtain ⟨s', h1, h2, h3, h4, h5, -⟩ := memory_operation_read_spec gp s hc hsize hmem hlen hbuf
    refine ⟨s', h1, h3, ?_, ?_, h4, h5⟩
    · rw [h2]
    · rw [h2]
  · obtain ⟨s', h1, h2, h3, -, h4, h5, h6, -⟩ :=
      memory_operation_write_spec gp s hc hsize hmem hlen hbuf
    exact ⟨s', h1, h3, h2, h6, h4, h5⟩

/-- An active firing of the begin-response activity whose front transaction `t`
is a read or write of fewer than `2^31` bytes with a buffer that holds them:
the firing removes `t` from the response queue, applies `memory_operation`,
and sends `BEGIN_RESP` for `t` in a state `m` in which the status of `t` is OK;
it then appends `t` to the end-response queue and goes on to the second half
when the verdict is `TLM_ACCEPTED`, and stops in `REPORT_FATAL` in state `m`
otherwise. -/
theorem begin_response_method_active_spec (verdict : tlm_sync_enum) (s : Sim) (t : Ptr)
    (rest : List Ptr) (ha : s.target.begin_response_QActive = true)
    (hq : s.target.m_response_queue = t :: rest)
    (hc : (s.payload t).m_command = .TLM_READ_COMMAND ∨
      (s.payload t).m_command = .TLM_WRITE_COMMAND)
    (hsize : s.target.m_memory_size < U64)
    (hmem : s.target.m_memory.length = s.target.m_memory_size)
    (hlen : (s.payload t).m_length < 2 ^ 31)
    (hbuf : (s.payload t).m_length ≤ (s.bytes (s.payload t).m_data).length) :
    ∃ s2 m : Sim,
      memory_operation t (s.withTarget { s.target with m_response_queue := rest })
        = Result.ret () s2 ∧
      m = begin_response_sent s2 t ∧
      m.log = s.log ++ [Effect.send t .BEGIN_RESP 0] ∧
      (m.payload t).m_response_status = .TLM_OK_RESPONSE ∧
      (∀ p, (m.payload p).m_command = (s.payload p).m_command) ∧
      m.target = { s.target with
        m_memory := m.target.m_memory
        m_response_queue := rest } ∧
      m.target.m_memory.length = s.target.m_memory.length ∧
      (verdict = .TLM_ACCEPTED →
        begin_response_method verdict s
          = begin_response_rearm (begin_response_accepted m t) ∧
        (begin_response_accepted m t).target.m_response_queue = rest ∧
        (begin_response_accepted m t).target.m_end_response_queue
          = s.target.m_end_response_queue ++ [t] ∧
        (begin_response_accepted m t).log
          = m.log ++ [Effect.next_trigger .m_end_response_event]) ∧
      (verdict ≠ .TLM_ACCEPTED → begin_response_method verdict s = Result.fatal m) := by
  obtain ⟨s2, h1, h2, h3, h4, h5, h6⟩ :=
    memory_operation_returns t (s.withTarget { s.target with m_response_queue := rest })
      hc hsize hmem hlen hbuf
  have h2' : s2.log = s.log := h2
  have hact := begin_response_method_active verdict s s2 t rest ha hq h1
  have ht : (begin_response_sent s2 t).target
      = { s.target with m_memory := s2.target.m_memory, m_response_queue := rest } := by
    show s2.target = _
    rw [h3]
    rfl
  refine ⟨s2, begin_response_sent s2 t, h1, rfl, ?_, ?_, ?_, ?_, ?_, ?_, ?_⟩
  · show s2.log ++ _ = _
    rw [h2']
  · simp [begin_response_sent, Sim.set_response_status, Sim.emit]
  · intro p
    have := (memory_operation_ret_frame _ _ _ _ h1).2.2 p
    unfold begin_response_sent
    rw [Sim.emit_payload, set_response_status_command]
    exact this
  · rw [ht]
  · show s2.target.m_memory.length = _
    rw [h4]
    rfl
  · intro hv
    subst hv
    refine ⟨hact, ?_, ?_, rfl⟩
    · show (begin_response_sent s2 t).target.m_response_queue = rest
      rw [ht]
    · show (begin_response_sent s2 t).target.m_end_response_queue ++ [t] = _
      rw [ht]
  · intro hv
    rw [hact]
    cases verdict
    · exact absurd rfl hv
    · rfl
    · rfl

/-- C12, evaluated at an active firing whose front transaction reads `2^31`
bytes from address `0x100` of a store of `0x200` bytes at base 0, into a buffer
of `2^31` bytes: the length is narrowed to a negative `int`, the `memset` of
`memory_operation` runs past the end of the buffer, and the firing performs
that undefined access before any send, instead of sending `BEGIN_RESP` with
status OK and appending the transaction to the end-response queue. -/
theorem begin_response_method_read_overruns :
    c12_sim.target.begin_response_QActive = true ∧
    c12_sim.target.m_response_queue = [1] ∧
    (c12_sim.payload 1).m_command = .TLM_READ_COMMAND ∧
    (c12_sim.payload 1).m_length < 2 ^ 32 ∧
    (c12_sim.bytes (c12_sim.payload 1).m_data).length = (c12_sim.payload 1).m_length ∧
    toSizeT (toInt32 (c12_sim.payload 1).m_length) = 2 ^ 64 - 2 ^ 31 ∧
    begin_response_method .TLM_ACCEPTED c12_sim = Result.undefined := by
  have h1 : c12_sim.bytes (c12_sim.payload 1).m_data = List.replicate 2147483648 0xFF := rfl
  have h2 : (c12_sim.payload 1).m_length = 2147483648 := rfl
  refine ⟨rfl, rfl, rfl, by decide, ?_, by decide, ?_⟩
  · rw [h1, h2, List.length_replicate]
  · apply begin_response_method_active_undefined _ c12_sim 1 [] rfl rfl
    apply memory_operation_read_overrun
    · rfl
    · show (c12_sim.bytes (c12_sim.payload 1).m_data).length
        < toSizeT (toInt32 (c12_sim.payload 1).m_length)
      rw [h1, h2, List.length_replicate]
      decide

/-! ### The begin-response activity after an accepted `BEGIN_RESP` (C13) -/

/-- The second half of `begin_response_method`, when it returns, has called
`next_trigger(m_begin_response_event)` last. -/
theorem begin_response_rearm_trigger (m s' : Sim)
    (h : begin_response_rearm m = Result.ret () s') :
    ∃ l, s'.log = l ++ [Effect.next_trigger .m_begin_response_event] := by
  unfold begin_response_rearm at h
  split at h
  · cases h
    exact ⟨_, rfl⟩
  · dsimp only at h
    split at h
    · cases h
      exact ⟨_, rfl⟩
    · split at h
      · cases h
        exact ⟨_, rfl⟩
      · cases h

/-- Every firing of the begin-response activity that returns has called
`next_trigger(m_begin_response_event)` last, also after the
`next_trigger(m_end_response_event)` of the accepted branch. -/
theorem begin_response_method_trigger (verdict : tlm_sync_enum) (s s' : Sim)
    (h : begin_response_method verdict s = Result.ret () s') :
    ∃ l, s'.log = l ++ [Effect.next_trigger .m_begin_response_event] := by
  rcases begin_response_method_reaches_check verdict s with hu | ⟨f, hf, -⟩ | ⟨m, hm, -⟩
  · rw [hu] at h
    cases h
  · rw [hf] at h
    cases h
  · rw [hm] at h
    exact begin_response_rearm_trigger m s' h

set_option maxRecDepth 100000 in
/-- C13, evaluated at the run in which two writes are submitted at time 0 and the
initiator accepts every call and sends no `END_RESP`.  The fifth firing, at
time 25, sends `BEGIN_RESP` for transaction 1 and appends it to the
end-response queue; the `next_trigger(m_begin_response_event)` of the queue
check replaces the `next_trigger(m_end_response_event)` of the accepted
branch, so the activity is left waiting for the begin-response event, which it
has notified with the write delay.  It fires again at time 40 and sends
`BEGIN_RESP` for transaction 2 although no `END_RESP` has been received (the
end-response event was never notified), and the end-response queue holds two
transactions. -/
theorem begin_response_method_not_suspended :
    (c13_run 5).map (fun k => (k.now, sends k.trace))
      = some (25, [(10, 1, .END_REQ), (20, 2, .END_REQ), (25, 1, .BEGIN_RESP)]) ∧
    (c13_run 5).map (fun k => (k.sim.target.m_end_response_queue,
        k.trigger .begin_response_method))
      = some ([1], some .m_begin_response_event) ∧
    (c13_run 5).map kernel_next = some (some (40, .m_begin_response_event)) ∧
    (c13_run 6).map (fun k => (k.now, sends k.trace))
      = some (40,
          [(10, 1, .END_REQ), (20, 2, .END_REQ), (25, 1, .BEGIN_RESP), (40, 2, .BEGIN_RESP)]) ∧
    (c13_run 6).map (fun k =>
        (armed .m_end_response_event k.sim.log, k.sim.target.m_end_response_queue))
      = some ([], [1, 2]) := by
  refine ⟨?_, ?_, ?_, ?_, ?_⟩ <;> decide

/-! ### The scenario of section 8 (C14) -/

/-- A four-byte write at address `0x100` to a store at base 0 that holds at least
`0x104` bytes stores the four bytes at offsets `0x100` to `0x103` and sets the
status OK. -/
theorem memory_operation_write4 (gp : Ptr) (s : Sim) (a b c e : Nat)
    (hc : (s.payload gp).m_command = .TLM_WRITE_COMMAND)
    (ha : (s.payload gp).m_address = 0x100)
    (hl : (s.payload gp).m_length = 4)
    (hb : s.bytes (s.payload gp).m_data = [a, b, c, e])
    (hbase : s.target.m_base_address = 0)
    (h104 : 0x104 ≤ s.target.m_memory_size)
    (hmem : s.target.m_memory.length = s.target.m_memory_size) :
    memory_operation gp s = Result.ret ()
      ((s.withTarget { s.target with
          m_memory := (((s.target.m_memory.set 0x100 a).set 0x101 b).set 0x102 c).set 0x103 e
        }).set_response_status gp .TLM_OK_RESPONSE) := by
  have h4 : toInt32 4 = 4 := toInt32_small 4 (by norm_num)
  have hA : (256 + U64 - 0 % U64) % U64 = 256 := by decide
  have h1 : (256 + 1) % U64 = 257 := by decide
  have h2 : (257 + 1) % U64 = 258 := by decide
  have h3 : (258 + 1) % U64 = 259 := by decide
  have h5 : (259 + 1) % U64 = 260 := by decide
  unfold memory_operation
  simp only [hc, ha, hl, hb, hbase, h4, hA]
  have n0 : ¬ ([a, b, c, e].length < (4 : Int).toNat) := by
    show ¬ (4 < 4)
    omega
  rw [if_neg n0]
  have n1 : ¬ (256 < 0 ∨ 256 ≥ s.target.m_memory_size) := by omega
  rw [if_neg n1]
  have e4 : (4 : Int).toNat = 4 := rfl
  rw [e4]
  have hw : write_loop s.target.m_memory_size [a, b, c, e] 4 0 256 s.target.m_memory
      = some ((((s.target.m_memory.set 0x100 a).set 0x101 b).set 0x102 c).set 0x103 e) := by
    have g0 : ¬ (256 ≥ s.target.m_memory_size) := by omega
    have g1 : ¬ (257 ≥ s.target.m_memory_size) := by omega
    have g2 : ¬ (258 ≥ s.target.m_memory_size) := by omega
    have g3 : ¬ (259 ≥ s.target.m_memory_size) := by omega
    have l0 : 256 < s.target.m_memory.length := by omega
    have l1 : 257 < (s.target.m_memory.set 256 a).length := by
      rw [List.length_set]; omega
    have l2 : 258 < ((s.target.m_memory.set 256 a).set 257 b).length := by
      rw [List.length_set, List.length_set]; omega
    have l3 : 259 < (((s.target.m_memory.set 256 a).set 257 b).set 258 c).length := by
      rw [List.length_set, List.length_set, List.length_set]; omega
    simp only [write_loop, g0, g1, g2, g3, l0, l1, l2, l3, h1, h2, h3, h5, if_false, if_true,
      List.getElem?_cons_zero, List.getElem?_cons_succ, Nat.zero_add, Nat.reduceAdd]
  rw [hw]

/-- A four-byte read at address `0x100` from a store at base 0 that holds at
least `0x104` bytes, into a buffer of four bytes, leaves the store bytes of
offsets `0x100` to `0x103` in the buffer and sets the status OK. -/
theorem memory_operation_read4 (gp : Ptr) (s : Sim) (a b c e : Nat)
    (hc : (s.payload gp).m_command = .TLM_READ_COMMAND)
    (ha : (s.payload gp).m_address = 0x100)
    (hl : (s.payload gp).m_length = 4)
    (hb : (s.bytes (s.payload gp).m_data).length = 4)
    (hbase : s.target.m_base_address = 0)
    (h104 : 0x104 ≤ s.target.m_memory_size)
    (h0 : s.target.m_memory[0x100]? = some a)
    (h1 : s.target.m_memory[0x101]? = some b)
    (h2 : s.target.m_memory[0x102]? = some c)
    (h3 : s.target.m_memory[0x103]? = some e) :
    memory_operation gp s = Result.ret ()
      ({ s with bytes := Function.update s.bytes (s.payload gp).m_data [a, b, c, e]
        }.set_response_status gp .TLM_OK_RESPONSE) := by
  have h4 : toInt32 4 = 4 := toInt32_small 4 (by norm_num)
  have hs : toSizeT 4 = 4 := toSizeT_cast_small 4 (by norm_num)
  have hA : (256 + U64 - 0 % U64) % U64 = 256 := by decide
  have a1 : (256 + 1) % U64 = 257 := by decide
  have a2 : (257 + 1) % U64 = 258 := by decide
  have a3 : (258 + 1) % U64 = 259 := by decide
  have a5 : (259 + 1) % U64 = 260 := by decide
  have hz : memset0 (s.bytes (s.payload gp).m_data) 4 = some [0, 0, 0, 0] := by
    unfold memset0
    rw [if_pos (by omega), List.drop_eq_nil_of_le (by omega)]
    rfl
  unfold memory_operation
  simp only [hc, ha, hl, hbase, h4, hA, hs, hz]
  have n1 : ¬ (256 < 0 ∨ 256 ≥ s.target.m_memory_size) := by omega
  rw [if_neg n1]
  have e4 : (4 : Int).toNat = 4 := rfl
  rw [e4]
  have hr : read_loop s.target.m_memory_size s.target.m_memory 4 0 256 [0, 0, 0, 0]
      = some [a, b, c, e] := by
    have g0 : ¬ (256 ≥ s.target.m_memory_size) := by omega
    have g1 : ¬ (257 ≥ s.target.m_memory_size) := by omega
    have g2 : ¬ (258 ≥ s.target.m_memory_size) := by omega
    have g3 : ¬ (259 ≥ s.target.m_memory_size) := by omega
    simp only [read_loop, g0, g1, g2, g3, h0, h1, h2, h3, a1, a2, a3, a5, if_false, if_true,
      List.length_cons, List.length_nil, List.length_set, List.set_cons_zero,
      List.set_cons_succ, Nat.zero_add, Nat.reduceAdd, Nat.reduceLT, Nat.lt_add_one,
      Nat.zero_lt_succ, Nat.succ_lt_succ_iff]
  rw [hr]

/-- The write of the scenario, for every start time `T`, every store of at least
`0x104` bytes and whatever it holds: after four firings the run is at time
`T + 25` with nothing pending; `END_REQ` was sent at `T + 10` and `BEGIN_RESP` at
`T + 25`, which are all the calls through the socket; the status of the write
is OK and the store holds `DE AD BE EF` at offsets `0x100` to `0x103`. -/
theorem c14_write_spec (T size : Nat) (mem buf : List Nat)
    (h104 : 0x104 ≤ size) (hmem : mem.length = size) :
    ∃ k, c14_write 4 T size mem buf = some k ∧ k.now = T + 25 ∧ kernel_next k = none ∧
      sends k.trace = [(T + 10, 1, .END_REQ), (T + 25, 1, .BEGIN_RESP)] ∧
      (k.sim.payload 1).m_response_status = .TLM_OK_RESPONSE ∧
      k.sim.target.m_memory.length = size ∧
      k.sim.target.m_memory[0x100]? = some 0xDE ∧
      k.sim.target.m_memory[0x101]? = some 0xAD ∧
      k.sim.target.m_memory[0x102]? = some 0xBE ∧
      k.sim.target.m_memory[0x103]? = some 0xEF := by
  have m0 : ((((mem.set 256 222).set 257 173).set 258 190).set 259 239)[256]? = some 222 := by
    simp [List.getElem?_set, hmem]
    omega
  have m1 : ((((mem.set 256 222).set 257 173).set 258 190).set 259 239)[257]? = some 173 := by
    simp [List.getElem?_set, hmem]
    omega
  have m2 : ((((mem.set 256 222).set 257 173).set 258 190).set 259 239)[258]? = some 190 := by
    simp [List.getElem?_set, hmem]
    omega
  have m3 : ((((mem.set 256 222).set 257 173).set 258 190).set 259 239)[259]? = some 239 := by
    simp [List.getElem?_set, hmem]
    omega
  simp only [c14_write, kernel_init, kernel_exec, process_body, end_request_method,
    begin_response_method, end_request_rearm, begin_response_rearm, kernel_after, kernel_effect,
    c14_sim, mk_target, mk_payload, Sim.emit, Sim.withTarget, kernel_wait, kernel_next,
    kernel_earlier, kernel_call, nb_transport, kernel_run, kernel_fire, kernel_woken,
    sc_notify, Option.bind, Option.map, List.foldl, List.drop, List.length, List.map,
    List.filter, Function.update, List.append, List.nil_append, List.cons_append,
    Bool.false_eq_true, if_false, if_true, reduceCtorEq, decide_True, decide_False,
    List.length_nil, List.length_cons, List.drop_zero, List.drop_succ_cons, ite_true, ite_false,
    dite_true, dite_false, eq_self_iff_true, Nat.add_zero, Nat.zero_add]
  rw [memory_operation_write4 1 _ 0xDE 0xAD 0xBE 0xEF rfl rfl rfl rfl rfl h104 hmem]
  simp only [kernel_exec, process_body, end_request_method,
    begin_response_method, end_request_rearm, begin_response_rearm, kernel_after, kernel_effect,
    Sim.emit, Sim.withTarget, Sim.set_response_status, kernel_wait, kernel_next,
    kernel_earlier, kernel_call, nb_transport, kernel_run, kernel_fire, kernel_woken,
    sc_notify, Option.bind, Option.map, List.foldl, List.drop, List.length, List.map,
    List.filter, Function.update, List.append, List.nil_append, List.cons_append,
    Bool.false_eq_true, if_false, if_true, reduceCtorEq, decide_True, decide_False,
    List.length_nil, List.length_cons, List.drop_zero, List.drop_succ_cons, ite_true, ite_false,
    dite_true, dite_false, eq_self_iff_true, Nat.add_zero, Nat.zero_add]
  refine ⟨_, rfl, ?_, ?_, ?_, ?_, ?_, m0, m1, m2, m3⟩
  · show T + 10 + 15 = T + 25
    omega
  · rfl
  · show [(T + 10, 1, tlm_phase.END_REQ), (T + 10 + 15, 1, tlm_phase.BEGIN_RESP)] = _
    rfl
  · rfl
  · show ((((mem.set 256 222).set 257 173).set 258 190).set 259 239).length = size
    simp only [List.length_set, hmem]

/-- The read of the scenario, for every start time `T`, every pair of gaps `G1`
and `G2`, every store of at least `0x104` bytes and every buffer of four bytes:
`BEGIN_REQ` for the read is submitted at `T + 25 + G1 + G2`, `END_REQ` is sent
10 time units later and `BEGIN_RESP` 20 time units after that, which with the
two calls of the write are all the calls through the socket; the status of the
read is OK and its buffer holds `DE AD BE EF`. -/
theorem c14_read_spec (T G1 G2 size : Nat) (mem buf : List Nat)
    (h104 : 0x104 ≤ size) (hmem : mem.length = size) (hbuf : buf.length = 4) :
    ∃ k, c14_read 4 T G1 G2 size mem buf = some k ∧
      k.now = T + 25 + G1 + G2 + 10 + 20 ∧ kernel_next k = none ∧
      sends k.trace = [(T + 10, 1, .END_REQ), (T + 25, 1, .BEGIN_RESP),
        (T + 25 + G1 + G2 + 10, 2, .END_REQ), (T + 25 + G1 + G2 + 10 + 20, 2, .BEGIN_RESP)] ∧
      (k.sim.payload 2).m_response_status = .TLM_OK_RESPONSE ∧
      k.sim.bytes (k.sim.payload 2).m_data = [0xDE, 0xAD, 0xBE, 0xEF] := by
  have m0 : ((((mem.set 256 222).set 257 173).set 258 190).set 259 239)[256]? = some 222 := by
    simp [List.getElem?_set, hmem]
    omega
  have m1 : ((((mem.set 256 222).set 257 173).set 258 190).set 259 239)[257]? = some 173 := by
    simp [List.getElem?_set, hmem]
    omega
  have m2 : ((((mem.set 256 222).set 257 173).set 258 190).set 259 239)[258]? = some 190 := by
    simp [List.getElem?_set, hmem]
    omega
  have m3 : ((((mem.set 256 222).set 257 173).set 258 190).set 259 239)[259]? = some 239 := by
    simp [List.getElem?_set, hmem]
    omega
  have e25 : T + 10 + 15 = T + 25 := by omega
  simp only [c14_read, c14_write, kernel_init, kernel_exec, process_body, end_request_method,
    begin_response_method, end_request_rearm, begin_response_rearm, kernel_after, kernel_effect,
    c14_sim, mk_target, mk_payload, Sim.emit, Sim.withTarget, kernel_wait, kernel_next,
    kernel_earlier, kernel_call, nb_transport, kernel_run, kernel_fire, kernel_woken,
    sc_notify, Option.bind, Option.map, List.foldl, List.drop, List.length, List.map,
    List.filter, Function.update, List.append, List.nil_append, List.cons_append,
    Bool.false_eq_true, if_false, if_true, reduceCtorEq, decide_True, decide_False,
    List.length_nil, List.length_cons, List.drop_zero, List.drop_succ_cons, ite_true, ite_false,
    dite_true, dite_false, eq_self_iff_true, Nat.add_zero, Nat.zero_add]
  rw [memory_operation_write4 1 _ 0xDE 0xAD 0xBE 0xEF rfl rfl rfl rfl rfl h104 hmem]
  simp only [kernel_exec, process_body, end_request_method,
    begin_response_method, end_request_rearm, begin_response_rearm, kernel_after, kernel_effect,
    Sim.emit, Sim.withTarget, Sim.set_response_status, kernel_wait, kernel_next,
    kernel_earlier, kernel_call, nb_transport, kernel_run, kernel_fire, kernel_woken,
    sc_notify, Option.bind, Option.map, List.foldl, List.drop, List.length, List.map,
    List.filter, Function.update, List.append, List.nil_append, List.cons_append,
    Bool.false_eq_true, if_false, if_true, reduceCtorEq, decide_True, decide_False,
    List.length_nil, List.length_cons, List.drop_zero, List.drop_succ_cons, ite_true, ite_false,
    dite_true, dite_false, eq_self_iff_true, Nat.add_zero, Nat.zero_add, Nat.le_add_right,
    le_refl, REPORT_FATAL, ne_eq, not_true_eq_false, OfNat.ofNat_ne_one, Nat.reduceEqDiff]
  rw [memory_operation_read4 2 _ 0xDE 0xAD 0xBE 0xEF rfl rfl rfl hbuf rfl h104 m0 m1 m2 m3]
  simp only [kernel_exec, process_body, end_request_method,
    begin_response_method, end_request_rearm, begin_response_rearm, kernel_after, kernel_effect,
    Sim.emit, Sim.withTarget, Sim.set_response_status, kernel_wait, kernel_next,
    kernel_earlier, kernel_call, nb_transport, kernel_run, kernel_fire, kernel_woken,
    sc_notify, Option.bind, Option.map, List.foldl, List.drop, List.length, List.map,
    List.filter, Function.update, List.append, List.nil_append, List.cons_append,
    Bool.false_eq_true, if_false, if_true, reduceCtorEq, decide_True, decide_False,
    List.length_nil, List.length_cons, List.drop_zero, List.drop_succ_cons, ite_true, ite_false,
    dite_true, dite_false, eq_self_iff_true, Nat.add_zero, Nat.zero_add, Nat.le_add_right,
    le_refl, REPORT_FATAL, ne_eq, not_true_eq_false, OfNat.ofNat_ne_one, Nat.reduceEqDiff]
  rw [e25]
  refine ⟨_, rfl, rfl, rfl, rfl, rfl, rfl⟩

/-- C14: for a target built with accept delay 10, read delay 20 and write delay
15, base address 0 and a store of at least `0x104` bytes, whatever it holds, and
an initiator that answers every `END_REQ` and `BEGIN_RESP` with `TLM_ACCEPTED`:
when `BEGIN_REQ` for a write of `DE AD BE EF` to address `0x100` is submitted at
time `T`, `END_REQ` is sent at `T + 10` and `BEGIN_RESP` at `T + 25`, with status
OK and the store holding `DE AD BE EF` at offsets `0x100` to `0x103`; when, after
`END_RESP` for the write, `BEGIN_REQ` for a read of four bytes at `0x100` is
submitted at time `T + 25 + G1 + G2`, `END_REQ` is sent 10 time units later and
`BEGIN_RESP` 20 time units after that `END_REQ`, with status OK and the buffer
of the read holding `DE AD BE EF`. -/
theorem scenario_write_then_read (T G1 G2 size : Nat) (mem buf : List Nat)
    (h104 : 0x104 ≤ size) (hmem : mem.length = size) (hbuf : buf.length = 4) :
    (∃ k, c14_write 4 T size mem buf = some k ∧ k.now = T + 25 ∧ kernel_next k = none ∧
      sends k.trace = [(T + 10, 1, .END_REQ), (T + 25, 1, .BEGIN_RESP)] ∧
      (k.sim.payload 1).m_response_status = .TLM_OK_RESPONSE ∧
      k.sim.target.m_memory.length = size ∧
      k.sim.target.m_memory[0x100]? = some 0xDE ∧
      k.sim.target.m_memory[0x101]? = some 0xAD ∧
      k.sim.target.m_memory[0x102]? = some 0xBE ∧
      k.sim.target.m_memory[0x103]? = some 0xEF) ∧
    (∃ k, c14_read 4 T G1 G2 size mem buf = some k ∧
      k.now = T + 25 + G1 + G2 + 10 + 20 ∧ kernel_next k = none ∧
      sends k.trace = [(T + 10, 1, .END_REQ), (T + 25, 1, .BEGIN_RESP),
        (T + 25 + G1 + G2 + 10, 2, .END_REQ), (T + 25 + G1 + G2 + 10 + 20, 2, .BEGIN_RESP)] ∧
      (k.sim.payload 2).m_response_status = .TLM_OK_RESPONSE ∧
      k.sim.bytes (k.sim.payload 2).m_data = [0xDE, 0xAD, 0xBE, 0xEF]) :=
  ⟨c14_write_spec T size mem buf h104 hmem, c14_read_spec T G1 G2 size mem buf h104 hmem hbuf⟩

/-- C14 at start time 5, gaps 3 and 7, a store of `0x104` zero bytes and a read
buffer of four bytes `09`: the four calls through the socket are at times 15,
30, 50 and 70, and the buffer of the read ends as `DE AD BE EF`. -/
theorem scenario_write_then_read_witness :
    0x104 ≤ 0x104 ∧ (List.replicate 0x104 0).length = 0x104 ∧ [9, 9, 9, 9].length = 4 ∧
    ∃ k, c14_read 4 5 3 7 0x104 (List.replicate 0x104 0) [9, 9, 9, 9] = some k ∧
      sends k.trace = [(15, 1, .END_REQ), (30, 1, .BEGIN_RESP), (50, 2, .END_REQ),
        (70, 2, .BEGIN_RESP)] ∧
      k.sim.bytes (k.sim.payload 2).m_data = [0xDE, 0xAD, 0xBE, 0xEF] := by
  obtain ⟨-, k, hk, -, -, hs, -, hb⟩ :=
    scenario_write_then_read 5 3 7 0x104 (List.replicate 0x104 0) [9, 9, 9, 9]
      (Nat.le_refl _) (List.length_replicate _ _) rfl
  exact ⟨Nat.le_refl _, List.length_replicate _ _, rfl, k, hk, hs, hb⟩

/-! ### The field setters (C29) -/

/-- C29: for each attribute among command, address, data pointer, data length,
response status, byte-enable pointer, byte-enable length, streaming width and
DMI hint, and every value `v`, after the setter the getter returns `v`, and the
getter of every other attribute and every extension slot return what they
returned before; `set_read` and `set_write` are `set_command` with
`TLM_READ_COMMAND` and `TLM_WRITE_COMMAND`, and `is_read` and `is_write` are
true exactly for these two commands. -/
theorem setters_independent (p : tlm_generic_payload) :
    (∀ v : tlm_command,
      (p.set_command v).get_command = v ∧
      (p.set_command v).get_address = p.get_address ∧
      (p.set_command v).get_data_ptr = p.get_data_ptr ∧
      (p.set_command v).get_data_length = p.get_data_length ∧
      (p.set_command v).get_response_status = p.get_response_status ∧
      (p.set_command v).get_byte_enable_ptr = p.get_byte_enable_ptr ∧
      (p.set_command v).get_byte_enable_length = p.get_byte_enable_length ∧
      (p.set_command v).get_streaming_width = p.get_streaming_width ∧
      (p.set_command v).get_dmi_allowed = p.get_dmi_allowed ∧
      (∀ i, (p.set_command v).get_extension i = p.get_extension i)) ∧
    (∀ v : Nat,
      (p.set_address v).get_address = v ∧
      (p.set_address v).get_command = p.get_command ∧
      (p.set_address v).get_data_ptr = p.get_data_ptr ∧
      (p.set_address v).get_data_length = p.get_data_length ∧
      (p.set_address v).get_response_status = p.get_response_status ∧
      (p.set_address v).get_byte_enable_ptr = p.get_byte_enable_ptr ∧
      (p.set_address v).get_byte_enable_length = p.get_byte_enable_length ∧
      (p.set_address v).get_streaming_width = p.get_streaming_width ∧
      (p.set_address v).get_dmi_allowed = p.get_dmi_allowed ∧
      (∀ i, (p.set_address v).get_extension i = p.get_extension i)) ∧
    (∀ v : Ptr,
      (p.set_data_ptr v).get_data_ptr = v ∧
      (p.set_data_ptr v).get_command = p.get_command ∧
      (p.set_data_ptr v).get_address = p.get_address ∧
      (p.set_data_ptr v).get_data_length = p.get_data_length ∧
      (p.set_data_ptr v).get_response_status = p.get_response_status ∧
      (p.set_data_ptr v).get_byte_enable_ptr = p.get_byte_enable_ptr ∧
      (p.set_data_ptr v).get_byte_enable_length = p.get_byte_enable_length ∧
      (p.set_data_ptr v).get_streaming_width = p.get_streaming_width ∧
      (p.set_data_ptr v).get_dmi_allowed = p.get_dmi_allowed ∧
      (∀ i, (p.set_data_ptr v).get_extension i = p.get_extension i)) ∧
    (∀ v : Nat,
      (p.set_data_length v).get_data_length = v ∧
      (p.set_data_length v).get_command = p.get_command ∧
      (p.set_data_length v).get_address = p.get_address ∧
      (p.set_data_length v).get_data_ptr = p.get_data_ptr ∧
      (p.set_data_length v).get_response_status = p.get_response_status ∧
      (p.set_data_length v).get_byte_enable_ptr = p.get_byte_enable_ptr ∧
      (p.set_data_length v).get_byte_enable_length = p.get_byte_enable_length ∧
      (p.set_data_length v).get_streaming_width = p.get_streaming_width ∧
      (p.set_data_length v).get_dmi_allowed = p.get_dmi_allowed ∧
      (∀ i, (p.set_data_length v).get_extension i = p.get_extension i)) ∧
    (∀ v : tlm_response_status,
      (p.set_response_status v).get_response_status = v ∧
      (p.set_response_status v).get_command = p.get_command ∧
      (p.set_response_status v).get_address = p.get_address ∧
      (p.set_response_status v).get_data_ptr = p.get_data_ptr ∧
      (p.set_response_status v).get_data_length = p.get_data_length ∧
      (p.set_response_status v).get_byte_enable_ptr = p.get_byte_enable_ptr ∧
      (p.set_response_status v).get_byte_enable_length = p.get_byte_enable_length ∧
      (p.set_response_status v).get_streaming_width = p.get_streaming_width ∧
      (p.set_response_status v).get_dmi_allowed = p.get_dmi_allowed ∧
      (∀ i, (p.set_response_status v).get_extension i = p.get_extension i)) ∧
    (∀ v : Ptr,
      (p.set_byte_enable_ptr v).get_byte_enable_ptr = v ∧
      (p.set_byte_enable_ptr v).get_command = p.get_command ∧
      (p.set_byte_enable_ptr v).get_address = p.get_address ∧
      (p.set_byte_enable_ptr v).get_data_ptr = p.get_data_ptr ∧
      (p.set_byte_enable_ptr v).get_data_length = p.get_data_length ∧
      (p.set_byte_enable_ptr v).get_response_status = p.get_response_status ∧
      (p.set_byte_enable_ptr v).get_byte_enable_length = p.get_byte_enable_length ∧
      (p.set_byte_enable_ptr v).get_streaming_width = p.get_streaming_width ∧
      (p.set_byte_enable_ptr v).get_dmi_allowed = p.get_dmi_allowed ∧
      (∀ i, (p.set_byte_enable_ptr v).get_extension i = p.get_extension i)) ∧
    (∀ v : Nat,
      (p.set_byte_enable_length v).get_byte_enable_length = v ∧
      (p.set_byte_enable_length v).get_command = p.get_command ∧
      (p.set_byte_enable_length v).get_address = p.get_address ∧
      (p.set_byte_enable_length v).get_data_ptr = p.get_data_ptr ∧
      (p.set_byte_enable_length v).get_data_length = p.get_data_length ∧
      (p.set_byte_enable_length v).get_response_status = p.get_response_status ∧
      (p.set_byte_enable_length v).get_byte_enable_ptr = p.get_byte_enable_ptr ∧
      (p.set_byte_enable_length v).get_streaming_width = p.get_streaming_width ∧
      (p.set_byte_enable_length v).get_dmi_allowed = p.get_dmi_allowed ∧
      (∀ i, (p.set_byte_enable_length v).get_extension i = p.get_extension i)) ∧
    (∀ v : Nat,
      (p.set_streaming_width v).get_streaming_width = v ∧
      (p.set_streaming_width v).get_command = p.get_command ∧
      (p.set_streaming_width v).get_address = p.get_address ∧
      (p.set_streaming_width v).get_data_ptr = p.get_data_ptr ∧
      (p.set_streaming_width v).get_data_length = p.get_data_length ∧
      (p.set_streaming_width v).get_response_status = p.get_response_status ∧
      (p.set_streaming_width v).get_byte_enable_ptr = p.get_byte_enable_ptr ∧
      (p.set_streaming_width v).get_byte_enable_length = p.get_byte_enable_length ∧
      (p.set_streaming_width v).get_dmi_allowed = p.get_dmi_allowed ∧
      (∀ i, (p.set_streaming_width v).get_extension i = p.get_extension i)) ∧
    (∀ v : Bool,
      (p.set_dmi_allowed v).get_dmi_allowed = v ∧
      (p.set_dmi_allowed v).get_command = p.get_command ∧
      (p.set_dmi_allowed v).get_address = p.get_address ∧
      (p.set_dmi_allowed v).get_data_ptr = p.get_data_ptr ∧
      (p.set_dmi_allowed v).get_data_length = p.get_data_length ∧
      (p.set_dmi_allowed v).get_response_status = p.get_response_status ∧
      (p.set_dmi_allowed v).get_byte_enable_ptr = p.get_byte_enable_ptr ∧
      (p.set_dmi_allowed v).get_byte_enable_length = p.get_byte_enable_length ∧
      (p.set_dmi_allowed v).get_streaming_width = p.get_streaming_width ∧
      (∀ i, (p.set_dmi_allowed v).get_extension i = p.get_extension i)) ∧
    p.set_read = p.set_command .TLM_READ_COMMAND ∧
    p.set_write = p.set_command .TLM_WRITE_COMMAND ∧
    (p.is_read = true ↔ p.get_command = .TLM_READ_COMMAND) ∧
    (p.is_write = true ↔ p.get_command = .TLM_WRITE_COMMAND) := by
  refine ⟨fun v => ?_, fun v => ?_, fun v => ?_, fun v => ?_, fun v => ?_, fun v => ?_, fun v => ?_, fun v => ?_, fun v => ?_, rfl, rfl, ?_, ?_⟩
  · exact ⟨rfl, rfl, rfl, rfl, rfl, rfl, rfl, rfl, rfl, fun _ => rfl⟩
  · exact ⟨rfl, rfl, rfl, rfl, rfl, rfl, rfl, rfl, rfl, fun _ => rfl⟩
  · exact ⟨rfl, rfl, rfl, rfl, rfl, rfl, rfl, rfl, rfl, fun _ => rfl⟩
  · exact ⟨rfl, rfl, rfl, rfl, rfl, rfl, rfl, rfl, rfl, fun _ => rfl⟩
  · exact ⟨rfl, rfl, rfl, rfl, rfl, rfl, rfl, rfl, rfl, fun _ => rfl⟩
  · exact ⟨rfl, rfl, rfl, rfl, rfl, rfl, rfl, rfl, rfl, fun _ => rfl⟩
  · exact ⟨rfl, rfl, rfl, rfl, rfl, rfl, rfl, rfl, rfl, fun _ => rfl⟩
  · exact ⟨rfl, rfl, rfl, rfl, rfl, rfl, rfl, rfl, rfl, fun _ => rfl⟩
  · exact ⟨rfl, rfl, rfl, rfl, rfl, rfl, rfl, rfl, rfl, fun _ => rfl⟩
  · simp [tlm_generic_payload.is_read, tlm_generic_payload.get_command]
  · simp [tlm_generic_payload.is_write, tlm_generic_payload.get_command]

/-! ### The debug and direct-memory interfaces (C23) -/

/-- C23: in every engine state and for every transaction, `transport_dbg` returns
0 and `get_direct_mem_ptr` returns `false`, each in a state in which the
transaction (as every other one), the byte buffers, the three queues, the two
activity flags and the store are what they were, and nothing was sent or
notified. -/
theorem debug_and_dmi_are_stubs (s : Sim) (gp dmi_data : Ptr) :
    (∃ s', transport_dbg gp s = Result.ret 0 s' ∧
      s'.payload = s.payload ∧ s'.bytes = s.bytes ∧
      s'.target.m_end_request_queue = s.target.m_end_request_queue ∧
      s'.target.m_response_queue = s.target.m_response_queue ∧
      s'.target.m_end_response_queue = s.target.m_end_response_queue ∧
      s'.target.end_request_QActive = s.target.end_request_QActive ∧
      s'.target.begin_response_QActive = s.target.begin_response_QActive ∧
      s'.target.m_memory = s.target.m_memory ∧ s'.log = s.log) ∧
    (∃ s', get_direct_mem_ptr gp dmi_data s = Result.ret false s' ∧
      s'.payload = s.payload ∧ s'.bytes = s.bytes ∧
      s'.target.m_end_request_queue = s.target.m_end_request_queue ∧
      s'.target.m_response_queue = s.target.m_response_queue ∧
      s'.target.m_end_response_queue = s.target.m_end_response_queue ∧
      s'.target.end_request_QActive = s.target.end_request_QActive ∧
      s'.target.begin_response_QActive = s.target.begin_response_QActive ∧
      s'.target.m_memory = s.target.m_memory ∧ s'.log = s.log) :=
  ⟨⟨s, rfl, rfl, rfl, rfl, rfl, rfl, rfl, rfl, rfl, rfl⟩,
    ⟨s, rfl, rfl, rfl, rfl, rfl, rfl, rfl, rfl, rfl, rfl⟩⟩

/-! ### Shallow copies (C22) -/

/-- The assignment operator onto a payload whose slot table has the size of the
one of `x` makes it equal to `x`. -/
theorem assign_spec (this x : tlm_generic_payload)
    (hx : this.m_extensions.length = x.m_extensions.length) :
    tlm_generic_payload.assign this x = some x := by
  unfold tlm_generic_payload.assign
  obtain ⟨r, h1, h2, h3⟩ :=
    copy_slots_spec x.m_extensions this.m_extensions.length 0 this.m_extensions (by omega)
  have hr : r = x.m_extensions := by
    apply List.ext_getElem?
    intro j
    rw [h3 j]
    by_cases hj : j < this.m_extensions.length
    · rw [if_pos (by omega)]
    · rw [if_neg (by omega), List.getElem?_eq_none (by omega),
        List.getElem?_eq_none (by omega)]
  simp only [h1, hr]
  rfl

/-- C22: for every source transaction `x` whose slot table has the registry
size, the copy constructor, and the assignment operator onto a transaction whose
slot table has the same size, return and yield a transaction whose command,
address, data length, response status, byte-enable length, streaming width and
DMI hint are those of `x`, whose data pointer and byte-enable pointer are the
pointers of `x` (the buffers are shared), and whose slot table has the size of
the one of `x` and holds in every slot what the slot of `x` holds. -/
theorem shallow_copy_shares (max_num : Nat) (x this : tlm_generic_payload)
    (hx : x.m_extensions.length = max_num)
    (hthis : this.m_extensions.length = x.m_extensions.length) :
    (∃ c, tlm_generic_payload.copy_ctor max_num x = some c ∧
      c.get_command = x.get_command ∧ c.get_address = x.get_address ∧
      c.get_data_length = x.get_data_length ∧
      c.get_response_status = x.get_response_status ∧
      c.get_byte_enable_length = x.get_byte_enable_length ∧
      c.get_streaming_width = x.get_streaming_width ∧
      c.get_dmi_allowed = x.get_dmi_allowed ∧
      c.get_data_ptr = x.get_data_ptr ∧ c.get_byte_enable_ptr = x.get_byte_enable_ptr ∧
      c.m_extensions.length = x.m_extensions.length ∧
      ∀ i, c.get_extension i = x.get_extension i) ∧
    (∃ a, tlm_generic_payload.assign this x = some a ∧
      a.get_command = x.get_command ∧ a.get_address = x.get_address ∧
      a.get_data_length = x.get_data_length ∧
      a.get_response_status = x.get_response_status ∧
      a.get_byte_enable_length = x.get_byte_enable_length ∧
      a.get_streaming_width = x.get_streaming_width ∧
      a.get_dmi_allowed = x.get_dmi_allowed ∧
      a.get_data_ptr = x.get_data_ptr ∧ a.get_byte_enable_ptr = x.get_byte_enable_ptr ∧
      a.m_extensions.length = x.m_extensions.length ∧
      ∀ i, a.get_extension i = x.get_extension i) :=
  ⟨⟨x, copy_ctor_spec max_num x hx, rfl, rfl, rfl, rfl, rfl, rfl, rfl, rfl, rfl, rfl,
      fun _ => rfl⟩,
    ⟨x, assign_spec this x hthis, rfl, rfl, rfl, rfl, rfl, rfl, rfl, rfl, rfl, rfl,
      fun _ => rfl⟩⟩

/-- C22 at a transaction with a data buffer at address 1000 and extension 77 in
slot 1 of 2, copied by the copy constructor and assigned to a default-constructed
transaction: both copies hold the data pointer 1000 and extension 77 in slot 1. -/
theorem shallow_copy_shares_witness :
    (c15_store_full.payload 1).m_extensions.length = 2 ∧
    (tlm_generic_payload.default_ctor 2).m_extensions.length
      = (c15_store_full.payload 1).m_extensions.length ∧
    (∃ c, tlm_generic_payload.copy_ctor 2 (c15_store_full.payload 1) = some c ∧
      c.get_data_ptr = 1000 ∧ c.get_extension 1 = some 77) ∧
    (∃ a, tlm_generic_payload.assign (tlm_generic_payload.default_ctor 2)
        (c15_store_full.payload 1) = some a ∧
      a.get_data_ptr = 1000 ∧ a.get_extension 1 = some 77) := by
  obtain ⟨⟨c, hc, -, -, -, -, -, -, -, hd, -, -, he⟩, ⟨a, ha, -, -, -, -, -, -, -, hd', -, -, he'⟩⟩ :=
    shallow_copy_shares 2 (c15_store_full.payload 1) (tlm_generic_payload.default_ctor 2)
      (by decide) (by decide)
  exact ⟨by decide, by decide, ⟨c, hc, hd, he 1⟩, ⟨a, ha, hd', he' 1⟩⟩

/-! ### Indexing the slot table (C21) -/

/-- C21, as the claim states it for every transaction, fails: a transaction
constructed while the registry was empty has no slot; once a first extension
type is registered, with index 0 and registry size 1, `get_extension(0)` on
that transaction, the copy constructor and `deep_copy` with it as the source,
and the assignment of it to a transaction constructed after the registration,
all read slot 0 of a slot table that has none. -/
theorem unresized_table_indexed_beyond :
    registered_index 0 0 = 0 ∧ registered 1 0 = 1 ∧
    (tlm_generic_payload.default_ctor (registered 0 0)).m_extensions.length = 0 ∧
    tlm_generic_payload.get_extension 0 (tlm_generic_payload.default_ctor (registered 0 0))
      = none ∧
    tlm_generic_payload.copy_ctor (registered 1 0)
      (tlm_generic_payload.default_ctor (registered 0 0)) = none ∧
    tlm_generic_payload.assign (tlm_generic_payload.default_ctor (registered 1 0))
      (tlm_generic_payload.default_ctor (registered 0 0)) = none ∧
    (deep_copy (registered 1 0) (fun e => e + 500) 1 c21_store).isSome = false := by
  decide

/-- C21, amended: for every transaction and every registered index `i`, below
the registry size, `set_extension` and the typed `clear_extension`, which
resize first, return, that is, they index inside the slot table, and
`clear_extension(i)` by index writes no slot of a table that has no slot `i`;
`get_extension(i)` indexes inside the slot table of a transaction whose table
holds slot `i`; the copy constructor indexes inside the table of its source
when that table has at least the registry size, the assignment operator when
the table of its source is at least as large as the one assigned to, and
`deep_copy` when the table of the transaction copied has the registry size:
its cloning loop returns on every copy whose table has that size, and the
whole of `deep_copy` returns when moreover the buffers hold the bytes their
lengths announce. -/
theorem indexed_access_guarded (max_num i : Nat) (p : tlm_generic_payload)
    (hi : i < max_num) :
    (∀ e, ∃ r, tlm_generic_payload.set_extension max_num i e p = some r) ∧
    (∀ e, ∃ r, tlm_generic_payload.set_extension_T max_num i e p = some r) ∧
    (∃ r, tlm_generic_payload.clear_extension_T max_num i p = some r) ∧
    (p.m_extensions.length ≤ i → tlm_generic_payload.clear_extension i p = p) ∧
    (i < p.m_extensions.length →
      ∃ e, tlm_generic_payload.get_extension i p = some e ∧
        tlm_generic_payload.get_extension_T i p = some e) ∧
    (max_num ≤ p.m_extensions.length →
      ∃ c, tlm_generic_payload.copy_ctor max_num p = some c) ∧
    (∀ this : tlm_generic_payload, this.m_extensions.length ≤ p.m_extensions.length →
      ∃ a, tlm_generic_payload.assign this p = some a) ∧
    (p.m_extensions.length = max_num →
      ∀ (clone : Ptr → Ptr) (tmp : tlm_generic_payload), tmp.m_extensions.length = max_num →
        ∃ v, clone_slots max_num clone p.m_extensions p.m_extensions.length 0 tmp = some v) ∧
    (∀ (clone : Ptr → Ptr) (this : Ptr) (h : Store), h.payload this = p →
      p.m_extensions.length = max_num → this < h.brk → p.m_data < h.brk →
      p.m_byte_enable < h.brk →
      (p.m_data ≠ 0 ∧ p.m_length ≠ 0 → p.m_length ≤ (h.bytes p.m_data).length) →
      (p.m_byte_enable ≠ 0 ∧ p.m_byte_enable_length ≠ 0 →
        p.m_byte_enable_length ≤ (h.bytes p.m_byte_enable).length) →
      ∃ r, deep_copy max_num clone this h = some r) := by
  have hlen : i < (tlm_generic_payload.resize_extensions max_num p).m_extensions.length := by
    rw [resize_extensions_slots, tlm_array_expand_length]
    omega
  refine ⟨fun e => ?_, fun e => ?_, ?_, fun h => ?_, fun h => ?_, fun h => ?_, fun this h => ?_,
    fun hx clone tmp ht => ?_, fun clone this h hp hx hthis hdp hbp hdl hbl => ?_⟩
  · unfold tlm_generic_payload.set_extension
    dsimp only
    rw [List.getElem?_eq_getElem hlen]
    exact ⟨_, rfl⟩
  · unfold tlm_generic_payload.set_extension_T
    dsimp only
    rw [List.getElem?_eq_getElem hlen]
    exact ⟨_, rfl⟩
  · unfold tlm_generic_payload.clear_extension_T
    dsimp only
    rw [if_pos hlen]
    exact ⟨_, rfl⟩
  · unfold tlm_generic_payload.clear_extension
    rw [if_neg (by omega)]
  · unfold tlm_generic_payload.get_extension tlm_generic_payload.get_extension_T
    rw [List.getElem?_eq_getElem h]
    exact ⟨_, rfl, rfl⟩
  · unfold tlm_generic_payload.copy_ctor
    have hl : (tlm_array_new max_num).length = max_num := by simp [tlm_array_new]
    obtain ⟨r, h1, -⟩ := copy_slots_spec p.m_extensions max_num 0 (tlm_array_new max_num)
      (by omega)
    simp only [max_num_extensions_false, hl, h1]
    exact ⟨_, rfl⟩
  · unfold tlm_generic_payload.assign
    obtain ⟨r, h1, -⟩ :=
      copy_slots_spec p.m_extensions this.m_extensions.length 0 this.m_extensions (by omega)
    simp only [h1]
    exact ⟨_, rfl⟩
  · obtain ⟨v, e, -⟩ := clone_slots_spec max_num clone p.m_extensions (by omega)
      p.m_extensions.length 0 tmp (by omega) ht
    exact ⟨v, e⟩
  · subst hp
    obtain ⟨h', e, -⟩ := deep_copy_spec max_num clone this h hx hthis hdp hbp hdl hbl
    exact ⟨_, e⟩

/-- C21, amended, at registry size 2, index 1 and a transaction constructed at
that registry size: `set_extension(1, 77)` and `get_extension(1)` return. -/
theorem indexed_access_guarded_witness :
    1 < 2 ∧
    (∃ r, tlm_generic_payload.set_extension 2 1 77 (tlm_generic_payload.default_ctor 2)
      = some r) ∧
    (∃ e, tlm_generic_payload.get_extension 1 (tlm_generic_payload.default_ctor 2) = some e) := by
  have h := indexed_access_guarded 2 1 (tlm_generic_payload.default_ctor 2) (by decide)
  obtain ⟨e, he, -⟩ := h.2.2.2.2.1 (by decide)
  exact ⟨by decide, h.1 77, e, he⟩

/-! ### The store after construction (C25) -/

/-- The store of a constructed target is the array `new` returned, as it was. -/
theorem ctor_memory (ID base_address memory_size memory_width accept_delay
    read_response_delay write_response_delay : Nat) (fresh : List Nat) :
    (at_target_4_phase.ctor ID base_address memory_size memory_width accept_delay
      read_response_delay write_response_delay fresh).m_memory = fresh := rfl

/-- C25, evaluated at a target constructed with base 0 and memory size 4 in
storage that holds `AB 00 00 00`: the constructor allocates the store with
`new unsigned char[...]` and never writes it, so offset 0 of the store holds
`AB`, and a read of address 0 performed before any write returns `AB`, not
zero. -/
theorem ctor_leaves_store_unwritten :
    Initial c25_sim ∧
    c25_sim.target.m_memory.length = c25_sim.target.m_memory_size ∧
    c25_sim.target.m_memory[0]? = some 0xAB ∧
    (c25_sim.payload 1).m_command = .TLM_READ_COMMAND ∧
    (c25_sim.payload 1).m_address + (c25_sim.payload 1).m_length
      ≤ c25_sim.target.m_base_address + c25_sim.target.m_memory_size ∧
    (memory_operation 1 c25_sim).state?.map (fun s => s.bytes (s.payload 1).m_data)
      = some [0xAB] := by
  refine ⟨⟨rfl, rfl, rfl, rfl, rfl⟩, ?_, ?_, ?_, ?_, ?_⟩ <;> decide

/-! ### The frame of `memory_operation` (C28) -/

/-- The frame of `memory_operation` for lengths below `2^31` and a buffer that
holds them, on a store of `m_memory_size` bytes.  A write returns in a state
in which every store byte whose offset is outside the `length` bytes from the
translated offset is what it was, every byte buffer is what it was, and the
transaction differs in its response status only.  A read returns in a state in
which the whole target, store included, is what it was, every other byte
buffer is what it was, the data buffer has its length and its bytes from
`length` on, and the transaction differs in its response status only.  Every
other transaction is what it was. -/
theorem memory_operation_frame (gp : Ptr) (s : Sim)
    (hsize : s.target.m_memory_size < U64)
    (hmem : s.target.m_memory.length = s.target.m_memory_size)
    (hlen : (s.payload gp).m_length < 2 ^ 31)
    (hbuf : (s.payload gp).m_length ≤ (s.bytes (s.payload gp).m_data).length) :
    ((s.payload gp).m_command = .TLM_WRITE_COMMAND →
      ∃ s', memory_operation gp s = Result.ret () s' ∧
        s'.bytes = s.bytes ∧
        s'.payload gp = { s.payload gp with m_response_status := .TLM_OK_RESPONSE } ∧
        (∀ p, p ≠ gp → s'.payload p = s.payload p) ∧
        s'.target.m_memory.length = s.target.m_memory.length ∧
        ∀ j, ¬ (((s.payload gp).m_address + U64 - s.target.m_base_address % U64) % U64 ≤ j ∧
            j < ((s.payload gp).m_address + U64 - s.target.m_base_address % U64) % U64
              + (s.payload gp).m_length) →
          s'.target.m_memory[j]? = s.target.m_memory[j]?) ∧
    ((s.payload gp).m_command = .TLM_READ_COMMAND →
      ∃ s', memory_operation gp s = Result.ret () s' ∧
        s'.target = s.target ∧
        s'.payload gp = { s.payload gp with m_response_status := .TLM_OK_RESPONSE } ∧
        (∀ p, p ≠ gp → s'.payload p = s.payload p) ∧
        (∀ q, q ≠ (s.payload gp).m_data → s'.bytes q = s.bytes q) ∧
        (s'.bytes (s.payload gp).m_data).length = (s.bytes (s.payload gp).m_data).length ∧
        ∀ j, (s.payload gp).m_length ≤ j →
          (s'.bytes (s.payload gp).m_data)[j]? = (s.bytes (s.payload gp).m_data)[j]?) := by
  constructor
  · intro hc
    obtain ⟨s', h1, -, -, h4, h5, h6, h7, h8⟩ :=
      memory_operation_write_spec gp s hc hsize hmem hlen hbuf
    refine ⟨s', h1, h4, h5, h6, h7, fun j hj => ?_⟩
    rw [h8 j, if_neg]
    intro h
    exact hj ⟨h.2.1, h.2.2.1⟩
  · intro hc
    obtain ⟨s', h1, h2, -, h4, h5, h6, h7, h8⟩ :=
      memory_operation_read_spec gp s hc hsize hmem hlen hbuf
    refine ⟨s', h1, h2, h4, h5, h6, h7, fun j hj => ?_⟩
    rw [h8 j, if_neg (by omega)]

/-- C28, evaluated at a read of `2^31` bytes from address `0x10` of a store of
`0x200` bytes at base 0, into a buffer of `2^31` bytes: the length is narrowed
to a negative `int`, the `memset` count becomes `2^64 - 2^31`, more than the
`length` bytes of the buffer, and the call writes beyond the first `length`
bytes of the data buffer and beyond its end. -/
theorem memory_operation_read_frame_broken :
    (c28_sim.payload 1).m_command = .TLM_READ_COMMAND ∧
    (c28_sim.payload 1).m_length = 2 ^ 31 ∧
    (c28_sim.bytes (c28_sim.payload 1).m_data).length = (c28_sim.payload 1).m_length ∧
    (c28_sim.payload 1).m_length < toSizeT (toInt32 (c28_sim.payload 1).m_length) ∧
    toSizeT (toInt32 (c28_sim.payload 1).m_length) = 2 ^ 64 - 2 ^ 31 ∧
    memory_operation 1 c28_sim = Result.undefined := by
  have h1 : c28_sim.bytes (c28_sim.payload 1).m_data = List.replicate 2147483648 0xFF := rfl
  have h2 : (c28_sim.payload 1).m_length = 2147483648 := rfl
  refine ⟨rfl, rfl, ?_, ?_, ?_, ?_⟩
  · rw [h1, h2, List.length_replicate]
  · rw [h2]
    decide
  · rw [h2]
    decide
  · apply memory_operation_read_overrun
    · rfl
    · rw [h1, h2, List.length_replicate]
      decide

/-! ### Every step of the engine that returns -/

/-- An inbound call that returns is a `BEGIN_REQ`, which appends the transaction
at the back of the end-request queue, or an `END_RESP` for the transaction at
the front of the end-response queue, which removes it; nothing else of the
target changes, no transaction, no buffer, and nothing is sent. -/
theorem nb_transport_ret_spec (gp : Ptr) (phase : tlm_phase) (delay_time : Nat) (s s' : Sim)
    (r : tlm_sync_enum) (h : nb_transport gp phase delay_time s = Result.ret r s') :
    s'.payload = s.payload ∧ s'.bytes = s.bytes ∧ (∀ ph, sent ph s'.log = sent ph s.log) ∧
    ((phase = .BEGIN_REQ ∧
        s'.target = { s.target with
          m_end_request_queue := s.target.m_end_request_queue ++ [gp] }) ∨
     (phase = .END_RESP ∧ ∃ rest, s.target.m_end_response_queue = gp :: rest ∧
        s'.target = { s.target with m_end_response_queue := rest })) := by
  cases phase with
  | BEGIN_REQ =>
    obtain ⟨s'', e, ht, -, -, -, -, hp, hb, hl⟩ := nb_transport_BEGIN_REQ_spec s gp delay_time
    rw [e] at h
    cases h
    refine ⟨hp, hb, fun ph => ?_, Or.inl ⟨rfl, ht⟩⟩
    rw [hl]
    by_cases hq : s.target.m_end_request_queue = [] <;> simp [sent_append, hq]
  | END_RESP =>
    cases hq : s.target.m_end_response_queue with
    | nil =>
      simp only [nb_transport, hq] at h
      cases h
    | cons t rest =>
      obtain ⟨h1, h2⟩ := nb_transport_END_RESP_spec s gp delay_time t rest hq
      by_cases ht : t = gp
      · rw [h1 ht] at h
        cases h
        subst ht
        refine ⟨rfl, rfl, fun ph => ?_, Or.inr ⟨rfl, rest, rfl, rfl⟩⟩
        simp [sent_append]
      · rw [h2 ht] at h
        cases h
  | BEGIN_RESP =>
    simp only [nb_transport, REPORT_FATAL] at h
    cases h
  | END_REQ =>
    simp only [nb_transport, REPORT_FATAL] at h
    cases h
  | other v =>
    simp only [nb_transport, REPORT_FATAL] at h
    cases h

/-- A firing of the end-request activity that returns.  An idle firing sets the
flag of the activity to whether its queue holds a transaction, and sends
nothing.  An active firing finds a transaction `t` at the front of its queue,
moves it to the back of the response queue, sends `END_REQ` for it and nothing
else, and sets the flag to whether its queue still holds a transaction.
Nothing else of the target changes, no transaction and no buffer. -/
theorem end_request_method_ret_spec (verdict : tlm_sync_enum) (s s' : Sim)
    (h : end_request_method verdict s = Result.ret () s') :
    s'.payload = s.payload ∧ s'.bytes = s.bytes ∧
    sent .BEGIN_RESP s'.log = sent .BEGIN_RESP s.log ∧
    ((s.target.end_request_QActive = false ∧
        s'.target = { s.target with
          end_request_QActive := decide (s.target.m_end_request_queue ≠ []) } ∧
        sent .END_REQ s'.log = sent .END_REQ s.log) ∨
     (s.target.end_request_QActive = true ∧
        ∃ t rest, s.target.m_end_request_queue = t :: rest ∧
          s'.target = { s.target with
            m_end_request_queue := rest
            m_response_queue := s.target.m_response_queue ++ [t]
            end_request_QActive := decide (rest ≠ []) } ∧
          sent .END_REQ s'.log = sent .END_REQ s.log ++ [t])) := by
  cases ha : s.target.end_request_QActive with
  | false =>
    rw [end_request_method_idle verdict s ha] at h
    obtain ⟨s'', e, ht, hp, hb, hl⟩ := end_request_rearm_spec s
    rw [e] at h
    cases h
    have hs : ∀ ph, sent ph s'.log = sent ph s.log := by
      intro ph
      rw [hl]
      by_cases hq : s.target.m_end_request_queue = [] <;> simp [sent_append, hq]
    exact ⟨hp, hb, hs _, Or.inl ⟨rfl, ht, hs _⟩⟩
  | true =>
    cases hq : s.target.m_end_request_queue with
    | nil =>
      unfold end_request_method at h
      rw [if_pos ha] at h
      simp only [hq] at h
      cases h
    | cons t rest =>
      rw [end_request_method_active verdict s t rest ha hq] at h
      cases verdict with
      | TLM_ACCEPTED =>
        dsimp only at h
        obtain ⟨s'', e, ht, hp, hb, hl⟩ := end_request_rearm_spec (end_request_sent s t rest)
        rw [e] at h
        cases h
        have hp' : (end_request_sent s t rest).payload = s.payload := by
          unfold end_request_sent
          by_cases hr : s.target.m_response_queue = [] <;> simp [hr]
        have hb' : (end_request_sent s t rest).bytes = s.bytes := by
          unfold end_request_sent
          by_cases hr : s.target.m_response_queue = [] <;> simp [hr]
        have hs : ∀ ph, sent ph s'.log
            = sent ph s.log ++ (if tlm_phase.END_REQ = ph then [t] else []) := by
          intro ph
          rw [hl, end_request_sent_log, end_request_sent_target]
          by_cases hr : s.target.m_response_queue = [] <;>
            by_cases hq' : rest = [] <;> simp [sent_append, hr, hq']
        refine ⟨hp.trans hp', hb.trans hb', ?_, Or.inr ⟨rfl, t, rest, rfl, ?_, ?_⟩⟩
        · rw [hs]
          simp
        · rw [ht, end_request_sent_target]
        · rw [hs]
          simp
      | TLM_UPDATED => cases h
      | TLM_COMPLETED => cases h

/-- When `memory_operation` returns, the command of the transaction is a read or
a write: for any other command it stops in `REPORT_FATAL`. -/
theorem memory_operation_ret_command (gp : Ptr) (s s' : Sim) (r : Unit)
    (h : memory_operation gp s = Result.ret r s') :
    (s.payload gp).m_command = .TLM_READ_COMMAND ∨
    (s.payload gp).m_command = .TLM_WRITE_COMMAND := by
  cases hc : (s.payload gp).m_command with
  | TLM_READ_COMMAND => exact Or.inl rfl
  | TLM_WRITE_COMMAND => exact Or.inr rfl
  | TLM_IGNORE_COMMAND =>
    simp only [memory_operation, hc, REPORT_FATAL] at h
    cases h

/-- When `memory_operation` stops in `REPORT_FATAL`, the command of the
transaction is neither a read nor a write. -/
theorem memory_operation_fatal_command (gp : Ptr) (s s' : Sim)
    (h : memory_operation gp s = Result.fatal s') :
    (s.payload gp).m_command = .TLM_IGNORE_COMMAND := by
  cases hc : (s.payload gp).m_command <;> simp only [memory_operation, hc] at h
  · split at h
    · cases h
    · split at h
      · cases h
      · split at h <;> cases h
  · split at h
    · cases h
    · split at h
      · cases h
      · split at h <;> cases h
  · trivial

/-- The second half of `begin_response_method`, when it returns: the flag of the
activity is set to whether the response queue holds a transaction, in which
case the one at its front is a read or a write; nothing else changes and
nothing is sent. -/
theorem begin_response_rearm_ret_spec (m s' : Sim)
    (h : begin_response_rearm m = Result.ret () s') :
    s'.target = { m.target with
      begin_response_QActive := decide (m.target.m_response_queue ≠ []) } ∧
    s'.payload = m.payload ∧ s'.bytes = m.bytes ∧
    (∀ ph, sent ph s'.log = sent ph m.log) ∧
    (∀ t rest, m.target.m_response_queue = t :: rest →
      (m.payload t).m_command = .TLM_READ_COMMAND ∨
      (m.payload t).m_command = .TLM_WRITE_COMMAND) := by
  cases hq : m.target.m_response_queue with
  | nil =>
    rw [begin_response_rearm_nil m hq] at h
    cases h
    refine ⟨?_, rfl, rfl, fun ph => ?_, fun t rest ht => ?_⟩
    · simp
    · simp [sent_append]
    · cases ht
  | cons t rest =>
    cases hc : (m.payload t).m_command with
    | TLM_READ_COMMAND =>
      rw [begin_response_rearm_read m t rest hq hc] at h
      cases h
      refine ⟨?_, rfl, rfl, fun ph => ?_, fun t' rest' ht => ?_⟩
      · simp
      · simp [sent_append]
      · cases ht
        exact Or.inl hc
    | TLM_WRITE_COMMAND =>
      rw [begin_response_rearm_write m t rest hq hc] at h
      cases h
      refine ⟨?_, rfl, rfl, fun ph => ?_, fun t' rest' ht => ?_⟩
      · simp
      · simp [sent_append]
      · cases ht
        exact Or.inr hc
    | TLM_IGNORE_COMMAND =>
      rw [begin_response_rearm_other m t rest hq hc] at h
      cases h

/-- A firing of the begin-response activity that returns.  An idle firing sets
the flag of the activity to whether the response queue holds a transaction, and
sends nothing.  An active firing finds a transaction `t` at the front of the
response queue, a read or a write, moves it to the back of the end-response
queue, sends `BEGIN_RESP` for it and nothing else, and sets the flag to whether
the response queue still holds a transaction.  In both cases the transaction
then at the front of the response queue, if any, is a read or a write; nothing
else of the target but the store changes, and no command. -/
theorem begin_response_method_ret_spec (verdict : tlm_sync_enum) (s s' : Sim)
    (h : begin_response_method verdict s = Result.ret () s') :
    (∀ p, (s'.payload p).m_command = (s.payload p).m_command) ∧
    sent .END_REQ s'.log = sent .END_REQ s.log ∧
    (∀ t rest, s'.target.m_response_queue = t :: rest →
      (s'.payload t).m_command = .TLM_READ_COMMAND ∨
      (s'.payload t).m_command = .TLM_WRITE_COMMAND) ∧
    ((s.target.begin_response_QActive = false ∧
        s'.target = { s.target with
          begin_response_QActive := decide (s.target.m_response_queue ≠ []) } ∧
        sent .BEGIN_RESP s'.log = sent .BEGIN_RESP s.log) ∨
     (s.target.begin_response_QActive = true ∧
        ∃ t rest, s.target.m_response_queue = t :: rest ∧
          ((s.payload t).m_command = .TLM_READ_COMMAND ∨
            (s.payload t).m_command = .TLM_WRITE_COMMAND) ∧
          s'.target = { s.target with
            m_memory := s'.target.m_memory
            m_response_queue := rest
            m_end_response_queue := s.target.m_end_response_queue ++ [t]
            begin_response_QActive := decide (rest ≠ []) } ∧
          sent .BEGIN_RESP s'.log = sent .BEGIN_RESP s.log ++ [t])) := by
  cases ha : s.target.begin_response_QActive with
  | false =>
    have e : begin_response_method verdict s = begin_response_rearm s := by
      unfold begin_response_method
      rw [if_neg (by simp [ha])]
    rw [e] at h
    obtain ⟨ht, hp, hb, hs, hc⟩ := begin_response_rearm_ret_spec s s' h
    refine ⟨fun p => by rw [hp], hs _, fun t rest hq => ?_, Or.inl ⟨rfl, ht, hs _⟩⟩
    rw [hp]
    apply hc t rest
    rw [ht] at hq
    exact hq
  | true =>
    cases hq : s.target.m_response_queue with
    | nil =>
      unfold begin_response_method at h
      rw [if_pos ha] at h
      simp only [hq] at h
      cases h
    | cons t rest =>
      cases hm : memory_operation t
          (s.withTarget { s.target with m_response_queue := rest }) with
      | undefined =>
        rw [begin_response_method_active_undefined verdict s t rest ha hq hm] at h
        cases h
      | fatal s2 =>
        unfold begin_response_method at h
        rw [if_pos ha] at h
        simp only [hq, hm] at h
        cases h
      | ret u s2 =>
        rw [begin_response_method_active verdict s s2 t rest ha hq hm] at h
        obtain ⟨hl, hf, hcmd⟩ := memory_operation_ret_frame _ _ _ _ hm
        have hl' : s2.log = s.log := hl
        have hct := memory_operation_ret_command _ _ _ _ hm
        have hct' : (s.payload t).m_command = .TLM_READ_COMMAND ∨
            (s.payload t).m_command = .TLM_WRITE_COMMAND := hct
        cases verdict with
        | TLM_ACCEPTED =>
          dsimp only at h
          obtain ⟨ht, hp, hb, hs, hc⟩ := begin_response_rearm_ret_spec _ s' h
          have hpc : ∀ p, (s'.payload p).m_command = (s.payload p).m_command := by
            intro p
            rw [hp]
            have : (s2.payload p).m_command = (s.payload p).m_command := hcmd p
            rw [← this]
            exact set_response_status_command s2 t p _
          have hrq : (begin_response_accepted (begin_response_sent s2 t) t).target.m_response_queue
              = rest := by
            show s2.target.m_response_queue = rest
            rw [hf]
            rfl
          refine ⟨hpc, ?_, fun t' rest' hq' => ?_, Or.inr ⟨rfl, t, rest, rfl, hct', ?_, ?_⟩⟩
          · rw [hs]
            show sent .END_REQ ((s2.log ++ _) ++ _) = _
            rw [hl']
            simp [sent_append]
          · rw [hp]
            apply hc t' rest'
            rw [ht] at hq'
            exact hq'
          · rw [ht, hrq]
            show { s2.target with
              m_end_response_queue := s2.target.m_end_response_queue ++ [t]
              begin_response_QActive := decide (rest ≠ []) } = _
            rw [hf]
            rfl
          · rw [hs]
            show sent .BEGIN_RESP ((s2.log ++ _) ++ _) = _
            rw [hl']
            simp [sent_append]
        | TLM_UPDATED => cases h
        | TLM_COMPLETED => cases h

/-! ### The activity flags (C26) -/

/-- A step that returns keeps the activity-flag invariant: an activity whose flag
is set has a transaction in its queue. -/
theorem Step_flags (offers : Sim → Ptr → Prop) (s s' : Sim) (h : Step offers s s')
    (h1 : s.target.end_request_QActive = true → s.target.m_end_request_queue ≠ [])
    (h2 : s.target.begin_response_QActive = true → s.target.m_response_queue ≠ []) :
    (s'.target.end_request_QActive = true → s'.target.m_end_request_queue ≠ []) ∧
    (s'.target.begin_response_QActive = true → s'.target.m_response_queue ≠ []) := by
  cases h with
  | inbound gp phase delay_time r _ hr =>
    obtain ⟨-, -, -, ⟨-, ht⟩ | ⟨-, rest, -, ht⟩⟩ := nb_transport_ret_spec _ _ _ _ _ _ hr
    · rw [ht]
      exact ⟨fun _ => by simp, h2⟩
    · rw [ht]
      exact ⟨h1, h2⟩
  | end_request verdict hr =>
    obtain ⟨-, -, -, ⟨-, ht, -⟩ | ⟨-, t, rest, -, ht, -⟩⟩ :=
      end_request_method_ret_spec _ _ _ hr
    · rw [ht]
      exact ⟨fun ha => by simpa using ha, h2⟩
    · rw [ht]
      exact ⟨fun ha => by simpa using ha, fun _ => by simp⟩
  | begin_response verdict hr =>
    obtain ⟨-, -, -, ⟨-, ht, -⟩ | ⟨-, t, rest, -, -, ht, -⟩⟩ :=
      begin_response_method_ret_spec _ _ _ hr
    · rw [ht]
      exact ⟨h1, fun ha => by simpa using ha⟩
    · rw [ht]
      exact ⟨h1, fun ha => by simpa using ha⟩

/-- The activity-flag invariant holds in every state reached from an initial
state by steps that return. -/
theorem Reachable_flags (offers : Sim → Ptr → Prop) (s : Sim) (h : Reachable offers s) :
    (s.target.end_request_QActive = true → s.target.m_end_request_queue ≠ []) ∧
    (s.target.begin_response_QActive = true → s.target.m_response_queue ≠ []) := by
  obtain ⟨s0, ⟨-, -, -, hb, he⟩, hrun⟩ := h
  induction hrun with
  | refl =>
    constructor
    · intro ha
      rw [he] at ha
      cases ha
    · intro ha
      rw [hb] at ha
      cases ha
  | tail _ hstep ih => exact Step_flags offers _ _ hstep ih.1 ih.2

set_option maxRecDepth 100000 in
/-- The six steps of the run of `c13_sim`. -/
theorem c26_steps :
    Step anyOffer c13_sim c26_s1 ∧ Step anyOffer c26_s1 c26_s2 ∧ Step anyOffer c26_s2 c26_s3 ∧
    Step anyOffer c26_s3 c26_s4 ∧ Step anyOffer c26_s4 c26_s5 ∧ Step anyOffer c26_s5 c26_s6 :=
  ⟨Step.inbound _ _ 1 .BEGIN_REQ 0 .TLM_ACCEPTED (fun _ => trivial) rfl,
    Step.end_request _ _ .TLM_ACCEPTED rfl,
    Step.end_request _ _ .TLM_ACCEPTED rfl,
    Step.begin_response _ _ .TLM_ACCEPTED rfl,
    Step.begin_response _ _ .TLM_ACCEPTED rfl,
    Step.inbound _ _ 1 .END_RESP 0 .TLM_COMPLETED (fun h => by cases h) rfl⟩

/-- C26: in every state reached from the initial state by inbound calls and
firings that return, `end_request_QActive` true implies that the end-request
queue holds a transaction and `begin_response_QActive` true implies that the
response queue holds one; so no firing of the end-request activity takes the
front of an empty queue, and an active firing of the begin-response activity
finds a front to take. -/
theorem activity_flag_invariant (s : Sim) (h : Reachable anyOffer s) :
    (s.target.end_request_QActive = true →
      ∃ t rest, s.target.m_end_request_queue = t :: rest) ∧
    (s.target.begin_response_QActive = true →
      ∃ t rest, s.target.m_response_queue = t :: rest) ∧
    (∀ verdict, end_request_method verdict s ≠ Result.undefined) := by
  obtain ⟨h1, h2⟩ := Reachable_flags anyOffer s h
  refine ⟨fun ha => ?_, fun ha => ?_, fun verdict hu => ?_⟩
  · cases hq : s.target.m_end_request_queue with
    | nil => exact absurd hq (h1 ha)
    | cons t rest => exact ⟨t, rest, rfl⟩
  · cases hq : s.target.m_response_queue with
    | nil => exact absurd hq (h2 ha)
    | cons t rest => exact ⟨t, rest, rfl⟩
  · rcases end_request_method_outcome verdict s with hu' | ⟨f, hf, -⟩ | ⟨r, hr, -⟩
    · cases ha : s.target.end_request_QActive with
      | false =>
        rw [end_request_method_idle verdict s ha] at hu
        obtain ⟨s'', e, -⟩ := end_request_rearm_spec s
        rw [e] at hu
        cases hu
      | true =>
        cases hq : s.target.m_end_request_queue with
        | nil => exact absurd hq (h1 ha)
        | cons t rest =>
          rw [end_request_method_active verdict s t rest ha hq] at hu
          cases verdict with
          | TLM_ACCEPTED =>
            dsimp only at hu
            obtain ⟨s'', e, -⟩ := end_request_rearm_spec (end_request_sent s t rest)
            rw [e] at hu
            cases hu
          | TLM_UPDATED => cases hu
          | TLM_COMPLETED => cases hu
    · rw [hf] at hu
      cases hu
    · rw [hr] at hu
      cases hu

/-- C26 at the state of the run of `c13_sim` after four steps: the flag of the
begin-response activity is set there, and the response queue holds
transaction 1. -/
theorem activity_flag_invariant_witness :
    Reachable anyOffer c26_s4 ∧ c26_s4.target.begin_response_QActive = true ∧
    ∃ t rest, c26_s4.target.m_response_queue = t :: rest := by
  have hr : Reachable anyOffer c26_s4 :=
    ⟨c13_sim, ⟨rfl, rfl, rfl, rfl, rfl⟩,
      (((Relation.ReflTransGen.refl.tail c26_steps.1).tail c26_steps.2.1).tail
        c26_steps.2.2.1).tail c26_steps.2.2.2.1⟩
  exact ⟨hr, rfl, (activity_flag_invariant c26_s4 hr).2.1 rfl⟩

/-! ### The command of the transaction an active firing pops (C27) -/

/-- In every state of a run, when the flag of the begin-response activity is
set, the response queue holds a transaction and the one at its front is a read
or a write. -/
theorem Run_front_command (s : Sim) (R C : List Ptr) (h : Run s R C) :
    s.target.begin_response_QActive = true →
      ∃ t rest, s.target.m_response_queue = t :: rest ∧
        ((s.payload t).m_command = .TLM_READ_COMMAND ∨
          (s.payload t).m_command = .TLM_WRITE_COMMAND) := by
  induction h with
  | init s hi _ =>
    intro ha
    rw [hi.2.2.2.1] at ha
    cases ha
  | begin_req s s' R C gp delay_time r _ hr ih =>
    obtain ⟨hp, -, -, ⟨-, ht⟩ | ⟨hph, -⟩⟩ := nb_transport_ret_spec _ _ _ _ _ _ hr
    · rw [ht, hp]
      exact ih
    · cases hph
  | end_resp s s' R C gp delay_time r _ hr ih =>
    obtain ⟨hp, -, -, ⟨hph, -⟩ | ⟨-, rest, -, ht⟩⟩ := nb_transport_ret_spec _ _ _ _ _ _ hr
    · cases hph
    · rw [ht, hp]
      exact ih
  | end_request s s' R C verdict _ hr ih =>
    obtain ⟨hp, -, -, ⟨-, ht, -⟩ | ⟨-, t, rest, -, ht, -⟩⟩ :=
      end_request_method_ret_spec _ _ _ hr
    · rw [ht, hp]
      exact ih
    · rw [ht, hp]
      intro ha
      obtain ⟨t', rest', hq, hc⟩ := ih ha
      refine ⟨t', rest' ++ [t], ?_, hc⟩
      show s.target.m_response_queue ++ [t] = _
      rw [hq]
      rfl
  | begin_response s s' R C verdict _ hr ih =>
    obtain ⟨-, -, hfront, hcase⟩ := begin_response_method_ret_spec _ _ _ hr
    intro ha
    cases hq : s'.target.m_response_queue with
    | nil =>
      rcases hcase with ⟨-, ht, -⟩ | ⟨-, t, rest, -, -, ht, -⟩
      · rw [ht] at ha hq
        simp only [decide_eq_true_eq] at ha
        exact absurd hq ha
      · rw [ht] at ha hq
        simp only [decide_eq_true_eq] at ha
        exact absurd hq ha
    | cons t rest => exact ⟨t, rest, rfl, hfront t rest hq⟩
  | edit s s' R C _ he ih =>
    obtain ⟨ht, -, hc⟩ := he
    rw [ht]
    intro ha
    obtain ⟨t, rest, hq, hcmd⟩ := ih ha
    refine ⟨t, rest, hq, ?_⟩
    rw [hc t (by rw [hq]; exact List.mem_cons_self _ _)]
    exact hcmd

/-- C27: in every state of a run in which the command of no transaction in the
response queue is rewritten, a set flag of the begin-response activity means
that the response queue holds a transaction `t` at its front whose command is a
read or a write, so an active firing passes a read or a write to
`memory_operation`, which does not stop in its invalid-command branch; and the
delay selection stops in `REPORT_FATAL`, with the flag set and before any
active firing, on any state whose response queue has a transaction with
another command at its front. -/
theorem memory_operation_fatal_unreachable (s : Sim) (R C : List Ptr) (h : Run s R C) :
    (s.target.begin_response_QActive = true →
      ∃ t rest, s.target.m_response_queue = t :: rest ∧
        ((s.payload t).m_command = .TLM_READ_COMMAND ∨
          (s.payload t).m_command = .TLM_WRITE_COMMAND) ∧
        (∀ f, memory_operation t (s.withTarget { s.target with m_response_queue := rest })
          ≠ Result.fatal f)) ∧
    (∀ (m : Sim) (t : Ptr) (rest : List Ptr), m.target.m_response_queue = t :: rest →
      (m.payload t).m_command = .TLM_IGNORE_COMMAND →
      begin_response_rearm m
        = Result.fatal (m.withTarget { m.target with begin_response_QActive := true })) := by
  refine ⟨fun ha => ?_, fun m t rest hq hc => begin_response_rearm_other m t rest hq hc⟩
  obtain ⟨t, rest, hq, hc⟩ := Run_front_command s R C h ha
  refine ⟨t, rest, hq, hc, fun f hf => ?_⟩
  have hi := memory_operation_fatal_command _ _ _ hf
  have hi' : (s.payload t).m_command = .TLM_IGNORE_COMMAND := hi
  rw [hi'] at hc
  rcases hc with hc | hc <;> cases hc

set_option maxRecDepth 100000 in
/-- The run of `c13_sim` with its history: after four steps `BEGIN_REQ` was
received for transaction 1; after six, `END_RESP` too. -/
theorem c26_run : Run c26_s4 [1] [] ∧ Run c26_s6 [1] [1] := by
  have r0 : Run c13_sim [] [] := Run.init c13_sim ⟨rfl, rfl, rfl, rfl, rfl⟩ rfl
  have r1 : Run c26_s1 ([] ++ [1]) [] := Run.begin_req _ _ _ _ 1 0 .TLM_ACCEPTED r0 rfl
  have r2 : Run c26_s2 ([] ++ [1]) [] := Run.end_request _ _ _ _ .TLM_ACCEPTED r1 rfl
  have r3 : Run c26_s3 ([] ++ [1]) [] := Run.end_request _ _ _ _ .TLM_ACCEPTED r2 rfl
  have r4 : Run c26_s4 ([] ++ [1]) [] := Run.begin_response _ _ _ _ .TLM_ACCEPTED r3 rfl
  have r5 : Run c26_s5 ([] ++ [1]) [] := Run.begin_response _ _ _ _ .TLM_ACCEPTED r4 rfl
  have r6 : Run c26_s6 ([] ++ [1]) ([] ++ [1]) := Run.end_resp _ _ _ _ 1 0 .TLM_COMPLETED r5 rfl
  exact ⟨r4, r6⟩

/-- C27 at the state of the run of `c13_sim` after four steps: the flag of the
begin-response activity is set, and the front of the response queue is a
write. -/
theorem memory_operation_fatal_unreachable_witness :
    Run c26_s4 [1] [] ∧ c26_s4.target.begin_response_QActive = true ∧
    ∃ t rest, c26_s4.target.m_response_queue = t :: rest ∧
      ((c26_s4.payload t).m_command = .TLM_READ_COMMAND ∨
        (c26_s4.payload t).m_command = .TLM_WRITE_COMMAND) := by
  obtain ⟨t, rest, hq, hc, -⟩ :=
    (memory_operation_fatal_unreachable c26_s4 [1] [] c26_run.1).1 rfl
  exact ⟨c26_run.1, rfl, t, rest, hq, hc⟩

/-! ### No reordering and no dropping, where `END_RESP` finds a transaction -/

/-- A step that returns leaves the sequence of the transactions in the engine, or
is a `BEGIN_REQ` that appends its transaction at the back, or an `END_RESP`
that removes its transaction from the front. -/
theorem Step_in_flight (offers : Sim → Ptr → Prop) (s s' : Sim) (h : Step offers s s') :
    in_flight s'.target = in_flight s.target ∨
    (∃ gp delay_time r, nb_transport gp .BEGIN_REQ delay_time s = Result.ret r s' ∧
      in_flight s'.target = in_flight s.target ++ [gp]) ∨
    (∃ gp delay_time r, nb_transport gp .END_RESP delay_time s = Result.ret r s' ∧
      in_flight s.target = gp :: in_flight s'.target) := by
  cases h with
  | inbound gp phase delay_time r _ hr =>
    obtain ⟨-, -, -, ⟨hph, ht⟩ | ⟨hph, rest, hq, ht⟩⟩ := nb_transport_ret_spec _ _ _ _ _ _ hr
    · subst hph
      right; left
      refine ⟨gp, delay_time, r, hr, ?_⟩
      rw [ht]
      simp [in_flight, List.append_assoc]
    · subst hph
      right; right
      refine ⟨gp, delay_time, r, hr, ?_⟩
      rw [ht]
      simp [in_flight, hq]
  | end_request verdict hr =>
    left
    obtain ⟨-, -, -, ⟨-, ht, -⟩ | ⟨-, t, rest, hq, ht, -⟩⟩ :=
      end_request_method_ret_spec _ _ _ hr
    · rw [ht]
      rfl
    · rw [ht]
      simp [in_flight, hq, List.append_assoc]
  | begin_response verdict hr =>
    left
    obtain ⟨-, -, -, ⟨-, ht, -⟩ | ⟨-, t, rest, hq, -, ht, -⟩⟩ :=
      begin_response_method_ret_spec _ _ _ hr
    · rw [ht]
      rfl
    · rw [ht]
      simp [in_flight, hq, List.append_assoc]

/-- In every state of a run, the transactions `BEGIN_REQ` was received for are,
in order, those `END_RESP` was received for, then those in the end-response
queue, in the response queue and in the end-request queue; `END_REQ` was sent,
in order, for those that have left the end-request queue, and `BEGIN_RESP` for
those that have left the response queue. -/
theorem Run_history (s : Sim) (R C : List Ptr) (h : Run s R C) :
    R = C ++ in_flight s.target ∧
    sent .END_REQ s.log = C ++ s.target.m_end_response_queue ++ s.target.m_response_queue ∧
    sent .BEGIN_RESP s.log = C ++ s.target.m_end_response_queue := by
  induction h with
  | init s hi hl =>
    obtain ⟨h1, h2, h3, -, -⟩ := hi
    simp [in_flight, h1, h2, h3, hl, sent]
  | begin_req s s' R C gp delay_time r _ hr ih =>
    obtain ⟨ih1, ih2, ih3⟩ := ih
    obtain ⟨-, -, hs, ⟨-, ht⟩ | ⟨hph, -⟩⟩ := nb_transport_ret_spec _ _ _ _ _ _ hr
    · rw [hs, hs, ht, ih1]
      refine ⟨?_, ih2, ih3⟩
      simp [in_flight, List.append_assoc]
    · cases hph
  | end_resp s s' R C gp delay_time r _ hr ih =>
    obtain ⟨ih1, ih2, ih3⟩ := ih
    obtain ⟨-, -, hs, ⟨hph, -⟩ | ⟨-, rest, hq, ht⟩⟩ := nb_transport_ret_spec _ _ _ _ _ _ hr
    · cases hph
    · rw [hs, hs, ht, ih1, ih2, ih3]
      simp [in_flight, hq, List.append_assoc]
  | end_request s s' R C verdict _ hr ih =>
    obtain ⟨ih1, ih2, ih3⟩ := ih
    obtain ⟨-, -, hb, ⟨-, ht, he⟩ | ⟨-, t, rest, hq, ht, he⟩⟩ :=
      end_request_method_ret_spec _ _ _ hr
    · rw [hb, he, ht]
      exact ⟨ih1, ih2, ih3⟩
    · rw [hb, he, ht, ih1, ih2, ih3]
      simp [in_flight, hq, List.append_assoc]
  | begin_response s s' R C verdict _ hr ih =>
    obtain ⟨ih1, ih2, ih3⟩ := ih
    obtain ⟨-, he, -, ⟨-, ht, hb⟩ | ⟨-, t, rest, hq, -, ht, hb⟩⟩ :=
      begin_response_method_ret_spec _ _ _ hr
    · rw [hb, he, ht]
      exact ⟨ih1, ih2, ih3⟩
    · rw [hb, he, ht, ih1, ih2, ih3]
      simp [in_flight, hq, List.append_assoc]
  | edit s s' R C _ he ih =>
    obtain ⟨ht, hl, -⟩ := he
    rw [ht, hl]
    exact ih

/-- Where no call performs an undefined access (no `END_RESP` is received while
the end-response queue is empty): every step of the engine that returns leaves
the sequence of the transactions in the engine (end-response queue, response
queue, end-request queue, each front first) or is a `BEGIN_REQ` that appends
its transaction at the back or an `END_RESP` that removes its transaction from
the front.  Hence in every state of a run the transactions `BEGIN_REQ` was
received for are, in order, those completed by `END_RESP` followed by those in
the engine, and the `END_REQ` sends, the `BEGIN_RESP` sends and the `END_RESP`
completions are each an initial part of the sequence of the `BEGIN_REQ`s
received: they occur in the order of the `BEGIN_REQ`s. -/
theorem no_reordering_no_dropping (s : Sim) (R C : List Ptr) (h : Run s R C) :
    R = C ++ in_flight s.target ∧
    sent .END_REQ s.log = C ++ s.target.m_end_response_queue ++ s.target.m_response_queue ∧
    sent .BEGIN_RESP s.log = C ++ s.target.m_end_response_queue ∧
    sent .END_REQ s.log <+: R ∧ sent .BEGIN_RESP s.log <+: R ∧ C <+: R ∧
    (∀ s1 s2, Step anyOffer s1 s2 →
      in_flight s2.target = in_flight s1.target ∨
      (∃ gp delay_time r, nb_transport gp .BEGIN_REQ delay_time s1 = Result.ret r s2 ∧
        in_flight s2.target = in_flight s1.target ++ [gp]) ∨
      (∃ gp delay_time r, nb_transport gp .END_RESP delay_time s1 = Result.ret r s2 ∧
        in_flight s1.target = gp :: in_flight s2.target)) := by
  obtain ⟨h1, h2, h3⟩ := Run_history s R C h
  refine ⟨h1, h2, h3, ?_, ?_, ?_, fun s1 s2 hs => Step_in_flight anyOffer s1 s2 hs⟩
  · rw [h2, h1]
    exact ⟨s.target.m_end_request_queue, by simp [in_flight, List.append_assoc]⟩
  · rw [h3, h1]
    exact ⟨s.target.m_response_queue ++ s.target.m_end_request_queue,
      by simp [in_flight, List.append_assoc]⟩
  · rw [h1]
    exact ⟨in_flight s.target, rfl⟩

set_option maxRecDepth 100000 in
/-- The history of the run of `c13_sim` after six steps: `BEGIN_REQ`, `END_REQ`,
`BEGIN_RESP` and `END_RESP` have each occurred for transaction 1, and nothing is
left in the engine. -/
theorem no_reordering_no_dropping_witness :
    Run c26_s6 [1] [1] ∧ sent .END_REQ c26_s6.log = [1] ∧ sent .BEGIN_RESP c26_s6.log = [1] ∧
    in_flight c26_s6.target = [] := by
  obtain ⟨h1, h2, h3, -⟩ := no_reordering_no_dropping c26_s6 [1] [1] c26_run.2
  have hq : c26_s6.target.m_end_response_queue = [] := by decide
  have hr : c26_s6.target.m_response_queue = [] := by decide
  rw [hq, hr] at h2
  rw [hq] at h3
  exact ⟨c26_run.2, h2, h3, (List.self_eq_append_right.mp h1)⟩

/-! ### Response delay selection, for every firing (C9) -/

/-- C9: the delay selection of lines 338-370, in every state `m`: when the
response queue is empty it returns with the activity idle and arms nothing;
when the front of the response queue is a read it returns with the activity
active and has armed exactly one notification of the begin-response event, with
delay `m_read_response_delay`, and nothing else; when it is a write, exactly one
with delay `m_write_response_delay`; for any other command it stops in
`REPORT_FATAL` and has armed nothing.  Every firing of the begin-response
activity ends with it: an idle firing is the delay selection on the state of
the call; an active firing, whose `memory_operation` returns for every read or
write of fewer than `2^31` bytes with a buffer that holds them, is, when the
verdict is `TLM_ACCEPTED`, the delay selection on a state `m` whose response
queue is the one of the call less its front, with the delays and the commands
of the call and nothing armed since the call; with any other verdict it stops
in `REPORT_FATAL` before, with nothing armed. -/
theorem begin_response_delay_selection (verdict : tlm_sync_enum) (s : Sim) :
    (∀ m : Sim,
      (m.target.m_response_queue = [] →
        ∃ s', begin_response_rearm m = Result.ret () s' ∧
          s'.target = { m.target with begin_response_QActive := false } ∧
          ∀ e, armed e s'.log = armed e m.log) ∧
      (∀ t rest, m.target.m_response_queue = t :: rest →
        ((m.payload t).m_command = .TLM_READ_COMMAND →
          ∃ s', begin_response_rearm m = Result.ret () s' ∧
            s'.target = { m.target with begin_response_QActive := true } ∧
            armed .m_begin_response_event s'.log
              = armed .m_begin_response_event m.log ++ [m.target.m_read_response_delay] ∧
            ∀ e, e ≠ .m_begin_response_event → armed e s'.log = armed e m.log) ∧
        ((m.payload t).m_command = .TLM_WRITE_COMMAND →
          ∃ s', begin_response_rearm m = Result.ret () s' ∧
            s'.target = { m.target with begin_response_QActive := true } ∧
            armed .m_begin_response_event s'.log
              = armed .m_begin_response_event m.log ++ [m.target.m_write_response_delay] ∧
            ∀ e, e ≠ .m_begin_response_event → armed e s'.log = armed e m.log) ∧
        ((m.payload t).m_command = .TLM_IGNORE_COMMAND →
          ∃ f, begin_response_rearm m = Result.fatal f ∧
            ∀ e, armed e f.log = armed e m.log))) ∧
    (s.target.begin_response_QActive = false →
      begin_response_method verdict s = begin_response_rearm s) ∧
    (s.target.begin_response_QActive = true →
      ∀ t rest, s.target.m_response_queue = t :: rest →
        (((s.payload t).m_command = .TLM_READ_COMMAND ∨
            (s.payload t).m_command = .TLM_WRITE_COMMAND) →
          s.target.m_memory_size < U64 →
          s.target.m_memory.length = s.target.m_memory_size →
          (s.payload t).m_length < 2 ^ 31 →
          (s.payload t).m_length ≤ (s.bytes (s.payload t).m_data).length →
          ∃ s2, memory_operation t (s.withTarget { s.target with m_response_queue := rest })
            = Result.ret () s2) ∧
        (∀ s2, memory_operation t (s.withTarget { s.target with m_response_queue := rest })
            = Result.ret () s2 →
          (verdict = .TLM_ACCEPTED →
            ∃ m : Sim, begin_response_method verdict s = begin_response_rearm m ∧
              m.target.m_response_queue = rest ∧
              m.target.m_read_response_delay = s.target.m_read_response_delay ∧
              m.target.m_write_response_delay = s.target.m_write_response_delay ∧
              (∀ p, (m.payload p).m_command = (s.payload p).m_command) ∧
              ∀ e, armed e m.log = armed e s.log) ∧
          (verdict ≠ .TLM_ACCEPTED →
            ∃ f, begin_response_method verdict s = Result.fatal f ∧
              ∀ e, armed e f.log = armed e s.log))) := by
  refine ⟨fun m => ⟨fun hq => ?_, fun t rest hq => ⟨fun hc => ?_, fun hc => ?_, fun hc => ?_⟩⟩,
    fun ha => ?_, fun ha t rest hq => ⟨fun hc hsize hmem hlen hbuf => ?_, fun s2 hm => ?_⟩⟩
  · rw [begin_response_rearm_nil m hq]
    refine ⟨_, rfl, rfl, fun e => ?_⟩
    simp [armed_append]
  · rw [begin_response_rearm_read m t rest hq hc]
    refine ⟨_, rfl, rfl, ?_, fun e he => ?_⟩
    · simp [armed_append]
    · simp [armed_append, Ne.symm he]
  · rw [begin_response_rearm_write m t rest hq hc]
    refine ⟨_, rfl, rfl, ?_, fun e he => ?_⟩
    · simp [armed_append]
    · simp [armed_append, Ne.symm he]
  · rw [begin_response_rearm_other m t rest hq hc]
    exact ⟨_, rfl, fun e => rfl⟩
  · unfold begin_response_method
    rw [if_neg (by simp [ha])]
  · obtain ⟨s2, h1, -⟩ :=
      memory_operation_returns t (s.withTarget { s.target with m_response_queue := rest })
        hc hsize hmem hlen hbuf
    exact ⟨s2, h1⟩
  · obtain ⟨hl, hf, hcmd⟩ := memory_operation_ret_frame _ _ _ _ hm
    have hl' : s2.log = s.log := hl
    have hact := begin_response_method_active verdict s s2 t rest ha hq hm
    constructor
    · intro hv
      subst hv
      refine ⟨begin_response_accepted (begin_response_sent s2 t) t, hact, ?_, ?_, ?_,
        fun p => ?_, fun e => ?_⟩
      · show s2.target.m_response_queue = rest
        rw [hf]
        rfl
      · show s2.target.m_read_response_delay = _
        rw [hf]
        rfl
      · show s2.target.m_write_response_delay = _
        rw [hf]
        rfl
      · have : (s2.payload p).m_command = (s.payload p).m_command := hcmd p
        rw [← this]
        exact set_response_status_command s2 t p _
      · show armed e ((s2.log ++ _) ++ _) = _
        rw [hl']
        simp [armed_append]
    · intro hv
      refine ⟨begin_response_sent s2 t, ?_, fun e => ?_⟩
      · rw [hact]
        cases verdict
        · exact absurd rfl hv
        · rfl
        · rfl
      · show armed e (s2.log ++ _) = _
        rw [hl']
        simp [armed_append]

/-- C9 at a response queue holding the read 2 in front of the write 1, with read
delay 20 and write delay 15: the idle firing returns and has armed the delay
20, the one of the read at the front; the active firing that follows sends
`BEGIN_RESP` for the read, returns, and has armed the delay 15, the one of the
write now at the front. -/
theorem begin_response_delay_selection_witness :
    c9_sim.target.m_response_queue = [2, 1] ∧
    (c9_sim.payload 2).m_command = .TLM_READ_COMMAND ∧
    (c9_sim.payload 1).m_command = .TLM_WRITE_COMMAND ∧
    (∃ s', begin_response_method .TLM_ACCEPTED c9_sim = Result.ret () s' ∧
      armed .m_begin_response_event s'.log = [20]) ∧
    (∃ s', begin_response_method .TLM_ACCEPTED c9_s1 = Result.ret () s' ∧
      armed .m_begin_response_event s'.log = [20, 15]) := by
  refine ⟨rfl, rfl, rfl, ?_, ?_⟩
  · obtain ⟨hA, hidle, -⟩ := begin_response_delay_selection .TLM_ACCEPTED c9_sim
    obtain ⟨s', e, -, ha, -⟩ := ((hA c9_sim).2 2 [1] rfl).1 rfl
    rw [hidle rfl]
    exact ⟨s', e, ha⟩
  · obtain ⟨hA, -, hact⟩ := begin_response_delay_selection .TLM_ACCEPTED c9_s1
    obtain ⟨hret, hfire⟩ := hact rfl 2 [1] rfl
    obtain ⟨s2, hs2⟩ := hret (Or.inl rfl) (by decide) (by decide) (by decide) (by decide)
    obtain ⟨m, hm, hq, -, hw, hc, harm⟩ := (hfire s2 hs2).1 rfl
    have hcw : (m.payload 1).m_command = .TLM_WRITE_COMMAND := by
      rw [hc 1]
      rfl
    obtain ⟨s', e, -, ha, -⟩ := ((hA m).2 1 [] hq).2.1 hcw
    rw [hm]
    refine ⟨s', e, ?_⟩
    rw [ha, harm, hw]
    rfl

/-! ### `END_RESP` received while the end-response queue is empty (C5, C24) -/

